import Mathlib

/-!
# user-auth-service: session and credential lifecycle

A shallow embedding of the token codec (`internal/infra/security`), the session
store (`internal/infra/repository`, `internal/domain/session`), the auth service
(`internal/domain/auth`), the HTTP handlers (`internal/infra/http/handlers`) and
the authorization middleware (`internal/infra/middleware`).

What the Go code takes from outside is an explicit input here:

* the third-party primitives (JWT compact serialization, HMAC, SHA-256, bcrypt)
  are the fields of `Primitives`; nothing is assumed about them except
  where a theorem says so in a hypothesis;
* every `time.Now()` and every `uuid.NewString()` is a field of the
  environment record of the handler that reads it;
* every database call can fail: the environment says which ones do;
* `float64` is modelled exactly for the operations of `Duration.Seconds`
  (conversion, division and addition, rounded to nearest, ties to even).
-/

namespace UserAuth

/-- Results with an error are compared by their content. -/
instance instDecidableEqExcept {ε α : Type} [DecidableEq ε] [DecidableEq α] :
    DecidableEq (Except ε α) := fun x y =>
  match x, y with
  | Except.ok a, Except.ok b =>
    if h : a = b then isTrue (congrArg Except.ok h)
    else isFalse (fun h2 => h (Except.ok.inj h2))
  | Except.error a, Except.error b =>
    if h : a = b then isTrue (congrArg Except.error h)
    else isFalse (fun h2 => h (Except.error.inj h2))
  | Except.ok _, Except.error _ => isFalse (fun h => Except.noConfusion h)
  | Except.error _, Except.ok _ => isFalse (fun h => Except.noConfusion h)

/-! ## Time -/

/-- An instant, in nanoseconds since the Unix epoch (`time.Time`). -/
abbrev Time := Int

/-- A span of time in nanoseconds (`time.Duration`). -/
abbrev Duration := Int

/-- One second, `time.Second`. -/
def second : Duration := 1000000000

/-- The zero value of `time.Time`: January 1 of year 1, 00:00 UTC. -/
def zeroTime : Time := -62135596800 * second

/-- The method `Time.Unix`: whole seconds since the epoch, rounded down. -/
def unixSeconds (t : Time) : Int := Int.fdiv t second

/-- The constructor `time.Unix(sec, 0)`. -/
def timeUnix (sec : Int) : Time := sec * second

/-! ## IEEE 754 double precision, as far as `Duration.Seconds` needs it -/

/-- A finite `float64` value, `mant * 2 ^ exp`. -/
structure Float64 where
  mant : Int
  exp : Int
  deriving DecidableEq, Repr

namespace Float64

/-- The position of the leading bit of `n`, found by halving; the first argument
bounds the number of halvings. -/
def log2Fuel : Nat → Nat → Nat
  | 0, _ => 0
  | fuel + 1, n => if n < 2 then 0 else log2Fuel fuel (n / 2) + 1

/-- The position of the leading bit of `n`: the floor of its binary logarithm. -/
def log2 (n : Nat) : Nat := log2Fuel n n

/-- The fraction `n / d` divided by `2 ^ e`, as a numerator and a denominator. -/
def scaled (n d : Nat) (e : Int) : Nat × Nat :=
  if 0 ≤ e then (n, d * 2 ^ e.toNat) else (n * 2 ^ (-e).toNat, d)

/-- The positive fraction `n / d` rounded to 53 significant bits, to nearest, ties
to even: the mantissa and the exponent of the result. The exponent is chosen so
that the quotient has its leading bit at position 52; the quotient is rounded
down or up according to twice the remainder. Exponent range and subnormal
numbers are not modelled. -/
def roundMag (n d : Nat) : Nat × Int :=
  if n = 0 ∨ d = 0 then (0, 0)
  else
    let k : Int := (log2 n : Int) - (log2 d : Int) - 52
    let e : Int := if (scaled n d k).1 / (scaled n d k).2 < 2 ^ 52 then k - 1 else k
    let q := (scaled n d e).1 / (scaled n d e).2
    let r := (scaled n d e).1 % (scaled n d e).2
    if 2 * r < (scaled n d e).2 ∨ (2 * r = (scaled n d e).2 ∧ q % 2 = 0) then (q, e)
    else (q + 1, e)

/-- The fraction `n / d` rounded to the nearest `float64`, ties to even. -/
def round (n : Int) (d : Nat) : Float64 :=
  { mant := if n < 0 then -((roundMag n.natAbs d).1 : Int) else ((roundMag n.natAbs d).1 : Int),
    exp := (roundMag n.natAbs d).2 }

/-- The conversion `float64(n)` of an integer. -/
def ofInt (n : Int) : Float64 := round n 1

/-- The sum of two `float64` values: the exact sum, rounded. -/
def add (a b : Float64) : Float64 :=
  let e := min a.exp b.exp
  let r := round (a.mant * 2 ^ (a.exp - e).toNat + b.mant * 2 ^ (b.exp - e).toNat) 1
  { mant := r.mant, exp := r.exp + e }

/-- The quotient of two `float64` values, the divisor not zero: the exact
quotient, rounded. -/
def div (a b : Float64) : Float64 :=
  let r := round (a.mant * b.mant.sign) b.mant.natAbs
  { mant := r.mant, exp := r.exp + a.exp - b.exp }

/-- The conversion `int(f)`: the fraction is discarded (truncation towards zero). -/
def toInt (a : Float64) : Int :=
  if 0 ≤ a.exp then a.mant * 2 ^ a.exp.toNat else Int.tdiv a.mant (2 ^ (-a.exp).toNat)

/-- The number a `float64` value stands for. -/
def val (a : Float64) : ℚ := (a.mant : ℚ) * (2 : ℚ) ^ a.exp

/-- That `m * 2 ^ e` is the positive number `x` rounded at the spacing `2 ^ e`: it
lies within half a spacing of `x`, no multiple of the spacing lies strictly
between the two, and `x` is at least `2 ^ 52` spacings. -/
def Rounds (x : ℚ) (m : Nat) (e : Int) : Prop :=
  |(m : ℚ) * (2 : ℚ) ^ e - x| ≤ (2 : ℚ) ^ e / 2 ∧ (2 : ℚ) ^ (52 : Nat) * (2 : ℚ) ^ e ≤ x ∧
    (∀ a : Nat, (a : ℚ) * (2 : ℚ) ^ e ≤ x → a ≤ m) ∧
    (∀ b : Nat, x ≤ (b : ℚ) * (2 : ℚ) ^ e → m ≤ b)

end Float64

/-- The method `Duration.Seconds`:
`sec := d / Second; nsec := d % Second; return float64(sec) + float64(nsec)/1e9`. -/
def Duration.Seconds (d : Duration) : Float64 :=
  Float64.add (Float64.ofInt (Int.tdiv d second))
    (Float64.div (Float64.ofInt (Int.tmod d second)) (Float64.ofInt 1000000000))

/-- The largest and the smallest `time.Duration`. -/
def maxDuration : Duration := 2 ^ 63 - 1

def minDuration : Duration := -(2 ^ 63)

/-- The function `time.Until(t)` for a `t` without monotonic reading, `now` being
its `time.Now()`: `t.Sub(now)`, which saturates. -/
def timeUntil (t now : Time) : Duration :=
  if maxDuration < t - now then maxDuration
  else if t - now < minDuration then minDuration
  else t - now

/-! ## Dynamic claim values -/

/-- The dynamic types a claim value is inspected for by `claimsToPayload` and by
the validator of the JWT library. A `float64` is kept as the integer it holds
(claims minted here are whole seconds); an element of a `[]interface{}` is
`some s` when it is the string `s` and `none` when it is anything else. -/
inductive Val where
  | str (s : String)
  | float64 (v : Int)
  | int64 (v : Int)
  | int (v : Int)
  | strs (l : List String)
  | anys (l : List (Option String))
  | jsonNumber (v : Option Int)
  | other
  deriving DecidableEq, Repr

/-- The type `jwt.MapClaims`: claim names with their values, in the order written. -/
abbrev MapClaims := List (String × Val)

/-- Map indexing `claims[key]`, with the `ok` flag as the option. -/
def MapClaims.get (claims : MapClaims) (key : String) : Option Val :=
  (claims.find? (fun kv => kv.1 == key)).map (fun kv => kv.2)

/-- What `encoding/json` turns a value into on the way through a token: numbers
come back as `float64`, a `[]string` as a `[]interface{}` of strings. -/
def jsonRoundTrip : Val → Val
  | Val.int64 v => Val.float64 v
  | Val.int v => Val.float64 v
  | Val.strs l => Val.anys (l.map some)
  | Val.jsonNumber (some v) => Val.float64 v
  | v => v

/-- The claims as the parser hands them back after JSON encoding and decoding. -/
def MapClaims.decoded (claims : MapClaims) : MapClaims :=
  claims.map (fun kv => (kv.1, jsonRoundTrip kv.2))

/-! ## Third-party primitives -/

/-- The signing methods registered by the JWT library, by their `alg` name. -/
inductive SigningMethod where
  | HS256 | HS384 | HS512
  | RS256 | RS384 | RS512
  | ES256 | ES384 | ES512
  | PS256 | PS384 | PS512
  | EdDSA
  | none
  deriving DecidableEq, Repr

/-- The type assertion `token.Method.(*jwt.SigningMethodHMAC)`. -/
def SigningMethod.isHMAC : SigningMethod → Bool
  | SigningMethod.HS256 => true
  | SigningMethod.HS384 => true
  | SigningMethod.HS512 => true
  | _ => false

/-- The outcome of `Parser.ParseUnverified` followed by the decoding of the
signature segment: the declared method, the claims, the signed text (the first
two segments) and the signature. -/
structure Unverified where
  method : SigningMethod
  claims : MapClaims
  text : String
  signature : String
  deriving DecidableEq, Repr

/-- A SHA-256 digest: 32 bytes. -/
structure Digest where
  bytes : List (Fin 256)
  size : bytes.length = 32

/-- The primitives of the libraries the service is linked with. -/
structure Primitives where
  /-- The method `Token.SigningString`: the encoded header and claims joined by a dot. -/
  signingString : SigningMethod → MapClaims → String
  /-- The method `SigningMethodHMAC.Sign` with a byte-slice key, signature encoded. -/
  hmacSign : SigningMethod → String → String → Except String String
  /-- Splitting and decoding of a compact token; `none` when it is malformed or
  names a method that is not registered. -/
  parseUnverified : String → Option Unverified
  /-- The function `sha256.Sum256`. -/
  sum256 : String → Digest
  /-- The function `bcrypt.CompareHashAndPassword`, `true` when it returns nil. -/
  bcryptMatches : String → String → Bool
  /-- The function `unicode.ToLower` on the characters outside ASCII. -/
  unicodeToLower : Char → Char
  /-- The function `bcrypt.GenerateFromPassword` at the default cost. -/
  bcryptGenerate : String → Except String String

/-! ## JWT library: signing and parsing -/

namespace jwt

/-- The method `Token.SignedString` for a token made by `NewWithClaims`. -/
def SignedString (P : Primitives) (m : SigningMethod) (claims : MapClaims) (key : String) :
    Except String String :=
  match P.hmacSign m key (P.signingString m claims) with
  | Except.error e => Except.error e
  | Except.ok sig => Except.ok (P.signingString m claims ++ "." ++ sig)

/-- The method `SigningMethod.Verify` with a byte-slice key: only the HMAC
methods accept such a key, and they accept the signature that `Sign` produces. -/
def Verify (P : Primitives) (m : SigningMethod) (text signature key : String) : Bool :=
  m.isHMAC &&
    (match P.hmacSign m key text with
     | Except.ok s => decide (s = signature)
     | Except.error _ => false)

/-- The method `MapClaims.parseNumericDate`: `ok none` when the claim is absent
or is the number zero, an error when it is not a number. -/
def parseNumericDate (claims : MapClaims) (key : String) : Except String (Option Time) :=
  match claims.get key with
  | Option.none => Except.ok Option.none
  | some (Val.float64 v) => if v = 0 then Except.ok Option.none else Except.ok (some (timeUnix v))
  | some (Val.jsonNumber v) => Except.ok (some (timeUnix (v.getD 0)))
  | some _ => Except.error (key ++ " is invalid")

/-- The method `Validator.Validate` as configured by `jwt.WithLeeway(leeway)`: the
expiry and not-before checks; neither claim is required. -/
def Validate (leeway : Duration) (now : Time) (claims : MapClaims) : Except String Unit :=
  match parseNumericDate claims "exp", parseNumericDate claims "nbf" with
  | Except.error e, _ => Except.error e
  | _, Except.error e => Except.error e
  | Except.ok exp, Except.ok nbf =>
    if (match exp with | some e => decide (now < e + leeway) | Option.none => true) = false then
      Except.error "token is expired"
    else if (match nbf with | some n => decide (n - leeway ≤ now) | Option.none => true) = false then
      Except.error "token is not valid yet"
    else Except.ok ()

/-- The function `jwt.Parse(tokenStr, keyFunc, jwt.WithLeeway(leeway))`: decode, ask
the key function for the key, verify the signature, validate the claims. -/
def Parse (P : Primitives) (keyFunc : SigningMethod → Except String String)
    (leeway : Duration) (now : Time) (tokenStr : String) : Except String MapClaims :=
  match P.parseUnverified tokenStr with
  | Option.none => Except.error "token is malformed"
  | some u =>
    match keyFunc u.method with
    | Except.error e => Except.error ("token is unverifiable: " ++ e)
    | Except.ok key =>
      if Verify P u.method u.text u.signature key = false then
        Except.error "token signature is invalid"
      else
        match Validate leeway now u.claims with
        | Except.error e => Except.error e
        | Except.ok _ => Except.ok u.claims

end jwt

/-! ## internal/infra/security: jwt.go -/

namespace security

/-- The struct `TokenManager` (the logger is left out). -/
structure TokenManager where
  accessSecret : String
  refreshSecret : String
  accessTTL : Duration
  refreshTTL : Duration
  deriving DecidableEq, Repr

/-- The struct `TokenPair`. -/
structure TokenPair where
  AccessToken : String
  RefreshToken : String
  AccessExp : Time
  RefreshExp : Time
  JTI : String
  SID : String
  deriving DecidableEq, Repr

/-- The struct `ClaimsPayload`. -/
structure ClaimsPayload where
  UserID : String
  Email : String
  Username : String
  Roles : List String
  JTI : String
  SID : String
  Expiry : Time
  deriving DecidableEq, Repr

/-- The function `NewTokenManager`. -/
def NewTokenManager (accessSecret refreshSecret : String) (accessTTL refreshTTL : Duration) :
    Except String TokenManager :=
  if accessSecret = "" ∨ refreshSecret = "" then
    Except.error "access and refresh secrets must be provided"
  else
    Except.ok
      { accessSecret := accessSecret, refreshSecret := refreshSecret,
        accessTTL := accessTTL, refreshTTL := refreshTTL }

/-- The three draws of `uuid.NewString()` made by one `GenerateTokenPair`. -/
structure UUIDs where
  jti : String
  sid : String
  refreshJti : String
  deriving DecidableEq, Repr

/-- The access claims written by `GenerateTokenPair`. -/
def accessClaims (t : TokenManager) (now : Time) (ids : UUIDs)
    (userID email username : String) (roles : List String) : MapClaims :=
  [("sub", Val.str userID), ("email", Val.str email), ("username", Val.str username),
   ("roles", Val.strs roles), ("jti", Val.str ids.jti), ("session_id", Val.str ids.sid),
   ("iat", Val.int64 (unixSeconds now)), ("exp", Val.int64 (unixSeconds (now + t.accessTTL))),
   ("nbf", Val.int64 (unixSeconds now))]

/-- The refresh claims written by `GenerateTokenPair`. -/
def refreshClaims (t : TokenManager) (now : Time) (ids : UUIDs) (userID : String) : MapClaims :=
  [("sub", Val.str userID), ("session_id", Val.str ids.sid), ("jti", Val.str ids.refreshJti),
   ("iat", Val.int64 (unixSeconds now)), ("exp", Val.int64 (unixSeconds (now + t.refreshTTL)))]

/-- The method `TokenManager.GenerateTokenPair`; `now` is its `time.Now().UTC()` and
`ids` are its UUID draws, the session id among them. -/
def GenerateTokenPair (P : Primitives) (t : TokenManager) (now : Time) (ids : UUIDs)
    (userID email username : String) (roles : List String) : Except String TokenPair :=
  match jwt.SignedString P SigningMethod.HS256
      (accessClaims t now ids userID email username roles) t.accessSecret with
  | Except.error e => Except.error e
  | Except.ok accessStr =>
    match jwt.SignedString P SigningMethod.HS256 (refreshClaims t now ids userID)
        t.refreshSecret with
    | Except.error e => Except.error e
    | Except.ok refreshStr =>
      Except.ok
        { AccessToken := accessStr, RefreshToken := refreshStr,
          AccessExp := now + t.accessTTL, RefreshExp := now + t.refreshTTL,
          JTI := ids.jti, SID := ids.sid }

/-- The type switch on `claims["sub"]` in `claimsToPayload`. -/
def subjectOf : Option Val → String
  | some (Val.str v) => v
  | some (Val.float64 v) => toString v
  | some (Val.int64 v) => toString v
  | some (Val.int v) => toString v
  | _ => ""

/-- A checked string assertion `claims[key].(string)`, empty when it fails. -/
def stringOf : Option Val → String
  | some (Val.str v) => v
  | _ => ""

/-- The type switch on `claims["roles"]` in `claimsToPayload`. -/
def rolesOf : Option Val → List String
  | some (Val.strs r) => r
  | some (Val.anys r) => r.filterMap id
  | some (Val.str r) => [r]
  | _ => []

/-- The type switch on `claims["exp"]` in `claimsToPayload`. -/
def expiryOf : Option Val → Time
  | some (Val.float64 v) => timeUnix v
  | some (Val.int64 v) => timeUnix v
  | some (Val.jsonNumber (some i)) => timeUnix i
  | _ => zeroTime

/-- The function `claimsToPayload`. -/
def claimsToPayload (claims : MapClaims) : ClaimsPayload :=
  { UserID := subjectOf (claims.get "sub"),
    Email := stringOf (claims.get "email"),
    Username := stringOf (claims.get "username"),
    Roles := rolesOf (claims.get "roles"),
    JTI := stringOf (claims.get "jti"),
    SID := stringOf (claims.get "session_id"),
    Expiry := expiryOf (claims.get "exp") }

/-- The key function of both parsers: only HMAC methods are given the secret. -/
def keyFunc (secret : String) (m : SigningMethod) : Except String String :=
  if m.isHMAC then Except.ok secret else Except.error "unexpected signing method"

/-- The leeway `5*time.Second` passed to the parser. -/
def leeway : Duration := 5 * second

/-- The method `TokenManager.ParseAccessToken`; `now` is the clock read by the validator. -/
def ParseAccessToken (P : Primitives) (t : TokenManager) (now : Time) (tokenStr : String) :
    Except String ClaimsPayload :=
  if tokenStr = "" then Except.error "token empty"
  else
    match jwt.Parse P (keyFunc t.accessSecret) leeway now tokenStr with
    | Except.error e => Except.error e
    | Except.ok claims => Except.ok (claimsToPayload claims)

/-- The method `TokenManager.ParseRefreshToken`; `now` is the clock read by the validator. -/
def ParseRefreshToken (P : Primitives) (t : TokenManager) (now : Time) (tokenStr : String) :
    Except String ClaimsPayload :=
  if tokenStr = "" then Except.error "token empty"
  else
    match jwt.Parse P (keyFunc t.refreshSecret) leeway now tokenStr with
    | Except.error e => Except.error e
    | Except.ok claims => Except.ok (claimsToPayload claims)

/-! ## internal/infra/security: token_hash.go -/

/-- One lower-case hexadecimal digit. -/
def hexDigit (n : Nat) : Char :=
  if n < 10 then Char.ofNat (48 + n) else Char.ofNat (87 + n)

/-- The function `hex.EncodeToString`. -/
def hexEncode (bytes : List (Fin 256)) : String :=
  String.mk (bytes.flatMap (fun b => [hexDigit (b.val / 16), hexDigit (b.val % 16)]))

/-- The function `HashToken`. -/
def HashToken (P : Primitives) (token : String) : String :=
  hexEncode (P.sum256 token).bytes

/-- The function `CompareTokenHash`; the constant-time comparison of the two byte
strings yields 1 exactly when they are equal. -/
def CompareTokenHash (P : Primitives) (hash token : String) : Bool :=
  if hash = "" ∨ token = "" then false
  else decide (hash = HashToken P token)

end security

/-! ## Errors -/

/-- The error values the service distinguishes; `store` is any failure reported by
the database driver. -/
inductive Error where
  | ErrInvalidCredentials
  | ErrTokenExpired
  | ErrUserNotFound
  | ErrSessionNotFound
  | userErrNotFound
  | ErrEmailTaken
  | store
  | hasher
  deriving DecidableEq, Repr

/-- The text of an error, `err.Error()`. -/
def Error.text : Error → String
  | Error.ErrInvalidCredentials => "invalid credentials"
  | Error.ErrTokenExpired => "token has expired"
  | Error.ErrUserNotFound => "user not found"
  | Error.ErrSessionNotFound => "session not found"
  | Error.userErrNotFound => "user not found"
  | Error.ErrEmailTaken => "email already exists"
  | Error.store => "database error"
  | Error.hasher => "password cannot be hashed"

/-! ## internal/domain: models -/

namespace session

/-- The struct `session.Session`. -/
structure Session where
  ID : String
  UserID : String
  IPAddress : String
  UserAgent : String
  Valid : Bool
  ExpiresAt : Time
  RefreshTokenHash : String
  CreatedAt : Time
  UpdatedAt : Time
  deriving DecidableEq, Repr

end session

namespace user

/-- The struct `user.User`; `Role` is the string behind `user.Role`. -/
structure User where
  ID : String
  Username : String
  Fullname : String
  Email : String
  PasswordHash : String
  Avatar : Option String
  Role : String
  CreatedAt : Time
  UpdatedAt : Time
  deriving DecidableEq, Repr

end user

/-! ## The database -/

/-- A call received by the database, with the key it was made for. -/
inductive StoreCall where
  | sessionCreate (id : String)
  | sessionGet (id : String)
  | sessionInvalidate (id : String)
  | sessionDelete (id : String)
  | sessionUpdate (id : String)
  | userGet (id : String)
  | userGetByEmail (email : String)
  | userCreate (id : String)
  deriving DecidableEq, Repr

/-- The two tables behind `*gorm.DB`, and the calls made so far (newest last). -/
structure Store where
  sessions : List session.Session
  users : List user.User
  calls : List StoreCall
  deriving DecidableEq, Repr

/-- The row of table `sessions` with a given primary key. -/
def Store.session? (db : Store) (id : String) : Option session.Session :=
  db.sessions.find? (fun s => s.ID == id)

/-- The store after one more call has reached it. -/
def Store.record (db : Store) (call : StoreCall) : Store :=
  { db with calls := db.calls ++ [call] }

/-! ## internal/infra/repository -/

namespace repository

open session user

/-- The method `sessionRepository.Create`: an insert, refused when the primary key
is taken. The column default `valid = true` replaces a zero `Valid`, and zero
timestamps are filled with the clock of the store. -/
def sessionRepository.Create (fault : Bool) (now : Time) (db : Store) (s : Session) :
    Option Error × Store :=
  let db1 := db.record (StoreCall.sessionCreate s.ID)
  if fault ∨ (db.session? s.ID).isSome then (some Error.store, db1)
  else
    (none,
      { db1 with
        sessions := db1.sessions ++
          [{ s with
             Valid := true,
             CreatedAt := if s.CreatedAt = zeroTime then now else s.CreatedAt,
             UpdatedAt := if s.UpdatedAt = zeroTime then now else s.UpdatedAt }] })

/-- The method `sessionRepository.GetByID`: `ok none` stands for `(nil, nil)`, the
answer to `gorm.ErrRecordNotFound`. -/
def sessionRepository.GetByID (fault : Bool) (db : Store) (id : String) :
    Except Error (Option Session) × Store :=
  let db1 := db.record (StoreCall.sessionGet id)
  if fault then (Except.error Error.store, db1) else (Except.ok (db.session? id), db1)

/-- The method `sessionRepository.Invalidate`: `Update("valid", false)` on the rows
with the given id, which also sets the update timestamp from the clock of the
store. -/
def sessionRepository.Invalidate (fault : Bool) (now : Time) (db : Store) (id : String) :
    Option Error × Store :=
  let db1 := db.record (StoreCall.sessionInvalidate id)
  if fault then (some Error.store, db1)
  else
    (none,
      { db1 with
        sessions := db1.sessions.map (fun r =>
          if r.ID = id then { r with Valid := false, UpdatedAt := now } else r) })

/-- The method `sessionRepository.Delete`; deleting no row is not an error. -/
def sessionRepository.Delete (fault : Bool) (db : Store) (id : String) :
    Option Error × Store :=
  let db1 := db.record (StoreCall.sessionDelete id)
  if fault then (some Error.store, db1)
  else (none, { db1 with sessions := db1.sessions.filter (fun r => r.ID != id) })

/-- What `Updates` with a struct writes into one row: every non-zero field of the
struct, and the update timestamp, which the store always sets from its own clock. -/
def merge (now : Time) (row p : Session) : Session :=
  { ID := if p.ID = "" then row.ID else p.ID,
    UserID := if p.UserID = "" then row.UserID else p.UserID,
    IPAddress := if p.IPAddress = "" then row.IPAddress else p.IPAddress,
    UserAgent := if p.UserAgent = "" then row.UserAgent else p.UserAgent,
    Valid := if p.Valid = false then row.Valid else p.Valid,
    ExpiresAt := if p.ExpiresAt = zeroTime then row.ExpiresAt else p.ExpiresAt,
    RefreshTokenHash :=
      if p.RefreshTokenHash = "" then row.RefreshTokenHash else p.RefreshTokenHash,
    CreatedAt := if p.CreatedAt = zeroTime then row.CreatedAt else p.CreatedAt,
    UpdatedAt := now }

/-- The method `sessionRepository.Update`: the rows with the given id are merged
with the struct; the struct itself is what is returned. Moving a row onto a
primary key that is taken is refused by the database. -/
def sessionRepository.Update (fault : Bool) (now : Time) (db : Store) (id : String)
    (s : Session) : Except Error Session × Store :=
  let db1 := db.record (StoreCall.sessionUpdate id)
  if fault ∨ (s.ID ≠ "" ∧ s.ID ≠ id ∧ (db.session? id).isSome ∧ (db.session? s.ID).isSome) then
    (Except.error Error.store, db1)
  else
    (Except.ok s,
      { db1 with
        sessions := db1.sessions.map (fun r => if r.ID = id then merge now r s else r) })

/-- The method `userRepository.GetByEmail`: `ok none` stands for `(nil, nil)`. -/
def userRepository.GetByEmail (fault : Bool) (db : Store) (email : String) :
    Except Error (Option User) × Store :=
  let db1 := db.record (StoreCall.userGetByEmail email)
  if fault then (Except.error Error.store, db1)
  else (Except.ok (db.users.find? (fun u => u.Email == email)), db1)

/-- The method `userRepository.Get`: a missing row is `user.ErrNotFound`. -/
def userRepository.Get (fault : Bool) (db : Store) (id : String) :
    Except Error User × Store :=
  let db1 := db.record (StoreCall.userGet id)
  if fault then (Except.error Error.store, db1)
  else
    match db.users.find? (fun u => u.ID == id) with
    | none => (Except.error Error.userErrNotFound, db1)
    | some u => (Except.ok u, db1)

end repository

/-! ## internal/domain/session: service.go -/

namespace session

/-- The method `service.CreateSession`. -/
def CreateSession (fault : Bool) (now : Time) (db : Store) (sess : Session) :
    Option Error × Store :=
  repository.sessionRepository.Create fault now db sess

/-- The method `service.GetSessionByID`. -/
def GetSessionByID (fault : Bool) (db : Store) (id : String) :
    Except Error (Option Session) × Store :=
  repository.sessionRepository.GetByID fault db id

/-- The method `service.InvalidateSession`. -/
def InvalidateSession (fault : Bool) (now : Time) (db : Store) (id : String) :
    Option Error × Store :=
  repository.sessionRepository.Invalidate fault now db id

/-- The method `service.DeleteSession`. -/
def DeleteSession (fault : Bool) (db : Store) (id : String) : Option Error × Store :=
  repository.sessionRepository.Delete fault db id

/-- The method `service.UpdateSession`. -/
def UpdateSession (fault : Bool) (now : Time) (db : Store) (id : String) (sess : Session) :
    Except Error Session × Store :=
  repository.sessionRepository.Update fault now db id sess

end session

/-! ## internal/infra/security: bcrypt.go -/

namespace security

/-- The function `ComparePassword`, `true` when it returns nil. -/
def ComparePassword (P : Primitives) (hash password : String) : Bool :=
  if hash = "" ∨ password = "" then false else P.bcryptMatches hash password

end security

/-! ## internal/domain/auth: service.go -/

namespace auth

/-- The struct `auth.LoginRequest`. -/
structure LoginRequest where
  Email : String
  Password : String
  IPAddress : String
  UserAgent : String
  deriving DecidableEq, Repr

/-- The method `service.LoginUser`. -/
def LoginUser (P : Primitives) (fault : Bool) (db : Store) (r : LoginRequest) :
    Except Error user.User × Store :=
  match repository.userRepository.GetByEmail fault db r.Email with
  | (Except.error e, db1) => (Except.error e, db1)
  | (Except.ok none, db1) => (Except.error Error.ErrInvalidCredentials, db1)
  | (Except.ok (some existingUser), db1) =>
    if security.ComparePassword P existingUser.PasswordHash r.Password = false then
      (Except.error Error.ErrInvalidCredentials, db1)
    else (Except.ok existingUser, db1)

/-- The method `service.ValidateToken`. -/
def ValidateToken (fault : Bool) (db : Store) (token : String) :
    Except Error session.Session × Store :=
  match session.GetSessionByID fault db token with
  | (Except.error e, db1) => (Except.error e, db1)
  | (Except.ok none, db1) => (Except.error Error.ErrSessionNotFound, db1)
  | (Except.ok (some sess), db1) => (Except.ok sess, db1)

/-- The method `service.GetMe`: the argument is a session id. -/
def GetMe (faultSession faultUser : Bool) (db : Store) (token : String) :
    Except Error user.User × Store :=
  match session.GetSessionByID faultSession db token with
  | (Except.error e, db1) => (Except.error e, db1)
  | (Except.ok none, db1) => (Except.error Error.ErrSessionNotFound, db1)
  | (Except.ok (some sess), db1) =>
    match repository.userRepository.Get faultUser db1 sess.UserID with
    | (Except.error e, db2) => (Except.error e, db2)
    | (Except.ok u, db2) => (Except.ok u, db2)

end auth

/-! ## The HTTP exchange -/

/-- What a handler reads from `*fiber.Ctx`. -/
structure Request where
  headers : List (String × String)
  cookies : List (String × String)
  query : List (String × String)
  ip : String
  /-- What `c.BodyParser` makes of the body as a login request, `none` on error. -/
  loginBody : Option auth.LoginRequest
  deriving DecidableEq, Repr

/-- A lookup that yields the empty string when the key is absent. -/
def lookupD (kvs : List (String × String)) (key : String) : String :=
  match kvs.find? (fun kv => kv.1 == key) with
  | some kv => kv.2
  | none => ""

/-- The method `c.Get(key)`. -/
def Request.Get (c : Request) (key : String) : String := lookupD c.headers key

/-- The method `c.Cookies(key)`. -/
def Request.Cookies (c : Request) (key : String) : String := lookupD c.cookies key

/-- The method `c.Query(key)`. -/
def Request.Query (c : Request) (key : String) : String := lookupD c.query key

/-- The method `c.IP()`. -/
def Request.IP (c : Request) : String := c.ip

/-- The struct `fiber.Cookie`, with the fields the handlers set. -/
structure Cookie where
  Name : String
  Value : String
  Domain : String
  Path : String
  HTTPOnly : Bool
  Secure : Bool
  SameSite : String
  MaxAge : Int
  Expires : Time
  deriving DecidableEq, Repr

/-- The payload of a success response. -/
inductive Data where
  | nil
  | user (u : user.User)
  | tokens (user : user.User) (session_id : String)
      (access_token_expires_at refresh_token_expires_at : Time)
  deriving DecidableEq, Repr

/-- The JSON body: `SuccessResponse` or `ErrorResponse`. -/
inductive Body where
  | success (status : Nat) (message : String) (data : Data)
  | error (status : Nat) (error : String)
  deriving DecidableEq, Repr

/-- What a handler leaves in `*fiber.Ctx`: status, body and the cookies set. -/
structure Response where
  status : Nat
  body : Body
  cookies : List Cookie
  deriving DecidableEq, Repr

/-- Which database calls of a request fail, one flag for each call site. -/
structure Faults where
  userByEmail : Bool
  sessionCreate : Bool
  sessionGet : Bool
  sessionDelete : Bool
  meSessionGet : Bool
  meUserGet : Bool
  sessionUpdate : Bool
  deriving DecidableEq, Repr

/-- No database call fails. -/
def Faults.none : Faults :=
  { userByEmail := false, sessionCreate := false, sessionGet := false, sessionDelete := false,
    meSessionGet := false, meUserGet := false, sessionUpdate := false }

/-- What the world supplies while one request is handled: the successive clock
readings, the UUID draws and the database failures. -/
structure Env where
  /-- The clock read by the token validator. -/
  tVerify : Time
  /-- The `time.Now()` of the session expiry check. -/
  tCheck : Time
  /-- The `time.Now().UTC()` of `GenerateTokenPair`. -/
  tIssue : Time
  /-- The `time.Now().UTC()` of `persistSession` and `rotateSession`. -/
  tStamp : Time
  /-- The clock of the store when it writes. -/
  tStore : Time
  /-- The two `time.Until` readings of `setAuthCookies`. -/
  tAccessCookie : Time
  tRefreshCookie : Time
  ids : security.UUIDs
  faults : Faults
  /-- The validator clock of the second and of the third parse of a request that
  tries several tokens in turn; unless said otherwise they read as the first. -/
  tVerifyCookie : Time := tVerify
  tVerifyRefresh : Time := tVerify
  deriving DecidableEq, Repr

/-! ## internal/infra/http/handlers -/

namespace handlers

open security session

def accessTokenCookieName : String := "access_token"

def refreshTokenCookieName : String := "refresh_token"

def StatusOK : Nat := 200

def StatusBadRequest : Nat := 400

def StatusUnauthorized : Nat := 401

def StatusNotFound : Nat := 404

def StatusInternalServerError : Nat := 500

/-- The mode `fiber.CookieSameSiteNoneMode`. -/
def CookieSameSiteNoneMode : String := "none"

/-- The struct `authHandler`: the fields that are data. -/
structure authHandler where
  tokenManager : TokenManager
  cookieDomain : String
  deriving DecidableEq, Repr

/-- The function `SendSuccess`, on a context holding the given cookies. -/
def SendSuccess (cookies : List Cookie) (status : Nat) (message : String) (data : Data) :
    Response :=
  { status := status, body := Body.success status message data, cookies := cookies }

/-- The function `SendError`, on a context holding the given cookies. -/
def SendError (cookies : List Cookie) (status : Nat) (errMessage : String) : Response :=
  { status := status, body := Body.error status errMessage, cookies := cookies }

/-- The function `sanitizeUser`. -/
def sanitizeUser (u : user.User) : user.User := { u with PasswordHash := "" }

/-- The expression `int(d.Seconds())`: the seconds of the duration as a `float64`,
the fraction discarded. -/
def wholeSeconds (d : Duration) : Int := (Duration.Seconds d).toInt

/-- The method `authHandler.setAuthCookies`: the cookies it appends; `tAccess` and
`tRefresh` are the clock readings of its two `time.Until`. -/
def setAuthCookies (h : authHandler) (tAccess tRefresh : Time) (pair : TokenPair) :
    List Cookie :=
  let accessMaxAge :=
    if wholeSeconds (timeUntil pair.AccessExp tAccess) ≤ 0 then
      wholeSeconds h.tokenManager.accessTTL
    else wholeSeconds (timeUntil pair.AccessExp tAccess)
  let refreshMaxAge :=
    if wholeSeconds (timeUntil pair.RefreshExp tRefresh) ≤ 0 then
      wholeSeconds h.tokenManager.refreshTTL
    else wholeSeconds (timeUntil pair.RefreshExp tRefresh)
  let cookieBase := fun (name value : String) (maxAge : Int) =>
    ({ Name := name, Value := value, Domain := h.cookieDomain, Path := "/", HTTPOnly := true,
       Secure := true, SameSite := CookieSameSiteNoneMode, MaxAge := maxAge,
       Expires := zeroTime } : Cookie)
  [cookieBase accessTokenCookieName pair.AccessToken accessMaxAge,
   cookieBase refreshTokenCookieName pair.RefreshToken refreshMaxAge]

/-- The method `authHandler.clearAuthCookies`: the cookies it appends. -/
def clearAuthCookies (h : authHandler) : List Cookie :=
  let clear := fun (name : String) =>
    ({ Name := name, Value := "", Domain := h.cookieDomain, Path := "/", HTTPOnly := true,
       Secure := true, SameSite := CookieSameSiteNoneMode, MaxAge := 0,
       Expires := timeUnix 0 } : Cookie)
  [clear accessTokenCookieName, clear refreshTokenCookieName]

/-- The method `authHandler.persistSession`. -/
def persistSession (P : Primitives) (env : Env) (db : Store)
    (sessionID userID ip userAgent refreshToken : String) (expiresAt : Time) :
    Option Error × Store :=
  let refreshHash := HashToken P refreshToken
  let now := env.tStamp
  let sess : Session :=
    { ID := sessionID, UserID := userID, IPAddress := ip, UserAgent := userAgent, Valid := true,
      ExpiresAt := expiresAt, RefreshTokenHash := refreshHash, CreatedAt := now,
      UpdatedAt := now }
  session.CreateSession env.faults.sessionCreate env.tStore db sess

/-- The struct literal of `rotateSession`: the fields not named are zero. -/
def rotationPatch (P : Primitives) (env : Env) (refreshToken : String) (expiresAt : Time)
    (ip userAgent : String) : Session :=
  { ID := "", UserID := "", IPAddress := ip, UserAgent := userAgent, Valid := false,
    ExpiresAt := expiresAt, RefreshTokenHash := HashToken P refreshToken,
    CreatedAt := zeroTime, UpdatedAt := env.tStamp }

/-- The method `authHandler.rotateSession`. -/
def rotateSession (P : Primitives) (env : Env) (db : Store) (sessionID refreshToken : String)
    (expiresAt : Time) (ip userAgent : String) : Option Error × Store :=
  match session.UpdateSession env.faults.sessionUpdate env.tStore db sessionID
      (rotationPatch P env refreshToken expiresAt ip userAgent) with
  | (Except.error e, db1) => (some e, db1)
  | (Except.ok _, db1) => (none, db1)

/-- The method `authHandler.Login`. -/
def Login (P : Primitives) (h : authHandler) (env : Env) (db : Store) (c : Request) :
    Response × Store :=
  match c.loginBody with
  | none => (SendError [] StatusBadRequest "invalid request body", db)
  | some req0 =>
    let req1 := if req0.IPAddress = "" then { req0 with IPAddress := c.IP } else req0
    let req := if req1.UserAgent = "" then { req1 with UserAgent := c.Get "User-Agent" } else req1
    match auth.LoginUser P env.faults.userByEmail db req with
    | (Except.error e, db1) =>
      if e = Error.ErrInvalidCredentials then (SendError [] StatusUnauthorized e.text, db1)
      else if e = Error.ErrUserNotFound then (SendError [] StatusNotFound e.text, db1)
      else (SendError [] StatusInternalServerError e.text, db1)
    | (Except.ok authenticatedUser, db1) =>
      match GenerateTokenPair P h.tokenManager env.tIssue env.ids authenticatedUser.ID
          authenticatedUser.Email authenticatedUser.Username [authenticatedUser.Role] with
      | Except.error _ =>
        (SendError [] StatusInternalServerError "failed to generate tokens", db1)
      | Except.ok pair =>
        match persistSession P env db1 pair.SID authenticatedUser.ID req.IPAddress
            req.UserAgent pair.RefreshToken pair.RefreshExp with
        | (some _, db2) =>
          (SendError [] StatusInternalServerError "failed to persist session", db2)
        | (none, db2) =>
          (SendSuccess (setAuthCookies h env.tAccessCookie env.tRefreshCookie pair) StatusOK
              "user logged in successfully"
              (Data.tokens (sanitizeUser authenticatedUser) pair.SID pair.AccessExp
                pair.RefreshExp),
            db2)

/-- The method `authHandler.Refresh`. -/
def Refresh (P : Primitives) (h : authHandler) (env : Env) (db : Store) (c : Request) :
    Response × Store :=
  let refreshToken := c.Cookies refreshTokenCookieName
  if refreshToken = "" then (SendError [] StatusUnauthorized "missing refresh token", db)
  else
    match ParseRefreshToken P h.tokenManager env.tVerify refreshToken with
    | Except.error _ => (SendError [] StatusUnauthorized "invalid refresh token", db)
    | Except.ok payload =>
      match session.GetSessionByID env.faults.sessionGet db payload.SID with
      | (Except.error _, db1) =>
        (SendError [] StatusInternalServerError "failed to lookup session", db1)
      | (Except.ok none, db1) =>
        (SendError [] StatusUnauthorized "session expired or revoked", db1)
      | (Except.ok (some sess), db1) =>
        if sess.Valid = false ∨ sess.ExpiresAt < env.tCheck then
          (SendError [] StatusUnauthorized "session expired or revoked", db1)
        else if CompareTokenHash P sess.RefreshTokenHash refreshToken = false then
          let db2 := (session.DeleteSession env.faults.sessionDelete db1 payload.SID).2
          (SendError (clearAuthCookies h) StatusUnauthorized "refresh token reuse detected", db2)
        else
          match auth.GetMe env.faults.meSessionGet env.faults.meUserGet db1 sess.ID with
          | (Except.error _, db2) =>
            (SendError [] StatusUnauthorized "linked user not found", db2)
          | (Except.ok userRecord, db2) =>
            match GenerateTokenPair P h.tokenManager env.tIssue env.ids userRecord.ID
                userRecord.Email userRecord.Username [userRecord.Role] with
            | Except.error _ =>
              (SendError [] StatusInternalServerError "failed to rotate tokens", db2)
            | Except.ok pair =>
              match rotateSession P env db2 sess.ID pair.RefreshToken pair.RefreshExp c.IP
                  (c.Get "User-Agent") with
              | (some _, db3) =>
                (SendError [] StatusInternalServerError "failed to rotate session", db3)
              | (none, db3) =>
                (SendSuccess (setAuthCookies h env.tAccessCookie env.tRefreshCookie pair)
                    StatusOK "tokens refreshed"
                    (Data.tokens (sanitizeUser userRecord) pair.SID pair.AccessExp
                      pair.RefreshExp),
                  db3)

end handlers

/-! ## Package strings -/

namespace strings

/-- The function `unicode.ToLower`: the ASCII capitals are moved down by 32, the
other ASCII characters stay, the rest is the table of the library. -/
def lowerRune (P : Primitives) (c : Char) : Char :=
  if c.val < 128 then (if 65 ≤ c.val ∧ c.val ≤ 90 then Char.ofNat (c.toNat + 32) else c)
  else P.unicodeToLower c

/-- The function `strings.ToLower`. -/
def ToLower (P : Primitives) (s : String) : String := String.mk (s.data.map (lowerRune P))

/-- The function `unicode.IsSpace`. -/
def isSpace (c : Char) : Bool :=
  let n := c.toNat
  (9 ≤ n && n ≤ 13) || n == 32 || n == 0x85 || n == 0xA0 || n == 0x1680 ||
    (0x2000 ≤ n && n ≤ 0x200A) || n == 0x2028 || n == 0x2029 || n == 0x202F || n == 0x205F ||
    n == 0x3000

/-- The function `strings.TrimSpace`. -/
def TrimSpace (s : String) : String :=
  String.mk ((s.data.dropWhile isSpace).reverse.dropWhile isSpace).reverse

/-- The function `strings.HasPrefix`. -/
def HasPrefix (s pfx : String) : Bool := pfx.data.isPrefixOf s.data

/-- The characters left after the first `n` bytes of the UTF-8 encoding are cut
off; a character the cut falls into is dropped whole. -/
def dropBytes : Nat → List Char → List Char
  | 0, cs => cs
  | _ + 1, [] => []
  | n + 1, c :: cs => dropBytes (n + 1 - c.utf8Size) cs

/-- The slice expression `s[n:]`. -/
def sliceFrom (s : String) (n : Nat) : String := String.mk (dropBytes n s.data)

end strings

/-! ## internal/infra/middleware: auth.go -/

namespace middleware

open security

def DefaultAccessTokenCookie : String := "access_token"

def DefaultClaimsContextKey : String := "auth.claims"

/-- The struct `middleware.Config`; a field left out of a literal has its zero value. -/
structure Config where
  TokenManager : Option TokenManager := none
  AccessTokenCookie : String := ""
  ContextKey : String := ""
  AllowQueryToken : Bool := false
  deriving DecidableEq, Repr

/-- The struct `middleware.Policy`; a field left out of a literal has its zero value. -/
structure Policy where
  Roles : List String := []
  AllowAnonymous : Bool := false
  deriving DecidableEq, Repr

/-- The struct `AuthMiddleware`. -/
structure AuthMiddleware where
  tokenManager : TokenManager
  accessCookie : String
  contextKey : String
  allowQuery : Bool
  deriving DecidableEq, Repr

/-- The function `NewAuthMiddleware`; `none` is the panic on a nil token manager. -/
def NewAuthMiddleware (cfg : Config) : Option AuthMiddleware :=
  match cfg.TokenManager with
  | none => none
  | some tm =>
    some
      { tokenManager := tm,
        accessCookie :=
          if cfg.AccessTokenCookie = "" then DefaultAccessTokenCookie else cfg.AccessTokenCookie,
        contextKey := if cfg.ContextKey = "" then DefaultClaimsContextKey else cfg.ContextKey,
        allowQuery := cfg.AllowQueryToken }

/-- The function `extractBearerToken`. -/
def extractBearerToken (P : Primitives) (header : String) : String :=
  if header = "" then ""
  else
    let header := strings.TrimSpace header
    let pfx := "Bearer "
    if strings.HasPrefix (strings.ToLower P header) (strings.ToLower P pfx) then
      strings.TrimSpace (strings.sliceFrom header pfx.utf8ByteSize)
    else header

/-- The method `AuthMiddleware.extractToken`. -/
def extractToken (P : Primitives) (a : AuthMiddleware) (c : Request) : String :=
  if extractBearerToken P (c.Get "Authorization") ≠ "" then
    extractBearerToken P (c.Get "Authorization")
  else if c.Cookies a.accessCookie ≠ "" then c.Cookies a.accessCookie
  else if a.allowQuery ∧ c.Query "token" ≠ "" then c.Query "token"
  else ""

/-- The function `hasIntersection`: the lower-cased user roles are collected, then
the required roles are tried in order. -/
def hasIntersection (P : Primitives) (userRoles required : List String) : Bool :=
  let roleSet := userRoles.map (strings.ToLower P)
  required.any (fun req => roleSet.contains (strings.ToLower P req))

/-- What the gate does with a request: it calls `c.Next()` after storing the
given values with `c.Locals`, or it answers itself. -/
inductive Outcome where
  | next (locals : List (String × ClaimsPayload))
  | respond (r : Response)
  deriving DecidableEq, Repr

/-- The function `unauthorized`. -/
def unauthorized (message : String) : Outcome :=
  Outcome.respond
    { status := handlers.StatusUnauthorized,
      body := Body.error handlers.StatusUnauthorized message, cookies := [] }

def StatusForbidden : Nat := 403

/-- The function `forbidden`. -/
def forbidden (message : String) : Outcome :=
  Outcome.respond
    { status := StatusForbidden, body := Body.error StatusForbidden message, cookies := [] }

/-- The handler returned by `AuthMiddleware.Require(policy)`; `now` is the clock
read by the token validator. -/
def Require (P : Primitives) (a : AuthMiddleware) (policy : Policy) (now : Time) (c : Request) :
    Outcome :=
  let token := extractToken P a c
  if token = "" then
    if policy.AllowAnonymous then Outcome.next [] else unauthorized "missing access token"
  else
    match ParseAccessToken P a.tokenManager now token with
    | Except.error _ =>
      if policy.AllowAnonymous then Outcome.next [] else unauthorized "invalid access token"
    | Except.ok claims =>
      if 0 < policy.Roles.length ∧ hasIntersection P claims.Roles policy.Roles = false then
        forbidden "insufficient permissions"
      else Outcome.next [(a.contextKey, claims)]

end middleware

/-! ## Reading a response -/

/-- The value of the cookie a response sets under a name, empty when it sets none. -/
def Response.cookie (r : Response) (name : String) : String :=
  lookupD (r.cookies.map (fun k => (k.Name, k.Value))) name

/-- The `session_id` reported in the body of a response, empty when there is none. -/
def Response.sessionID (r : Response) : String :=
  match r.body with
  | Body.success _ _ (Data.tokens _ sid _ _) => sid
  | _ => ""

/-! ## Statements of the specification -/

/-- The first non-empty string of a list of candidates, empty when there is none
("first match wins"). -/
def firstNonEmpty (candidates : List String) : String :=
  (candidates.find? (fun s => s ≠ "")).getD ""

/-- Two role lists meet when some role of the first equals some role of the second
once both are lower-cased. -/
def RolesMeet (P : Primitives) (userRoles required : List String) : Prop :=
  ∃ u ∈ userRoles, ∃ r ∈ required, strings.ToLower P u = strings.ToLower P r

/-- The compact serialization of a token signed with `key` decodes to what was
encoded: the method, the claims as JSON returns them, the signed text and the
signature. -/
def Primitives.Decodes (P : Primitives) (m : SigningMethod) (claims : MapClaims)
    (key : String) : Prop :=
  ∀ sig, P.hmacSign m key (P.signingString m claims) = Except.ok sig →
    P.parseUnverified (P.signingString m claims ++ "." ++ sig) =
      some { method := m, claims := claims.decoded, text := P.signingString m claims,
             signature := sig }

/-! ## A concrete instance

Stand-ins for the third-party primitives, small enough to be run: the signed text
of a token is its `jti`, the signature is the key, the decoder is a table of the
tokens of the scenario below, and the digest repeats the sum of the character
codes. -/

namespace sample

open security handlers middleware

def manager : TokenManager :=
  { accessSecret := "ak", refreshSecret := "rk", accessTTL := 900 * second,
    refreshTTL := 3600 * second }

/-- The UUID draws of the login. -/
def ids0 : UUIDs := { jti := "a1", sid := "s1", refreshJti := "r1" }

/-- The UUID draws of the refresh. -/
def ids1 : UUIDs := { jti := "a2", sid := "s2", refreshJti := "r2" }

/-- The tokens the decoder knows: those issued at second 1000 with `ids0` and at
second 2000 with `ids1` for user `u1`, and an unsigned token `n1.` whose header
names the method `none`. -/
def tokens : List (String × Unverified) :=
  [("a1.ak",
     { method := SigningMethod.HS256,
       claims := (accessClaims manager (1000 * second) ids0 "u1" "alice@example.com" "alice"
         ["user"]).decoded,
       text := "a1", signature := "ak" }),
   ("r1.rk",
     { method := SigningMethod.HS256,
       claims := (refreshClaims manager (1000 * second) ids0 "u1").decoded,
       text := "r1", signature := "rk" }),
   ("a2.ak",
     { method := SigningMethod.HS256,
       claims := (accessClaims manager (2000 * second) ids1 "u1" "alice@example.com" "alice"
         ["user"]).decoded,
       text := "a2", signature := "ak" }),
   ("r2.rk",
     { method := SigningMethod.HS256,
       claims := (refreshClaims manager (2000 * second) ids1 "u1").decoded,
       text := "r2", signature := "rk" }),
   ("n1.",
     { method := SigningMethod.none,
       claims := (accessClaims manager (1000 * second) ids0 "u1" "alice@example.com" "alice"
         ["admin"]).decoded,
       text := "n1", signature := "" })]

def primitives : Primitives :=
  { signingString := fun _ claims => stringOf (claims.get "jti"),
    hmacSign := fun _ key _ => Except.ok key,
    parseUnverified := fun s => (tokens.find? (fun kv => kv.1 == s)).map (fun kv => kv.2),
    sum256 := fun s =>
      { bytes := List.replicate 32 (Fin.ofNat (s.data.map Char.toNat).sum),
        size := List.length_replicate _ _ },
    bcryptMatches := fun hash password => hash == password,
    unicodeToLower := fun c => c,
    bcryptGenerate := fun password => Except.ok password }

def alice : user.User :=
  { ID := "u1", Username := "alice", Fullname := "Alice", Email := "alice@example.com",
    PasswordHash := "pw", Avatar := none, Role := "user", CreatedAt := 0, UpdatedAt := 0 }

/-- A database with one user and no session. -/
def db0 : Store := { sessions := [], users := [alice], calls := [] }

def handler : authHandler := { tokenManager := manager, cookieDomain := "localhost" }

/-- An environment in which every clock reads `t` and no database call fails. -/
def envAt (t : Time) (ids : UUIDs) : Env :=
  { tVerify := t, tCheck := t, tIssue := t, tStamp := t, tStore := t, tAccessCookie := t,
    tRefreshCookie := t, ids := ids, faults := Faults.none }

/-- A login of alice from a browser that sends `User-Agent: ua0`. -/
def loginRequest : Request :=
  { headers := [("User-Agent", "ua0")], cookies := [], query := [], ip := "10.0.0.1",
    loginBody :=
      some { Email := "alice@example.com", Password := "pw", IPAddress := "", UserAgent := "" } }

/-- A refresh request carrying the given refresh cookie and no `User-Agent` header. -/
def refreshRequest (token : String) : Request :=
  { headers := [], cookies := [("refresh_token", token)], query := [], ip := "10.0.0.2",
    loginBody := none }

/-- The database after alice has logged in at second 1000: session `s1`. -/
def db1 : Store := (Login primitives handler (envAt (1000 * second) ids0) db0 loginRequest).2

/-- The database after the refresh at second 2000 that presents `r1.rk`. -/
def db2 : Store :=
  (Refresh primitives handler (envAt (2000 * second) ids1) db1 (refreshRequest "r1.rk")).2

/-- The database after `r1.rk` has been presented once more, at second 2500. -/
def db3 : Store :=
  (Refresh primitives handler (envAt (2500 * second) ids1) db2 (refreshRequest "r1.rk")).2

/-- The gate as the application builds it. -/
def gate : AuthMiddleware :=
  { tokenManager := manager, accessCookie := DefaultAccessTokenCookie,
    contextKey := DefaultClaimsContextKey, allowQuery := false }

/-- A request that presents the access token `a1.ak` as a bearer token. -/
def bearerRequest : Request :=
  { headers := [("Authorization", "Bearer a1.ak")], cookies := [], query := [],
    ip := "10.0.0.1", loginBody := none }

/-- A request that presents nothing. -/
def bareRequest : Request :=
  { headers := [], cookies := [], query := [("token", "a1.ak")], ip := "10.0.0.1",
    loginBody := none }

end sample

/-! ## internal/infra/security: jwt.go, accessors -/

namespace security

/-- The method `TokenManager.AccessTTL`. -/
def TokenManager.AccessTTL (t : TokenManager) : Duration := t.accessTTL

/-- The method `TokenManager.RefreshTTL`. -/
def TokenManager.RefreshTTL (t : TokenManager) : Duration := t.refreshTTL

end security

/-! ## internal/infra/http/handlers: logout and me -/

namespace handlers

open security session

/-- The function `extractBearerToken` of package `handlers`. -/
def extractBearerToken (P : Primitives) (header : String) : String :=
  if header = "" then ""
  else
    let header := strings.TrimSpace header
    let pfx := "Bearer "
    if strings.HasPrefix (strings.ToLower P header) (strings.ToLower P pfx) then
      strings.TrimSpace (strings.sliceFrom header pfx.utf8ByteSize)
    else header

/-- The method `authHandler.sessionIDFromRequest`: the SID of the first token that
verifies among the bearer token, the access cookie and the refresh cookie, and
failing that the `token` query parameter. -/
def sessionIDFromRequest (P : Primitives) (h : authHandler) (env : Env) (c : Request) : String :=
  let bearer := extractBearerToken P (c.Get "Authorization")
  let fromHeader : Option ClaimsPayload :=
    if bearer ≠ "" then (ParseAccessToken P h.tokenManager env.tVerify bearer).toOption
    else none
  match fromHeader with
  | some payload => payload.SID
  | none =>
    let fromAccessCookie : Option ClaimsPayload :=
      if c.Cookies accessTokenCookieName ≠ "" then
        (ParseAccessToken P h.tokenManager env.tVerifyCookie
          (c.Cookies accessTokenCookieName)).toOption
      else none
    match fromAccessCookie with
    | some payload => payload.SID
    | none =>
      let fromRefreshCookie : Option ClaimsPayload :=
        if c.Cookies refreshTokenCookieName ≠ "" then
          (ParseRefreshToken P h.tokenManager env.tVerifyRefresh
            (c.Cookies refreshTokenCookieName)).toOption
        else none
      match fromRefreshCookie with
      | some payload => payload.SID
      | none => c.Query "token"

/-- The method `authHandler.Logout`. -/
def Logout (P : Primitives) (h : authHandler) (env : Env) (db : Store) (c : Request) :
    Response × Store :=
  let sessionID := sessionIDFromRequest P h env c
  if sessionID = "" then (SendError [] StatusUnauthorized "unable to determine session", db)
  else
    match session.DeleteSession env.faults.sessionDelete db sessionID with
    | (some _, db1) => (SendError [] StatusInternalServerError "failed to revoke session", db1)
    | (none, db1) =>
      (SendSuccess (clearAuthCookies h) StatusOK "logged out successfully" Data.nil, db1)

/-- The method `authHandler.Me`. -/
def Me (P : Primitives) (_h : authHandler) (env : Env) (db : Store) (c : Request) :
    Response × Store :=
  let bearer := extractBearerToken P (c.Get "Authorization")
  let token := if bearer = "" then c.Query "token" else bearer
  if token = "" then (SendError [] StatusUnauthorized "missing authorization token", db)
  else
    match auth.GetMe env.faults.meSessionGet env.faults.meUserGet db token with
    | (Except.error e, db1) =>
      if e = Error.ErrSessionNotFound then (SendError [] StatusUnauthorized e.text, db1)
      else if e = Error.ErrUserNotFound ∨ e = Error.userErrNotFound then
        (SendError [] StatusNotFound e.text, db1)
      else (SendError [] StatusInternalServerError e.text, db1)
    | (Except.ok u, db1) =>
      (SendSuccess [] StatusOK "authenticated user retrieved" (Data.user (sanitizeUser u)), db1)

end handlers

/-! ## internal/infra/http: routes.go -/

namespace routes

open middleware handlers

/-- A route guarded by `authz.Require(policy)`: the handler runs when the gate
calls `c.Next()`, otherwise the answer of the gate stands. -/
def guarded (gate : Outcome) (db : Store) (handler : Response × Store) : Response × Store :=
  match gate with
  | Outcome.next _ => handler
  | Outcome.respond r => (r, db)

/-- The route `POST /api/v1/auth/logout`; `now` is the validator clock of the gate. -/
def logout (P : Primitives) (a : AuthMiddleware) (h : authHandler) (now : Time) (env : Env)
    (db : Store) (c : Request) : Response × Store :=
  guarded (Require P a { } now c) db (Logout P h env db c)

/-- The route `GET /api/v1/auth/me`; `now` is the validator clock of the gate. -/
def me (P : Primitives) (a : AuthMiddleware) (h : authHandler) (now : Time) (env : Env)
    (db : Store) (c : Request) : Response × Store :=
  guarded (Require P a { } now c) db (Me P h env db c)

end routes

/-! ## The concrete instance, continued -/

namespace sample

open security handlers middleware

/-- A manager whose two secrets are the same string. -/
def sharedManager : TokenManager :=
  { accessSecret := "rk", refreshSecret := "rk", accessTTL := 900 * second,
    refreshTTL := 3600 * second }

/-- A request that presents the given access token as a bearer token only. -/
def headerRequest (token : String) : Request :=
  { headers := [("Authorization", "Bearer " ++ token)], cookies := [], query := [],
    ip := "10.0.0.1", loginBody := none }

/-- A request that presents the given access token as the access cookie only. -/
def cookieRequest (token : String) : Request :=
  { headers := [], cookies := [("access_token", token)], query := [], ip := "10.0.0.1",
    loginBody := none }

/-- A login request for the given email and password. -/
def loginAs (email password : String) : Request :=
  { headers := [("User-Agent", "ua0")], cookies := [], query := [], ip := "10.0.0.1",
    loginBody := some { Email := email, Password := password, IPAddress := "", UserAgent := "" } }

/-- The environment `envAt t ids` with the given database failures. -/
def envWith (t : Time) (ids : UUIDs) (faults : Faults) : Env :=
  { envAt t ids with faults := faults }

end sample

/-! ## User creation: internal/domain/user, internal/domain/auth, internal/usecase/user -/

namespace security

/-- The function `HashPassword`: the hasher refuses the empty password. -/
def HashPassword (P : Primitives) (password : String) : Except String String :=
  if password = "" then Except.error "password cannot be empty" else P.bcryptGenerate password

end security

namespace user

/-- The struct `user.CreateUserRequest`. -/
structure CreateUserRequest where
  Username : String
  Fullname : String
  Email : String
  Password : String
  Role : String
  deriving DecidableEq, Repr

/-- The role `user.RoleUser`. -/
def RoleUser : String := "user"

/-- The role `user.RoleAdmin`. -/
def RoleAdmin : String := "admin"

end user

/-- What the world supplies while one user is created: the UUID drawn for the
user, the two `time.Now()` readings of `service.Create`, the clock of the store,
and the failures of the two database calls. -/
structure CreateEnv where
  newID : String
  tCreated : Time
  tUpdated : Time
  tStore : Time
  faultGet : Bool
  faultCreate : Bool
  deriving DecidableEq, Repr

namespace repository

/-- The method `userRepository.Create`: an insert, refused when the primary key
is taken; zero timestamps are filled with the clock of the store. -/
def userRepository.Create (fault : Bool) (now : Time) (db : Store) (u : user.User) :
    Except Error user.User × Store :=
  let db1 := db.record (StoreCall.userCreate u.ID)
  if fault ∨ (db.users.find? (fun x => x.ID == u.ID)).isSome then (Except.error Error.store, db1)
  else
    let createdUser : user.User :=
      { u with
        CreatedAt := if u.CreatedAt = zeroTime then now else u.CreatedAt,
        UpdatedAt := if u.UpdatedAt = zeroTime then now else u.UpdatedAt }
    (Except.ok createdUser, { db1 with users := db1.users ++ [createdUser] })

end repository

namespace user

/-- The method `service.Create` of package `user`. -/
def Create (P : Primitives) (env : CreateEnv) (db : Store) (u : CreateUserRequest) :
    Except Error User × Store :=
  match repository.userRepository.GetByEmail env.faultGet db u.Email with
  | (Except.error e, db1) => (Except.error e, db1)
  | (Except.ok (some _), db1) => (Except.error Error.ErrEmailTaken, db1)
  | (Except.ok none, db1) =>
    match security.HashPassword P u.Password with
    | Except.error _ => (Except.error Error.hasher, db1)
    | Except.ok hashedPassword =>
      let newUser : User :=
        { ID := env.newID, Email := u.Email, PasswordHash := hashedPassword,
          Fullname := u.Fullname, Username := u.Username, Role := u.Role, Avatar := none,
          CreatedAt := env.tCreated, UpdatedAt := env.tUpdated }
      repository.userRepository.Create env.faultCreate env.tStore db1 newUser

end user

namespace auth

/-- The struct `auth.RegisterRequest`. -/
structure RegisterRequest where
  Username : String
  Password : String
  Fullname : String
  Email : String
  Role : String
  deriving DecidableEq, Repr

/-- The method `service.RegisterUser`: it calls the user service itself, not the
use case `createUserUseCase`. -/
def RegisterUser (P : Primitives) (env : CreateEnv) (db : Store) (r : RegisterRequest) :
    Except Error user.User × Store :=
  let newUserCreate : user.CreateUserRequest :=
    { Email := r.Email, Password := r.Password, Fullname := r.Fullname,
      Username := r.Username, Role := r.Role }
  user.Create P env db newUserCreate

end auth

namespace usecase

/-- The method `createUserUseCase.Execute`: an empty role becomes `user`. -/
def createUserUseCase.Execute (P : Primitives) (env : CreateEnv) (db : Store)
    (req : user.CreateUserRequest) : Except Error user.User × Store :=
  let req1 := if req.Role = "" then { req with Role := user.RoleUser } else req
  user.Create P env db req1

end usecase

/-! ## The two halves of `Refresh` -/

namespace handlers

open security session

/-- Where `Refresh` stands after its checks: it has its answer, or it is about to
write the rotation of a session for a user with a pair just issued. -/
inductive RefreshStep where
  | answer (r : Response)
  | rotate (sess : Session) (userRecord : user.User) (pair : TokenPair)
  deriving DecidableEq, Repr

/-- The method `authHandler.Refresh` up to and including `GenerateTokenPair`: token
verification, session lookup, hash comparison, user lookup and issue. -/
def refreshPrepare (P : Primitives) (h : authHandler) (env : Env) (db : Store) (c : Request) :
    RefreshStep × Store :=
  let refreshToken := c.Cookies refreshTokenCookieName
  if refreshToken = "" then
    (RefreshStep.answer (SendError [] StatusUnauthorized "missing refresh token"), db)
  else
    match ParseRefreshToken P h.tokenManager env.tVerify refreshToken with
    | Except.error _ =>
      (RefreshStep.answer (SendError [] StatusUnauthorized "invalid refresh token"), db)
    | Except.ok payload =>
      match session.GetSessionByID env.faults.sessionGet db payload.SID with
      | (Except.error _, db1) =>
        (RefreshStep.answer
          (SendError [] StatusInternalServerError "failed to lookup session"), db1)
      | (Except.ok none, db1) =>
        (RefreshStep.answer (SendError [] StatusUnauthorized "session expired or revoked"), db1)
      | (Except.ok (some sess), db1) =>
        if sess.Valid = false ∨ sess.ExpiresAt < env.tCheck then
          (RefreshStep.answer (SendError [] StatusUnauthorized "session expired or revoked"),
            db1)
        else if CompareTokenHash P sess.RefreshTokenHash refreshToken = false then
          let db2 := (session.DeleteSession env.faults.sessionDelete db1 payload.SID).2
          (RefreshStep.answer
            (SendError (clearAuthCookies h) StatusUnauthorized "refresh token reuse detected"),
            db2)
        else
          match auth.GetMe env.faults.meSessionGet env.faults.meUserGet db1 sess.ID with
          | (Except.error _, db2) =>
            (RefreshStep.answer (SendError [] StatusUnauthorized "linked user not found"), db2)
          | (Except.ok userRecord, db2) =>
            match GenerateTokenPair P h.tokenManager env.tIssue env.ids userRecord.ID
                userRecord.Email userRecord.Username [userRecord.Role] with
            | Except.error _ =>
              (RefreshStep.answer
                (SendError [] StatusInternalServerError "failed to rotate tokens"), db2)
            | Except.ok pair => (RefreshStep.rotate sess userRecord pair, db2)

/-- The method `authHandler.Refresh` from `rotateSession` on: the update of the
session, the cookies and the answer. -/
def refreshCommit (P : Primitives) (h : authHandler) (env : Env) (db : Store) (c : Request) :
    RefreshStep → Response × Store
  | RefreshStep.answer r => (r, db)
  | RefreshStep.rotate sess userRecord pair =>
    match rotateSession P env db sess.ID pair.RefreshToken pair.RefreshExp c.IP
        (c.Get "User-Agent") with
    | (some _, db3) =>
      (SendError [] StatusInternalServerError "failed to rotate session", db3)
    | (none, db3) =>
      (SendSuccess (setAuthCookies h env.tAccessCookie env.tRefreshCookie pair) StatusOK
          "tokens refreshed"
          (Data.tokens (sanitizeUser userRecord) pair.SID pair.AccessExp pair.RefreshExp),
        db3)

end handlers

/-! ## The concrete instance, concluded -/

namespace sample

open security handlers middleware

/-- The UUID draws of a second refresh. -/
def ids2 : UUIDs := { jti := "a3", sid := "s3", refreshJti := "r3" }

/-- The environment of a user creation at second 500 that draws the id `u2`. -/
def createEnv : CreateEnv :=
  { newID := "u2", tCreated := 500 * second, tUpdated := 500 * second, tStore := 500 * second,
    faultGet := false, faultCreate := false }

/-- A registration of bob with the given password and role. -/
def registerBob (password role : String) : auth.RegisterRequest :=
  { Username := "bob", Password := password, Fullname := "Bob", Email := "bob@example.com",
    Role := role }

/-- Two refreshes of session `s1` that both present `r1.rk` at second 2000: the
first one up to the issue of its pair. -/
def prepareA : RefreshStep × Store :=
  refreshPrepare primitives handler (envAt (2000 * second) ids1) db1 (refreshRequest "r1.rk")

/-- The second one up to the issue of its pair, before the first has written. -/
def prepareB : RefreshStep × Store :=
  refreshPrepare primitives handler (envAt (2000 * second) ids2) prepareA.2
    (refreshRequest "r1.rk")

/-- The first one from its update on. -/
def commitA : Response × Store :=
  refreshCommit primitives handler (envAt (2000 * second) ids1) prepareB.2
    (refreshRequest "r1.rk") prepareA.1

/-- The second one from its update on, after the first has written. -/
def commitB : Response × Store :=
  refreshCommit primitives handler (envAt (2000 * second) ids2) commitA.2
    (refreshRequest "r1.rk") prepareB.1

/-- A logout request that presents no token and names a session in the query. -/
def queryLogoutRequest (id : String) : Request :=
  { headers := [], cookies := [], query := [("token", id)], ip := "10.0.0.9",
    loginBody := none }

end sample

/-! # Theorems -/

set_option maxRecDepth 2000

open security handlers middleware

/-! ## Auxiliary facts -/

theorem hexEncode_ne_empty (d : Digest) : hexEncode d.bytes ≠ "" := by
  have hsize := d.size
  cases hb : d.bytes with
  | nil => rw [hb] at hsize; simp at hsize
  | cons b rest =>
    intro he
    have := congrArg String.data he
    simp [hexEncode] at this

theorem HashToken_ne_empty (P : Primitives) (token : String) : HashToken P token ≠ "" :=
  hexEncode_ne_empty (P.sum256 token)

theorem compareTokenHash_eq_true {P : Primitives} {hash token : String} :
    CompareTokenHash P hash token = true ↔
      hash ≠ "" ∧ token ≠ "" ∧ hash = HashToken P token := by
  unfold CompareTokenHash
  by_cases h1 : hash = "" <;> by_cases h2 : token = "" <;> simp [h1, h2]

theorem compareTokenHash_of_ne {P : Primitives} {hash token : String}
    (h : hash ≠ HashToken P token) : CompareTokenHash P hash token = false := by
  unfold CompareTokenHash
  by_cases h0 : hash = "" ∨ token = ""
  · simp [h0]
  · simp [h0, h]

theorem session?_some {db : Store} {id : String} {s : session.Session}
    (h : db.session? id = some s) : s ∈ db.sessions ∧ s.ID = id := by
  unfold Store.session? at h
  refine ⟨List.mem_of_find?_eq_some h, ?_⟩
  have := List.find?_some h
  simpa using this

@[simp] theorem session?_record (db : Store) (call : StoreCall) (id : String) :
    (db.record call).session? id = db.session? id := rfl

theorem parse_refresh_ne_empty {P : Primitives} {t : TokenManager} {now : Time} {tok : String}
    {p : ClaimsPayload} (h : ParseRefreshToken P t now tok = Except.ok p) : tok ≠ "" := by
  intro he
  subst he
  simp [ParseRefreshToken] at h

/-- The payload of a token does not depend on when it is verified. -/
theorem parse_refresh_payload_unique {P : Primitives} {t : TokenManager} {now now' : Time}
    {tok : String} {p p' : ClaimsPayload}
    (h : ParseRefreshToken P t now tok = Except.ok p)
    (h' : ParseRefreshToken P t now' tok = Except.ok p') : p = p' := by
  unfold ParseRefreshToken jwt.Parse at h h'
  by_cases h0 : tok = ""
  · simp [h0] at h
  · simp only [h0, if_false] at h h'
    cases hu : P.parseUnverified tok with
    | none => simp [hu] at h
    | some u =>
      simp only [hu] at h h'
      cases hk : keyFunc t.refreshSecret u.method with
      | error e => simp [hk] at h
      | ok key =>
        simp only [hk] at h h'
        by_cases hv : jwt.Verify P u.method u.text u.signature key = false
        · simp [hv] at h
        · simp only [hv, if_false] at h h'
          cases hval : jwt.Validate leeway now u.claims with
          | error e => simp [hval] at h
          | ok _ =>
            cases hval' : jwt.Validate leeway now' u.claims with
            | error e => simp [hval'] at h'
            | ok _ =>
              simp [hval] at h
              simp [hval'] at h'
              rw [← h, ← h']

/-- What a refresh that answers 200 has done. -/
theorem refresh_ok_inv {P : Primitives} {h : authHandler} {env : Env} {db : Store} {c : Request}
    (hok : (Refresh P h env db c).1.status = StatusOK) :
    ∃ payload sess u pair,
      ParseRefreshToken P h.tokenManager env.tVerify (c.Cookies refreshTokenCookieName)
        = Except.ok payload ∧
      db.session? payload.SID = some sess ∧ sess.Valid = true ∧ ¬ sess.ExpiresAt < env.tCheck ∧
      CompareTokenHash P sess.RefreshTokenHash (c.Cookies refreshTokenCookieName) = true ∧
      db.users.find? (fun x => x.ID == sess.UserID) = some u ∧
      GenerateTokenPair P h.tokenManager env.tIssue env.ids u.ID u.Email u.Username [u.Role]
        = Except.ok pair ∧
      Refresh P h env db c =
        (SendSuccess (setAuthCookies h env.tAccessCookie env.tRefreshCookie pair) StatusOK
            "tokens refreshed"
            (Data.tokens (sanitizeUser u) pair.SID pair.AccessExp pair.RefreshExp),
          { sessions := db.sessions.map (fun r =>
              if r.ID = sess.ID then
                repository.merge env.tStore r
                  (rotationPatch P env pair.RefreshToken pair.RefreshExp c.IP
                    (c.Get "User-Agent"))
              else r),
            users := db.users,
            calls := db.calls ++
              [StoreCall.sessionGet payload.SID, StoreCall.sessionGet sess.ID,
               StoreCall.userGet sess.UserID, StoreCall.sessionUpdate sess.ID] }) := by
  by_cases hT : c.Cookies refreshTokenCookieName = ""
  · simp [Refresh, hT, SendError, StatusOK, StatusUnauthorized] at hok
  cases hp : ParseRefreshToken P h.tokenManager env.tVerify (c.Cookies refreshTokenCookieName) with
  | error e => simp [Refresh, hT, hp, SendError, StatusOK, StatusUnauthorized] at hok
  | ok payload =>
  by_cases hg : env.faults.sessionGet = true
  · simp [Refresh, hT, hp, hg, session.GetSessionByID, repository.sessionRepository.GetByID,
      SendError, StatusOK, StatusInternalServerError] at hok
  cases hs : db.session? payload.SID with
  | none =>
    simp [Refresh, hT, hp, hg, hs, session.GetSessionByID, repository.sessionRepository.GetByID,
      SendError, StatusOK, StatusUnauthorized] at hok
  | some sess =>
  have hid := (session?_some hs).2
  by_cases hv : sess.Valid = false ∨ sess.ExpiresAt < env.tCheck
  · simp [Refresh, hT, hp, hg, hs, hv, session.GetSessionByID,
      repository.sessionRepository.GetByID, SendError, StatusOK, StatusUnauthorized] at hok
  cases hc : CompareTokenHash P sess.RefreshTokenHash (c.Cookies refreshTokenCookieName) with
  | false =>
    simp [Refresh, hT, hp, hg, hs, hv, hc, session.GetSessionByID,
      repository.sessionRepository.GetByID, SendError, StatusOK, StatusUnauthorized] at hok
  | true =>
  have hs1 : List.find? (fun s => s.ID == payload.SID) db.sessions = some sess := hs
  have hs' : List.find? (fun s => s.ID == sess.ID) db.sessions = some sess := by
    rw [hid]; exact hs
  by_cases hmg : env.faults.meSessionGet = true
  · simp [Refresh, hT, hp, hg, hs, hv, hc, hmg, auth.GetMe, session.GetSessionByID,
      repository.sessionRepository.GetByID, SendError, StatusOK, StatusUnauthorized] at hok
  by_cases hmu : env.faults.meUserGet = true
  · simp [Refresh, hT, hp, hg, hs, hs', hv, hc, hmg, hmu, auth.GetMe, session.GetSessionByID,
      repository.sessionRepository.GetByID, repository.userRepository.Get, Store.record,
      Store.session?, hs1, SendError, StatusOK, StatusUnauthorized] at hok
  cases hu : db.users.find? (fun x => x.ID == sess.UserID) with
  | none =>
    simp [Refresh, hT, hp, hg, hs, hs', hv, hc, hmg, hmu, hu, auth.GetMe,
      session.GetSessionByID, repository.sessionRepository.GetByID,
      repository.userRepository.Get, Store.record, Store.session?, hs1,
      SendError, StatusOK, StatusUnauthorized] at hok
  | some u =>
  cases hgen : GenerateTokenPair P h.tokenManager env.tIssue env.ids u.ID u.Email u.Username
      [u.Role] with
  | error e =>
    simp [Refresh, hT, hp, hg, hs, hs', hv, hc, hmg, hmu, hu, hgen, auth.GetMe,
      session.GetSessionByID, repository.sessionRepository.GetByID,
      repository.userRepository.Get, Store.record, Store.session?, hs1,
      SendError, StatusOK, StatusInternalServerError] at hok
  | ok pair =>
  by_cases hup : env.faults.sessionUpdate = true
  · simp [Refresh, hT, hp, hg, hs, hs', hv, hc, hmg, hmu, hu, hgen, hup, auth.GetMe,
      session.GetSessionByID, repository.sessionRepository.GetByID,
      repository.userRepository.Get, Store.record, Store.session?, hs1, rotateSession, session.UpdateSession,
      repository.sessionRepository.Update,
      SendError, StatusOK, StatusInternalServerError] at hok
  refine ⟨payload, sess, u, pair, ?_, hs, ?_, ?_, hc, hu, hgen, ?_⟩
  · rfl
  · simpa using fun hf => hv (Or.inl hf)
  · exact fun hf => hv (Or.inr hf)
  · simp [Refresh, hT, hp, hg, hs, hs', hv, hc, hmg, hmu, hu, hgen, hup, auth.GetMe,
      session.GetSessionByID, repository.sessionRepository.GetByID,
      repository.userRepository.Get, Store.record, Store.session?, hs1, rotateSession, session.UpdateSession,
      repository.sessionRepository.Update, rotationPatch, hid]

/-- What a login that answers 200 has done. -/
theorem login_ok_inv {P : Primitives} {h : authHandler} {env : Env} {db : Store} {c : Request}
    (hok : (Login P h env db c).1.status = StatusOK) :
    ∃ (u : user.User) (pair : TokenPair) (ip ua : String),
      GenerateTokenPair P h.tokenManager env.tIssue env.ids u.ID u.Email u.Username [u.Role]
        = Except.ok pair ∧
      db.session? pair.SID = none ∧
      (Login P h env db c).1 =
        SendSuccess (setAuthCookies h env.tAccessCookie env.tRefreshCookie pair) StatusOK
          "user logged in successfully"
          (Data.tokens (sanitizeUser u) pair.SID pair.AccessExp pair.RefreshExp) ∧
      (Login P h env db c).2.sessions = db.sessions ++
        [{ ID := pair.SID, UserID := u.ID, IPAddress := ip, UserAgent := ua, Valid := true,
           ExpiresAt := pair.RefreshExp, RefreshTokenHash := HashToken P pair.RefreshToken,
           CreatedAt := if env.tStamp = zeroTime then env.tStore else env.tStamp,
           UpdatedAt := if env.tStamp = zeroTime then env.tStore else env.tStamp }] ∧
      (Login P h env db c).2.users = db.users := by
  unfold Login at hok ⊢
  cases hb : c.loginBody with
  | none => simp [hb, SendError, StatusOK, StatusBadRequest] at hok
  | some req0 =>
  simp only [hb] at hok ⊢
  generalize hreq : (if (if req0.IPAddress = "" then { req0 with IPAddress := c.IP } else req0).UserAgent = ""
      then { (if req0.IPAddress = "" then { req0 with IPAddress := c.IP } else req0) with
        UserAgent := c.Get "User-Agent" }
      else (if req0.IPAddress = "" then { req0 with IPAddress := c.IP } else req0)) = req at hok ⊢
  unfold auth.LoginUser repository.userRepository.GetByEmail at hok ⊢
  by_cases hf : env.faults.userByEmail = true
  · simp [hf, SendError, StatusOK, StatusInternalServerError, StatusUnauthorized, StatusNotFound]
      at hok
  cases hu : db.users.find? (fun u => u.Email == req.Email) with
  | none =>
    simp [hf, hu, SendError, StatusOK, StatusInternalServerError, StatusUnauthorized,
      StatusNotFound] at hok
  | some u =>
  by_cases hpw : ComparePassword P u.PasswordHash req.Password = false
  · simp [hf, hu, hpw, SendError, StatusOK, StatusInternalServerError, StatusUnauthorized,
      StatusNotFound] at hok
  cases hgen : GenerateTokenPair P h.tokenManager env.tIssue env.ids u.ID u.Email u.Username
      [u.Role] with
  | error e =>
    simp [hf, hu, hpw, hgen, SendError, StatusOK, StatusInternalServerError] at hok
  | ok pair =>
  by_cases hcr : env.faults.sessionCreate = true
  · simp [hf, hu, hpw, hgen, hcr, persistSession, session.CreateSession,
      repository.sessionRepository.Create, SendError, StatusOK, StatusInternalServerError] at hok
  cases hex : db.sessions.find? (fun s => s.ID == pair.SID) with
  | some s0 =>
    simp [hf, hu, hpw, hgen, hcr, hex, persistSession, session.CreateSession,
      repository.sessionRepository.Create, Store.session?, Store.record, SendError, StatusOK,
      StatusInternalServerError] at hok
  | none =>
  refine ⟨u, pair, req.IPAddress, req.UserAgent, hgen, hex, ?_, ?_, ?_⟩ <;>
    simp [hf, hu, hpw, hgen, hcr, hex, persistSession, session.CreateSession,
      repository.sessionRepository.Create, Store.session?, Store.record]

/-- A refresh token whose digest no stored session carries is never exchanged. -/
theorem refresh_unknown_hash {P : Primitives} {h : authHandler} {env : Env} {db : Store}
    {c : Request}
    (hnone : ∀ x ∈ db.sessions,
      x.RefreshTokenHash ≠ HashToken P (c.Cookies refreshTokenCookieName))
    (hg : env.faults.sessionGet = false) :
    (Refresh P h env db c).1.status = StatusUnauthorized := by
  by_cases hT : c.Cookies refreshTokenCookieName = ""
  · simp [Refresh, hT, SendError]
  cases hp : ParseRefreshToken P h.tokenManager env.tVerify (c.Cookies refreshTokenCookieName) with
  | error e => simp [Refresh, hT, hp, SendError]
  | ok payload =>
  cases hs : db.session? payload.SID with
  | none =>
    simp [Refresh, hT, hp, hg, hs, session.GetSessionByID, repository.sessionRepository.GetByID,
      SendError]
  | some sess =>
  by_cases hv : sess.Valid = false ∨ sess.ExpiresAt < env.tCheck
  · simp [Refresh, hT, hp, hg, hs, hv, session.GetSessionByID,
      repository.sessionRepository.GetByID, SendError]
  have hc := compareTokenHash_of_ne (hnone sess (session?_some hs).1)
  simp [Refresh, hT, hp, hg, hs, hv, hc, session.GetSessionByID,
    repository.sessionRepository.GetByID, SendError]

/-- The reuse branch of `Refresh`. -/
theorem refresh_reuse {P : Primitives} {h : authHandler} {env : Env} {db : Store} {c : Request}
    {payload : ClaimsPayload} {sess : session.Session}
    (hparse : ParseRefreshToken P h.tokenManager env.tVerify (c.Cookies refreshTokenCookieName)
      = Except.ok payload)
    (hsess : db.session? payload.SID = some sess)
    (hvalid : sess.Valid = true)
    (hlive : ¬ sess.ExpiresAt < env.tCheck)
    (hmis : CompareTokenHash P sess.RefreshTokenHash (c.Cookies refreshTokenCookieName) = false)
    (hget : env.faults.sessionGet = false) (hdel : env.faults.sessionDelete = false) :
    Refresh P h env db c =
      (SendError (clearAuthCookies h) StatusUnauthorized "refresh token reuse detected",
        { sessions := db.sessions.filter (fun r => r.ID != payload.SID),
          users := db.users,
          calls := db.calls ++
            [StoreCall.sessionGet payload.SID, StoreCall.sessionDelete payload.SID] }) := by
  have hne := parse_refresh_ne_empty hparse
  unfold Refresh
  simp [hne, hparse, session.GetSessionByID, repository.sessionRepository.GetByID, hget, hsess,
    hvalid, hlive, hmis, session.DeleteSession, repository.sessionRepository.Delete, hdel,
    Store.record]

theorem session?_filter_ne (sessions : List session.Session) (users : List user.User)
    (calls : List StoreCall) (id : String) :
    ({ sessions := sessions.filter (fun r => r.ID != id), users := users, calls := calls }
      : Store).session? id = none := by
  simp [Store.session?, List.find?_eq_none]

theorem generateTokenPair_ok {P : Primitives} {t : TokenManager} {now : Time} {ids : UUIDs}
    {userID email username : String} {roles : List String} {pair : TokenPair}
    (h : GenerateTokenPair P t now ids userID email username roles = Except.ok pair) :
    ∃ sa sr,
      P.hmacSign SigningMethod.HS256 t.accessSecret
        (P.signingString SigningMethod.HS256 (accessClaims t now ids userID email username roles))
        = Except.ok sa ∧
      P.hmacSign SigningMethod.HS256 t.refreshSecret
        (P.signingString SigningMethod.HS256 (refreshClaims t now ids userID)) = Except.ok sr ∧
      pair =
        { AccessToken :=
            P.signingString SigningMethod.HS256
              (accessClaims t now ids userID email username roles) ++ "." ++ sa,
          RefreshToken :=
            P.signingString SigningMethod.HS256 (refreshClaims t now ids userID) ++ "." ++ sr,
          AccessExp := now + t.accessTTL, RefreshExp := now + t.refreshTTL,
          JTI := ids.jti, SID := ids.sid } := by
  unfold GenerateTokenPair jwt.SignedString at h
  cases ha : P.hmacSign SigningMethod.HS256 t.accessSecret
      (P.signingString SigningMethod.HS256 (accessClaims t now ids userID email username roles)) with
  | error e => simp [ha] at h
  | ok sa =>
    cases hr : P.hmacSign SigningMethod.HS256 t.refreshSecret
        (P.signingString SigningMethod.HS256 (refreshClaims t now ids userID)) with
    | error e => simp [ha, hr] at h
    | ok sr =>
      simp [ha, hr] at h
      exact ⟨sa, sr, rfl, rfl, h.symm⟩

/-- The session id a successful refresh reports is the UUID it has just drawn. -/
theorem refresh_ok_sessionID {P : Primitives} {h : authHandler} {env : Env} {db : Store}
    {c : Request} (hok : (Refresh P h env db c).1.status = StatusOK) :
    (Refresh P h env db c).1.sessionID = env.ids.sid := by
  obtain ⟨payload, sess, u, pair, -, -, -, -, -, -, hgen, heq⟩ := refresh_ok_inv hok
  obtain ⟨sa, sr, -, -, hpair⟩ := generateTokenPair_ok hgen
  rw [heq, hpair]
  rfl

/-! ## C1 -/

/-- C1, the code at the failing input: alice holds session `s1` and presents its
refresh token `r1.rk`; the refresh succeeds, but the pair it returns carries the
newly drawn id `s2`: the body reports `s2`, both new tokens verify with
`session_id = s2`, the rotated record is still `s1` (now holding the digest of the
new token) and no session `s2` exists, so that presenting the new refresh token
is answered 401. -/
theorem refresh_pair_carries_new_sid :
    (ParseRefreshToken sample.primitives sample.manager (2000 * second) "r1.rk").toOption.map
        (fun p => p.SID) = some "s1" ∧
      (sample.db1.session? "s1").isSome = true ∧
      (Refresh sample.primitives sample.handler (sample.envAt (2000 * second) sample.ids1)
          sample.db1 (sample.refreshRequest "r1.rk")).1.status = 200 ∧
      (Refresh sample.primitives sample.handler (sample.envAt (2000 * second) sample.ids1)
          sample.db1 (sample.refreshRequest "r1.rk")).1.sessionID = "s2" ∧
      (Refresh sample.primitives sample.handler (sample.envAt (2000 * second) sample.ids1)
          sample.db1 (sample.refreshRequest "r1.rk")).1.cookie "access_token" = "a2.ak" ∧
      (Refresh sample.primitives sample.handler (sample.envAt (2000 * second) sample.ids1)
          sample.db1 (sample.refreshRequest "r1.rk")).1.cookie "refresh_token" = "r2.rk" ∧
      (ParseAccessToken sample.primitives sample.manager (2000 * second) "a2.ak").toOption.map
        (fun p => p.SID) = some "s2" ∧
      (ParseRefreshToken sample.primitives sample.manager (2000 * second) "r2.rk").toOption.map
        (fun p => p.SID) = some "s2" ∧
      (sample.db2.session? "s1").map (fun s => s.RefreshTokenHash) =
        some (HashToken sample.primitives "r2.rk") ∧
      sample.db2.session? "s2" = none ∧
      (Refresh sample.primitives sample.handler (sample.envAt (2001 * second) sample.ids1)
          sample.db2 (sample.refreshRequest "r2.rk")).1 =
        SendError [] 401 "session expired or revoked" := by
  decide

/-! ## C2 -/

/-- C2: when the presented refresh token verifies with SID `s`, session `s` is
stored, valid and not expired, but its stored digest does not match the token,
then (the lookup and the delete reaching the database) the answer is 401
"refresh token reuse detected", both credential cookies are set to the empty
value with an expiry at the epoch, session `s` is gone from the store while
every other record stays, and the store has seen a lookup and a delete only: no
rotation is written and no token is handed out. -/
theorem refresh_reuse_deletes_session (P : Primitives) (h : authHandler) (env : Env)
    (db : Store) (c : Request) (payload : ClaimsPayload) (sess : session.Session)
    (hparse : ParseRefreshToken P h.tokenManager env.tVerify (c.Cookies refreshTokenCookieName)
      = Except.ok payload)
    (hsess : db.session? payload.SID = some sess)
    (hvalid : sess.Valid = true)
    (hlive : ¬ sess.ExpiresAt < env.tCheck)
    (hmis : CompareTokenHash P sess.RefreshTokenHash (c.Cookies refreshTokenCookieName) = false)
    (hget : env.faults.sessionGet = false) (hdel : env.faults.sessionDelete = false) :
    (Refresh P h env db c).1.status = 401 ∧
      (Refresh P h env db c).1.body = Body.error 401 "refresh token reuse detected" ∧
      (Refresh P h env db c).1.cookies.map (fun k => (k.Name, k.Value, k.Expires)) =
        [("access_token", "", timeUnix 0), ("refresh_token", "", timeUnix 0)] ∧
      (Refresh P h env db c).2.session? payload.SID = none ∧
      (Refresh P h env db c).2.sessions = db.sessions.filter (fun r => r.ID != payload.SID) ∧
      (Refresh P h env db c).2.users = db.users ∧
      (Refresh P h env db c).2.calls =
        db.calls ++ [StoreCall.sessionGet payload.SID, StoreCall.sessionDelete payload.SID] := by
  rw [refresh_reuse hparse hsess hvalid hlive hmis hget hdel]
  refine ⟨rfl, rfl, rfl, session?_filter_ne _ _ _ _, rfl, rfl, rfl⟩

/-- C2 at a concrete input: after the rotation of session `s1`, the old token
`r1.rk` is presented again. -/
theorem refresh_reuse_deletes_session_witness :
    (Refresh sample.primitives sample.handler (sample.envAt (2500 * second) sample.ids1)
        sample.db2 (sample.refreshRequest "r1.rk")).1.status = 401 ∧
      sample.db3.session? "s1" = none :=
  have w := refresh_reuse_deletes_session sample.primitives sample.handler
    (sample.envAt (2500 * second) sample.ids1) sample.db2 (sample.refreshRequest "r1.rk")
    { UserID := "u1", Email := "", Username := "", Roles := [], JTI := "r1", SID := "s1",
      Expiry := timeUnix 4600 }
    { ID := "s1", UserID := "u1", IPAddress := "10.0.0.2", UserAgent := "ua0", Valid := true,
      ExpiresAt := 5600 * second,
      RefreshTokenHash := HashToken sample.primitives "r2.rk",
      CreatedAt := 1000 * second, UpdatedAt := 2000 * second }
    (by decide) (by decide) rfl (by decide) (by decide) rfl rfl
  ⟨w.1, w.2.2.2.1⟩

/-! ## C4 -/

/-- C4 as stated fails: at the instant equal to `expiresAt` the session is still
accepted. Session `s1` expires at second 4600; a refresh at exactly that instant,
presenting the matching token, is answered 200. -/
theorem refresh_at_expiry_instant_not_rejected :
    ¬ ∀ (P : Primitives) (h : authHandler) (env : Env) (db : Store) (c : Request)
        (payload : ClaimsPayload),
        ParseRefreshToken P h.tokenManager env.tVerify (c.Cookies refreshTokenCookieName)
          = Except.ok payload →
        env.faults.sessionGet = false →
        (db.session? payload.SID = none ∨
          ∃ s, db.session? payload.SID = some s ∧ (s.Valid = false ∨ s.ExpiresAt ≤ env.tCheck)) →
        (Refresh P h env db c).1.status = 401 ∧ (Refresh P h env db c).1.cookies = [] := by
  intro hall
  have h401 := (hall sample.primitives sample.handler (sample.envAt (4600 * second) sample.ids1)
    sample.db1 (sample.refreshRequest "r1.rk")
    { UserID := "u1", Email := "", Username := "", Roles := [], JTI := "r1", SID := "s1",
      Expiry := timeUnix 4600 }
    (by decide) rfl
    (Or.inr ⟨{ ID := "s1", UserID := "u1", IPAddress := "10.0.0.1", UserAgent := "ua0",
               Valid := true, ExpiresAt := 4600 * second,
               RefreshTokenHash := HashToken sample.primitives "r1.rk",
               CreatedAt := 1000 * second, UpdatedAt := 1000 * second },
      by decide, Or.inr (by decide)⟩)).1
  exact absurd h401 (by decide)

/-- C4, amended: when the presented refresh token verifies with SID `s` and the
lookup reaches the database, the refresh is answered 401 "session expired or
revoked", sets no cookie and writes nothing whenever no session `s` is stored,
or the session has `valid = false`, or the current time is strictly after its
`expiresAt`. -/
theorem refresh_rejects_dead_session (P : Primitives) (h : authHandler) (env : Env)
    (db : Store) (c : Request) (payload : ClaimsPayload)
    (hparse : ParseRefreshToken P h.tokenManager env.tVerify (c.Cookies refreshTokenCookieName)
      = Except.ok payload)
    (hget : env.faults.sessionGet = false)
    (hdead : db.session? payload.SID = none ∨
      ∃ s, db.session? payload.SID = some s ∧ (s.Valid = false ∨ s.ExpiresAt < env.tCheck)) :
    (Refresh P h env db c).1.status = 401 ∧
      (Refresh P h env db c).1.body = Body.error 401 "session expired or revoked" ∧
      (Refresh P h env db c).1.cookies = [] ∧
      (Refresh P h env db c).2.sessions = db.sessions ∧
      (Refresh P h env db c).2.users = db.users ∧
      (Refresh P h env db c).2.calls = db.calls ++ [StoreCall.sessionGet payload.SID] := by
  have hne := parse_refresh_ne_empty hparse
  rcases hdead with hnone | ⟨s, hs, hv⟩
  · simp [Refresh, hne, hparse, hget, hnone, session.GetSessionByID,
      repository.sessionRepository.GetByID, SendError, StatusUnauthorized, Store.record]
  · simp [Refresh, hne, hparse, hget, hs, hv, session.GetSessionByID,
      repository.sessionRepository.GetByID, SendError, StatusUnauthorized, Store.record]

/-- C4 amended, at a concrete input: session `s1` expires at second 4600 and its
token is presented one second later. -/
theorem refresh_rejects_dead_session_witness :
    (Refresh sample.primitives sample.handler (sample.envAt (4601 * second) sample.ids1)
        sample.db1 (sample.refreshRequest "r1.rk")).1.status = 401 ∧
      (Refresh sample.primitives sample.handler (sample.envAt (4601 * second) sample.ids1)
        sample.db1 (sample.refreshRequest "r1.rk")).1.cookies = [] :=
  have w := refresh_rejects_dead_session sample.primitives sample.handler
    (sample.envAt (4601 * second) sample.ids1) sample.db1 (sample.refreshRequest "r1.rk")
    { UserID := "u1", Email := "", Username := "", Roles := [], JTI := "r1", SID := "s1",
      Expiry := timeUnix 4600 }
    (by decide) rfl
    (Or.inr ⟨{ ID := "s1", UserID := "u1", IPAddress := "10.0.0.1", UserAgent := "ua0",
               Valid := true, ExpiresAt := 4600 * second,
               RefreshTokenHash := HashToken sample.primitives "r1.rk",
               CreatedAt := 1000 * second, UpdatedAt := 1000 * second },
      by decide, Or.inr (by decide)⟩)
  ⟨w.1, w.2.2.1⟩

/-! ## C5 -/

/-- C5: when the refresh cookie is missing (empty) or `ParseRefreshToken` rejects
it, `Refresh` answers 401, sets no cookie, and hands the store back exactly as it
was: same sessions, same users and not one call made to it. -/
theorem refresh_unverified_touches_no_store (P : Primitives) (h : authHandler) (env : Env)
    (db : Store) (c : Request)
    (hbad : c.Cookies refreshTokenCookieName = "" ∨
      ∃ e, ParseRefreshToken P h.tokenManager env.tVerify (c.Cookies refreshTokenCookieName)
        = Except.error e) :
    (Refresh P h env db c).1.status = 401 ∧ (Refresh P h env db c).1.cookies = [] ∧
      (Refresh P h env db c).2 = db := by
  unfold Refresh
  rcases hbad with h0 | ⟨e, he⟩
  · simp [h0, SendError, StatusUnauthorized]
  · by_cases h0 : c.Cookies refreshTokenCookieName = ""
    · simp [h0, SendError, StatusUnauthorized]
    · simp [h0, he, SendError, StatusUnauthorized]

/-- C5 at a concrete input: a refresh cookie that is no token at all. -/
theorem refresh_unverified_touches_no_store_witness :
    (Refresh sample.primitives sample.handler (sample.envAt (2000 * second) sample.ids1)
        sample.db1 (sample.refreshRequest "garbage")).1.status = 401 ∧
      (Refresh sample.primitives sample.handler (sample.envAt (2000 * second) sample.ids1)
        sample.db1 (sample.refreshRequest "garbage")).2 = sample.db1 :=
  have w := refresh_unverified_touches_no_store sample.primitives sample.handler
    (sample.envAt (2000 * second) sample.ids1) sample.db1 (sample.refreshRequest "garbage")
    (Or.inr ⟨"token is malformed", by decide⟩)
  ⟨w.1, w.2.2⟩

theorem find?_map_keep_ID (l : List session.Session) (g : session.Session → session.Session)
    (hg : ∀ r, (g r).ID = r.ID) (id : String) :
    (l.map g).find? (fun s => s.ID == id) = (l.find? (fun s => s.ID == id)).map g := by
  induction l with
  | nil => rfl
  | cons a l ih =>
    simp only [List.map_cons, List.find?_cons, hg]
    cases hd : (a.ID == id) with
    | true => simp
    | false => simpa using ih

theorem cookie_refresh_setAuthCookies (h : authHandler) (ta tr : Time) (pair : TokenPair)
    (status : Nat) (msg : String) (data : Data) :
    (SendSuccess (setAuthCookies h ta tr pair) status msg data).cookie refreshTokenCookieName
      = pair.RefreshToken := by
  simp [SendSuccess, setAuthCookies, Response.cookie, lookupD, refreshTokenCookieName,
    accessTokenCookieName]

/-! ## C3 -/

/-- C3: a login answers 200 with pair P1; a refresh presenting P1's refresh token
answers 200 with pair P2 whose refresh token is a different string. Provided
SHA-256 tells the two tokens apart and no session stored before the login
already carries the digest of either, a further refresh that presents the stale
token of P1 while that token still verifies and the session has not expired
(lookup and delete reaching the database) is answered 401 "refresh token reuse
detected" and leaves no session with the id of the login; and from then on, in
that store or in any store holding only sessions of it, every refresh that
presents the refresh token of P2 is answered 401 as well. -/
theorem stale_refresh_token_kills_session (P : Primitives) (h : authHandler)
    (env0 env1 env2 : Env) (db0 db1 db2 : Store) (c0 c1 c2 : Request) (r0 r1 : Response)
    (hlogin : Login P h env0 db0 c0 = (r0, db1)) (h0 : r0.status = 200)
    (hc1 : c1.Cookies refreshTokenCookieName = r0.cookie refreshTokenCookieName)
    (hrefresh : Refresh P h env1 db1 c1 = (r1, db2)) (h1 : r1.status = 200)
    (hdiff : r1.cookie refreshTokenCookieName ≠ r0.cookie refreshTokenCookieName)
    (hcoll : HashToken P (r1.cookie refreshTokenCookieName)
        = HashToken P (r0.cookie refreshTokenCookieName) →
      r1.cookie refreshTokenCookieName = r0.cookie refreshTokenCookieName)
    (hnew1 : ∀ x ∈ db0.sessions,
      x.RefreshTokenHash ≠ HashToken P (r0.cookie refreshTokenCookieName))
    (hnew2 : ∀ x ∈ db0.sessions,
      x.RefreshTokenHash ≠ HashToken P (r1.cookie refreshTokenCookieName))
    (hc2 : c2.Cookies refreshTokenCookieName = r0.cookie refreshTokenCookieName)
    (hstill : ∃ p, ParseRefreshToken P h.tokenManager env2.tVerify
      (r0.cookie refreshTokenCookieName) = Except.ok p)
    (hlive : ∀ s, db2.session? r0.sessionID = some s → env2.tCheck ≤ s.ExpiresAt)
    (hget : env2.faults.sessionGet = false) (hdel : env2.faults.sessionDelete = false) :
    (Refresh P h env2 db2 c2).1.status = 401 ∧
      (Refresh P h env2 db2 c2).1.body = Body.error 401 "refresh token reuse detected" ∧
      (Refresh P h env2 db2 c2).2.session? r0.sessionID = none ∧
      ∀ (env3 : Env) (db3 : Store) (c3 : Request),
        (∀ x ∈ db3.sessions, x ∈ (Refresh P h env2 db2 c2).2.sessions) →
        c3.Cookies refreshTokenCookieName = r1.cookie refreshTokenCookieName →
        env3.faults.sessionGet = false →
        (Refresh P h env3 db3 c3).1.status = 401 := by
  -- the login
  have h0' : (Login P h env0 db0 c0).1.status = StatusOK := by rw [hlogin]; exact h0
  obtain ⟨u0, pair1, ip0, ua0, -, -, hr0, hs1, -⟩ := login_ok_inv h0'
  rw [hlogin] at hr0 hs1
  simp only at hr0 hs1
  have hT1 : r0.cookie refreshTokenCookieName = pair1.RefreshToken := by
    rw [hr0]; exact cookie_refresh_setAuthCookies _ _ _ _ _ _ _
  have hsid : r0.sessionID = pair1.SID := by rw [hr0]; rfl
  -- the first refresh
  have h1' : (Refresh P h env1 db1 c1).1.status = StatusOK := by rw [hrefresh]; exact h1
  obtain ⟨payload, sess, u1, pair2, hp, hs, hval, -, hcmp, -, -, heq⟩ := refresh_ok_inv h1'
  rw [hrefresh] at heq
  have hr1 := congrArg Prod.fst heq
  have hdb2 := congrArg Prod.snd heq
  simp only at hr1 hdb2
  have hT2 : r1.cookie refreshTokenCookieName = pair2.RefreshToken := by
    rw [hr1]; exact cookie_refresh_setAuthCookies _ _ _ _ _ _ _
  rw [hc1] at hp hcmp
  obtain ⟨hmem, hid⟩ := session?_some hs
  have hhash : sess.RefreshTokenHash = HashToken P (r0.cookie refreshTokenCookieName) :=
    (compareTokenHash_eq_true.mp hcmp).2.2
  have hsessID : sess.ID = pair1.SID := by
    rw [hs1, List.mem_append] at hmem
    rcases hmem with hm | hm
    · exact absurd hhash (hnew1 sess hm)
    · rw [List.mem_singleton.mp hm]
  have hpid : payload.SID = pair1.SID := by rw [← hid, hsessID]
  -- the stale token
  obtain ⟨p2, hp2⟩ := hstill
  have hpp : p2 = payload := parse_refresh_payload_unique hp2 hp
  subst hpp
  rw [← hc2] at hp2
  let patch := rotationPatch P env1 pair2.RefreshToken pair2.RefreshExp c1.IP (c1.Get "User-Agent")
  have hfind : db2.session? p2.SID = some (repository.merge env1.tStore sess patch) := by
    rw [hdb2]
    unfold Store.session?
    dsimp only
    rw [find?_map_keep_ID _ _ _ p2.SID]
    · have hs' : List.find? (fun s => s.ID == p2.SID) db1.sessions = some sess := hs
      rw [hs']
      simp
    · intro r
      by_cases hr : r.ID = sess.ID
      · simp [hr, repository.merge, rotationPatch]
      · simp [hr]
  have hmergedHash : (repository.merge env1.tStore sess patch).RefreshTokenHash
      = HashToken P (r1.cookie refreshTokenCookieName) := by
    simp [repository.merge, patch, rotationPatch, HashToken_ne_empty, hT2]
  have hmis : CompareTokenHash P (repository.merge env1.tStore sess patch).RefreshTokenHash
      (c2.Cookies refreshTokenCookieName) = false := by
    apply compareTokenHash_of_ne
    rw [hmergedHash, hc2]
    exact fun he => hdiff (hcoll he)
  have hvalid : (repository.merge env1.tStore sess patch).Valid = true := by
    simp [repository.merge, patch, rotationPatch, hval]
  have hlive' : ¬ (repository.merge env1.tStore sess patch).ExpiresAt < env2.tCheck := by
    have hle := hlive (repository.merge env1.tStore sess patch)
      (by rw [hsid, ← hpid]; exact hfind)
    exact not_lt.mpr hle
  have hout := refresh_reuse hp2 hfind hvalid hlive' hmis hget hdel
  rw [hout]
  refine ⟨rfl, rfl, ?_, ?_⟩
  · rw [hsid, ← hpid]
    exact session?_filter_ne _ _ _ _
  · intro env3 db3 c3 hsub hc3 hget3
    apply refresh_unknown_hash _ hget3
    intro x hx
    have hx2 := hsub x hx
    simp only [List.mem_filter] at hx2
    obtain ⟨hxmem, hxid⟩ := hx2
    have hxid' : x.ID ≠ p2.SID := by simpa using hxid
    rw [hdb2] at hxmem
    simp only [List.mem_map] at hxmem
    obtain ⟨r, hrmem, hrx⟩ := hxmem
    by_cases hr : r.ID = sess.ID
    · exfalso
      apply hxid'
      rw [← hrx, hpid, ← hsessID]
      simp [hr, repository.merge, rotationPatch]
    · simp only [hr, if_false] at hrx
      subst hrx
      rw [hs1, List.mem_append] at hrmem
      rcases hrmem with hm | hm
      · rw [hc3]; exact hnew2 r hm
      · exfalso
        apply hr
        rw [List.mem_singleton.mp hm, hsessID]

/-- C3 at a concrete input: alice logs in at second 1000 (pair `a1.ak`, `r1.rk`),
refreshes at second 2000 (pair `a2.ak`, `r2.rk`), and `r1.rk` is presented again
at second 2500; afterwards `r2.rk` is refused too. -/
theorem stale_refresh_token_kills_session_witness :
    (Refresh sample.primitives sample.handler (sample.envAt (2500 * second) sample.ids1)
        sample.db2 (sample.refreshRequest "r1.rk")).1.body
        = Body.error 401 "refresh token reuse detected" ∧
      sample.db3.session? "s1" = none ∧
      (Refresh sample.primitives sample.handler (sample.envAt (2600 * second) sample.ids1)
        sample.db3 (sample.refreshRequest "r2.rk")).1.status = 401 :=
  have w := stale_refresh_token_kills_session sample.primitives sample.handler
    (sample.envAt (1000 * second) sample.ids0) (sample.envAt (2000 * second) sample.ids1)
    (sample.envAt (2500 * second) sample.ids1) sample.db0 sample.db1 sample.db2
    sample.loginRequest (sample.refreshRequest "r1.rk") (sample.refreshRequest "r1.rk")
    (Login sample.primitives sample.handler (sample.envAt (1000 * second) sample.ids0)
      sample.db0 sample.loginRequest).1
    (Refresh sample.primitives sample.handler (sample.envAt (2000 * second) sample.ids1)
      sample.db1 (sample.refreshRequest "r1.rk")).1
    (by decide) (by decide) (by decide) (by decide) (by decide) (by decide) (by decide)
    (by decide) (by decide) (by decide)
    ⟨{ UserID := "u1", Email := "", Username := "", Roles := [], JTI := "r1", SID := "s1",
       Expiry := timeUnix 4600 }, by decide⟩
    (by
      intro s hs
      have hrow : sample.db2.session? (Login sample.primitives sample.handler
          (sample.envAt (1000 * second) sample.ids0) sample.db0 sample.loginRequest).1.sessionID
          = some { ID := "s1", UserID := "u1", IPAddress := "10.0.0.2", UserAgent := "ua0",
                   Valid := true, ExpiresAt := 5600 * second,
                   RefreshTokenHash := HashToken sample.primitives "r2.rk",
                   CreatedAt := 1000 * second, UpdatedAt := 2000 * second } := by decide
      rw [hrow] at hs
      cases hs
      decide)
    rfl rfl
  ⟨w.2.1, w.2.2.1,
    w.2.2.2 (sample.envAt (2600 * second) sample.ids1) sample.db3 (sample.refreshRequest "r2.rk")
      (fun _ hx => hx) (by decide) rfl⟩

/-! ## C6 -/

/-- C6 as stated fails: session `s1` was created with user agent `ua0`; a
successful refresh from a request that carries no `User-Agent` header leaves
`ua0` in the record instead of writing the (empty) user agent of the request. -/
theorem rotation_skips_empty_user_agent :
    ¬ ∀ (P : Primitives) (h : authHandler) (env : Env) (db : Store) (c : Request)
        (payload : ClaimsPayload) (row : session.Session),
        (Refresh P h env db c).1.status = 200 →
        ParseRefreshToken P h.tokenManager env.tVerify (c.Cookies refreshTokenCookieName)
          = Except.ok payload →
        (Refresh P h env db c).2.session? payload.SID = some row →
        row.IPAddress = c.IP ∧ row.UserAgent = c.Get "User-Agent" := by
  intro hall
  have hrow := (hall sample.primitives sample.handler (sample.envAt (2000 * second) sample.ids1)
    sample.db1 (sample.refreshRequest "r1.rk")
    { UserID := "u1", Email := "", Username := "", Roles := [], JTI := "r1", SID := "s1",
      Expiry := timeUnix 4600 }
    { ID := "s1", UserID := "u1", IPAddress := "10.0.0.2", UserAgent := "ua0", Valid := true,
      ExpiresAt := 5600 * second, RefreshTokenHash := HashToken sample.primitives "r2.rk",
      CreatedAt := 1000 * second, UpdatedAt := 2000 * second }
    (by decide) (by decide) (by decide)).2
  exact absurd hrow (by decide)

/-- C6, amended: a refresh on session `s` that answers 200 from a request with
client IP `ip` and User-Agent `ua`, issuing pair P with an expiry other than the
zero time, replaces the record `s` by the same record with
`refreshTokenHash = HashToken(P.RefreshToken)`, `expiresAt = P.RefreshExp`,
`updatedAt` = the clock of the store at the write, `ipAddress = ip` when `ip` is
non-empty and `userAgent = ua` when `ua` is non-empty (an empty one leaves the
stored value); id, userId, valid flag and createdAt are what they were, as is
every other session record and every user. -/
theorem rotation_updates_session (P : Primitives) (h : authHandler) (env : Env) (db : Store)
    (c : Request) (hok : (Refresh P h env db c).1.status = 200)
    (hexp : env.tIssue + h.tokenManager.refreshTTL ≠ zeroTime) :
    ∃ (payload : ClaimsPayload) (pair : TokenPair),
      ParseRefreshToken P h.tokenManager env.tVerify (c.Cookies refreshTokenCookieName)
        = Except.ok payload ∧
      (Refresh P h env db c).1.cookie refreshTokenCookieName = pair.RefreshToken ∧
      pair.RefreshExp = env.tIssue + h.tokenManager.refreshTTL ∧
      (Refresh P h env db c).2.sessions = db.sessions.map (fun r =>
        if r.ID = payload.SID then
          { r with
            RefreshTokenHash := HashToken P pair.RefreshToken,
            ExpiresAt := pair.RefreshExp,
            IPAddress := if c.IP = "" then r.IPAddress else c.IP,
            UserAgent := if c.Get "User-Agent" = "" then r.UserAgent else c.Get "User-Agent",
            UpdatedAt := env.tStore }
        else r) ∧
      (Refresh P h env db c).2.users = db.users := by
  obtain ⟨payload, sess, u, pair, hp, hs, -, -, -, -, hgen, heq⟩ := refresh_ok_inv hok
  obtain ⟨sa, sr, -, -, hpair⟩ := generateTokenPair_ok hgen
  have hid := (session?_some hs).2
  have hre : pair.RefreshExp = env.tIssue + h.tokenManager.refreshTTL := by rw [hpair]
  refine ⟨payload, pair, hp, ?_, hre, ?_, ?_⟩
  · rw [heq]; exact cookie_refresh_setAuthCookies _ _ _ _ _ _ _
  · rw [heq]
    simp only
    apply List.map_congr_left
    intro r _
    rw [hid]
    by_cases hr : r.ID = payload.SID
    · simp only [hr, if_true]
      simp [repository.merge, rotationPatch, HashToken_ne_empty, hre, hexp, hr]
    · simp [hr]
  · rw [heq]

/-- C6 amended, at a concrete input: the refresh of session `s1` at second 2000,
from address `10.0.0.2` and without a `User-Agent` header. -/
theorem rotation_updates_session_witness :
    ∃ (payload : ClaimsPayload) (pair : TokenPair),
      ParseRefreshToken sample.primitives sample.handler.tokenManager
          (sample.envAt (2000 * second) sample.ids1).tVerify
          ((sample.refreshRequest "r1.rk").Cookies refreshTokenCookieName)
        = Except.ok payload ∧
      (Refresh sample.primitives sample.handler (sample.envAt (2000 * second) sample.ids1)
        sample.db1 (sample.refreshRequest "r1.rk")).1.cookie refreshTokenCookieName
        = pair.RefreshToken ∧
      pair.RefreshExp = (sample.envAt (2000 * second) sample.ids1).tIssue
        + sample.handler.tokenManager.refreshTTL ∧
      (Refresh sample.primitives sample.handler (sample.envAt (2000 * second) sample.ids1)
        sample.db1 (sample.refreshRequest "r1.rk")).2.sessions = sample.db1.sessions.map (fun r =>
        if r.ID = payload.SID then
          { r with
            RefreshTokenHash := HashToken sample.primitives pair.RefreshToken,
            ExpiresAt := pair.RefreshExp,
            IPAddress :=
              if (sample.refreshRequest "r1.rk").IP = "" then r.IPAddress
              else (sample.refreshRequest "r1.rk").IP,
            UserAgent :=
              if (sample.refreshRequest "r1.rk").Get "User-Agent" = "" then r.UserAgent
              else (sample.refreshRequest "r1.rk").Get "User-Agent",
            UpdatedAt := (sample.envAt (2000 * second) sample.ids1).tStore }
        else r) ∧
      (Refresh sample.primitives sample.handler (sample.envAt (2000 * second) sample.ids1)
        sample.db1 (sample.refreshRequest "r1.rk")).2.users = sample.db1.users :=
  rotation_updates_session sample.primitives sample.handler
    (sample.envAt (2000 * second) sample.ids1) sample.db1 (sample.refreshRequest "r1.rk")
    (by decide) (by decide)

theorem parse_access_ne_empty {P : Primitives} {t : TokenManager} {now : Time} {tok : String}
    {p : ClaimsPayload} (h : ParseAccessToken P t now tok = Except.ok p) : tok ≠ "" := by
  intro he
  subst he
  simp [ParseAccessToken] at h

theorem hasIntersection_iff (P : Primitives) (userRoles required : List String) :
    hasIntersection P userRoles required = true ↔ RolesMeet P userRoles required := by
  unfold hasIntersection RolesMeet
  simp only [List.any_eq_true, List.contains, List.elem_eq_mem, decide_eq_true_eq, List.mem_map]
  constructor
  · rintro ⟨r, hr, u, hu, hur⟩
    exact ⟨u, hu, r, hr, hur⟩
  · rintro ⟨u, hu, r, hr, hur⟩
    exact ⟨r, hr, u, hu, hur⟩

/-! ## C7 -/

/-- C7: for a request whose access token verifies with role list U and a policy
with role list R: `hasIntersection(U, R)` holds exactly when some role of U
equals some role of R after lower-casing both; with R empty the gate calls the
next handler with the claims attached; with R non-empty it does so exactly when
U and R meet, and otherwise answers 403 "insufficient permissions" without
calling the next handler. In particular `["user"]` does not meet `["admin"]` and
meets `["admin","user"]`. -/
theorem role_gate_is_intersection (P : Primitives) (a : AuthMiddleware) (policy : Policy)
    (now : Time) (c : Request) (claims : ClaimsPayload)
    (hparse : ParseAccessToken P a.tokenManager now (extractToken P a c) = Except.ok claims) :
    (hasIntersection P claims.Roles policy.Roles = true ↔
        RolesMeet P claims.Roles policy.Roles) ∧
      (policy.Roles = [] → Require P a policy now c = Outcome.next [(a.contextKey, claims)]) ∧
      (policy.Roles ≠ [] → RolesMeet P claims.Roles policy.Roles →
        Require P a policy now c = Outcome.next [(a.contextKey, claims)]) ∧
      (policy.Roles ≠ [] → ¬ RolesMeet P claims.Roles policy.Roles →
        Require P a policy now c =
          Outcome.respond
            { status := 403, body := Body.error 403 "insufficient permissions",
              cookies := [] }) ∧
      hasIntersection P ["user"] ["admin"] = false ∧
      hasIntersection P ["user"] ["admin", "user"] = true := by
  have hne := parse_access_ne_empty hparse
  refine ⟨hasIntersection_iff P _ _, ?_, ?_, ?_, ?_, ?_⟩
  · intro hR
    simp [Require, hne, hparse, hR]
  · intro _ hmeet
    have := (hasIntersection_iff P _ _).mpr hmeet
    simp [Require, hne, hparse, this]
  · intro hR hmeet
    have hfalse : hasIntersection P claims.Roles policy.Roles = false := by
      cases hb : hasIntersection P claims.Roles policy.Roles with
      | false => rfl
      | true => exact absurd ((hasIntersection_iff P _ _).mp hb) hmeet
    have hpos : 0 < policy.Roles.length := List.length_pos.mpr hR
    simp [Require, hne, hparse, hfalse, hpos, forbidden, StatusForbidden]
  · rfl
  · rfl

/-- C7 at a concrete input: alice's access token, role `user`, at a gate that
requires `admin`. -/
theorem role_gate_is_intersection_witness :
    Require sample.primitives sample.gate { Roles := ["admin"] } (1000 * second)
        sample.bearerRequest =
      Outcome.respond
        { status := 403, body := Body.error 403 "insufficient permissions", cookies := [] } :=
  (role_gate_is_intersection sample.primitives sample.gate { Roles := ["admin"] }
    (1000 * second) sample.bearerRequest
    { UserID := "u1", Email := "alice@example.com", Username := "alice", Roles := ["user"],
      JTI := "a1", SID := "s1", Expiry := timeUnix 1900 }
    (by decide)).2.2.2.1 (by decide)
    (by
      rw [← hasIntersection_iff]
      decide)

/-! ## C8 -/

/-- C8: `extractToken` returns the first non-empty string among the bearer token
of the `Authorization` header, the access-token cookie and, only when the gate
allows it, the `token` query parameter, and the empty string when there is none.
The gate allows the query parameter exactly when `AllowQueryToken` was set in its
configuration; a configuration that does not mention it, like the one the
application builds, yields a gate that does not. -/
theorem extractToken_first_match (P : Primitives) (a : AuthMiddleware) (c : Request)
    (cfg : Config) (tm : TokenManager) :
    extractToken P a c =
        firstNonEmpty
          ([middleware.extractBearerToken P (c.Get "Authorization"), c.Cookies a.accessCookie] ++
            (if a.allowQuery then [c.Query "token"] else [])) ∧
      (NewAuthMiddleware cfg).map (fun g => g.allowQuery) =
        cfg.TokenManager.map (fun _ => cfg.AllowQueryToken) ∧
      ({ } : Config).AllowQueryToken = false ∧
      (NewAuthMiddleware
          { TokenManager := some tm, AccessTokenCookie := DefaultAccessTokenCookie,
            ContextKey := DefaultClaimsContextKey }).map (fun g => g.allowQuery) = some false := by
  refine ⟨?_, ?_, rfl, rfl⟩
  · unfold extractToken firstNonEmpty
    by_cases h1 : middleware.extractBearerToken P (c.Get "Authorization") = ""
    · by_cases h2 : c.Cookies a.accessCookie = ""
      · by_cases h3 : a.allowQuery = true
        · by_cases h4 : c.Query "token" = "" <;> simp [h1, h2, h3, h4]
        · simp [h1, h2, h3]
      · simp [h1, h2]
    · simp [h1]
  · unfold NewAuthMiddleware
    cases cfg.TokenManager <;> rfl

/-! ## C9 -/

/-- C9: when the gate finds no token, or finds one that `ParseAccessToken`
rejects, it calls the next handler with no claims attached if the policy has
`AllowAnonymous = true`, and otherwise answers 401 without calling it. -/
theorem gate_without_verified_token (P : Primitives) (a : AuthMiddleware) (policy : Policy)
    (now : Time) (c : Request)
    (hbad : extractToken P a c = "" ∨
      ∃ e, ParseAccessToken P a.tokenManager now (extractToken P a c) = Except.error e) :
    (policy.AllowAnonymous = true → Require P a policy now c = Outcome.next []) ∧
      (policy.AllowAnonymous = false →
        ∃ msg, Require P a policy now c =
          Outcome.respond { status := 401, body := Body.error 401 msg, cookies := [] }) := by
  unfold Require
  rcases hbad with h0 | ⟨e, he⟩
  · constructor
    · intro hA; simp [h0, hA]
    · intro hA
      exact ⟨"missing access token", by simp [h0, hA, unauthorized, StatusUnauthorized]⟩
  · by_cases h0 : extractToken P a c = ""
    · constructor
      · intro hA; simp [h0, hA]
      · intro hA
        exact ⟨"missing access token", by simp [h0, hA, unauthorized, StatusUnauthorized]⟩
    · constructor
      · intro hA; simp [h0, he, hA]
      · intro hA
        exact ⟨"invalid access token", by simp [h0, he, hA, unauthorized, StatusUnauthorized]⟩

/-- C9 at a concrete input: a request without header or cookie (its `token` query
parameter is not read by this gate), once under a policy that admits anonymous
callers and once under one that does not. -/
theorem gate_without_verified_token_witness :
    Require sample.primitives sample.gate { AllowAnonymous := true } (1000 * second)
        sample.bareRequest = Outcome.next [] ∧
      ∃ msg, Require sample.primitives sample.gate { } (1000 * second) sample.bareRequest =
        Outcome.respond { status := 401, body := Body.error 401 msg, cookies := [] } :=
  ⟨(gate_without_verified_token sample.primitives sample.gate { AllowAnonymous := true }
      (1000 * second) sample.bareRequest (Or.inl (by decide))).1 rfl,
    (gate_without_verified_token sample.primitives sample.gate { } (1000 * second)
      sample.bareRequest (Or.inl (by decide))).2 rfl⟩

theorem append_dot_ne_empty (a b : String) : a ++ "." ++ b ≠ "" := by
  intro he
  have := congrArg String.length he
  simp at this
  exact absurd this.1.2 (by decide)

/-- Rounding an instant down to whole seconds loses less than a second. -/
theorem fdiv_second_bounds (x : Int) :
    Int.fdiv x 1000000000 * 1000000000 ≤ x ∧
      x < Int.fdiv x 1000000000 * 1000000000 + 1000000000 := by
  rw [Int.fdiv_eq_ediv x (by decide)]
  constructor <;> omega

/-- A token whose expiry lies less than five seconds back and whose not-before
time does not lie more than five seconds ahead passes the validator. -/
theorem validate_ok {claims : MapClaims} {now : Time} {e : Int}
    (hexp : claims.get "exp" = some (Val.float64 e))
    (hnbf : claims.get "nbf" = none ∨ ∃ n, claims.get "nbf" = some (Val.float64 n) ∧
      timeUnix n - leeway ≤ now)
    (he : now < timeUnix e + leeway) :
    jwt.Validate leeway now claims = Except.ok () := by
  unfold jwt.Validate jwt.parseNumericDate
  rw [hexp]
  rcases hnbf with hn | ⟨n, hn, hle⟩
  · rw [hn]
    by_cases h0 : e = 0
    · simp [h0]
    · simp [h0, he]
  · rw [hn]
    by_cases h0 : e = 0 <;> by_cases h1 : n = 0 <;> simp [h0, h1, he, hle]

theorem fresh_exp_bound (now now' ttl : Int) (httl : 0 < ttl)
    (h : now' ≤ now + 4 * 1000000000) :
    now' < Int.fdiv (now + ttl) 1000000000 * 1000000000 + 5 * 1000000000 := by
  have := (fdiv_second_bounds (now + ttl)).2
  omega

theorem fresh_nbf_bound (now now' : Int) (h : now ≤ now') :
    Int.fdiv now 1000000000 * 1000000000 - 5 * 1000000000 ≤ now' := by
  have := (fdiv_second_bounds now).1
  omega

/-! ## C10 -/

/-- C10: a manager built by `NewTokenManager` (so with non-empty secrets) with
positive TTLs issues a pair; the compact serialization of its two tokens decodes
to what was encoded, and the tokens are verified right away (within four seconds
of the issue). Then `ParseAccessToken` succeeds on the access token with the
user id, email, username and roles that were supplied and with the JTI and SID of
the pair, and `ParseRefreshToken` succeeds on the refresh token with the user id
that was supplied and the SID of the pair. -/
theorem verify_returns_what_was_issued (P : Primitives) (accessSecret refreshSecret : String)
    (accessTTL refreshTTL : Duration) (t : TokenManager) (now nowA nowR : Time) (ids : UUIDs)
    (userID email username : String) (roles : List String) (pair : TokenPair)
    (hnew : NewTokenManager accessSecret refreshSecret accessTTL refreshTTL = Except.ok t)
    (hattl : 0 < accessTTL) (hrttl : 0 < refreshTTL)
    (hgen : GenerateTokenPair P t now ids userID email username roles = Except.ok pair)
    (hdecA : P.Decodes SigningMethod.HS256
      (accessClaims t now ids userID email username roles) t.accessSecret)
    (hdecR : P.Decodes SigningMethod.HS256 (refreshClaims t now ids userID) t.refreshSecret)
    (hA : now ≤ nowA ∧ nowA ≤ now + 4 * second)
    (hR : now ≤ nowR ∧ nowR ≤ now + 4 * second) :
    ∃ pa pr,
      ParseAccessToken P t nowA pair.AccessToken = Except.ok pa ∧
      pa.UserID = userID ∧ pa.Email = email ∧ pa.Username = username ∧ pa.Roles = roles ∧
      pa.JTI = pair.JTI ∧ pa.SID = pair.SID ∧
      ParseRefreshToken P t nowR pair.RefreshToken = Except.ok pr ∧
      pr.UserID = userID ∧ pr.SID = pair.SID := by
  have httl : t.accessTTL = accessTTL ∧ t.refreshTTL = refreshTTL := by
    unfold NewTokenManager at hnew
    by_cases hs : accessSecret = "" ∨ refreshSecret = ""
    · simp [hs] at hnew
    · simp [hs] at hnew
      rw [← hnew]
      exact ⟨rfl, rfl⟩
  obtain ⟨sa, sr, hsa, hsr, hpair⟩ := generateTokenPair_ok hgen
  subst hpair
  have hpA := hdecA sa hsa
  have hpR := hdecR sr hsr
  -- validation of the access claims
  have hvA : jwt.Validate leeway nowA
      (accessClaims t now ids userID email username roles).decoded = Except.ok () := by
    apply validate_ok (e := unixSeconds (now + t.accessTTL))
    · rfl
    · exact Or.inr ⟨unixSeconds now, rfl, fresh_nbf_bound now nowA hA.1⟩
    · rw [httl.1]
      exact fresh_exp_bound now nowA accessTTL hattl hA.2
  have hvR : jwt.Validate leeway nowR (refreshClaims t now ids userID).decoded = Except.ok () := by
    apply validate_ok (e := unixSeconds (now + t.refreshTTL))
    · rfl
    · exact Or.inl rfl
    · rw [httl.2]
      exact fresh_exp_bound now nowR refreshTTL hrttl hR.2
  refine ⟨claimsToPayload (accessClaims t now ids userID email username roles).decoded,
    claimsToPayload (refreshClaims t now ids userID).decoded, ?_, rfl, rfl, rfl, ?_, rfl, rfl,
    ?_, rfl, rfl⟩
  · simp [ParseAccessToken, append_dot_ne_empty, jwt.Parse, hpA, keyFunc, SigningMethod.isHMAC,
      jwt.Verify, hsa, hvA]
  · show List.filterMap id (List.map some roles) = roles
    simp
  · simp [ParseRefreshToken, append_dot_ne_empty, jwt.Parse, hpR, keyFunc, SigningMethod.isHMAC,
      jwt.Verify, hsr, hvR]

/-- C10 at a concrete input: the pair issued to alice at second 1000, verified
one second later. -/
theorem verify_returns_what_was_issued_witness :
    ∃ pa pr,
      ParseAccessToken sample.primitives sample.manager (1001 * second) "a1.ak" = Except.ok pa ∧
      pa.UserID = "u1" ∧ pa.Email = "alice@example.com" ∧ pa.Username = "alice" ∧
      pa.Roles = ["user"] ∧ pa.JTI = "a1" ∧ pa.SID = "s1" ∧
      ParseRefreshToken sample.primitives sample.manager (1001 * second) "r1.rk" = Except.ok pr ∧
      pr.UserID = "u1" ∧ pr.SID = "s1" :=
  verify_returns_what_was_issued sample.primitives "ak" "rk" (900 * second) (3600 * second)
    sample.manager (1000 * second) (1001 * second) (1001 * second) sample.ids0 "u1"
    "alice@example.com" "alice" ["user"]
    { AccessToken := "a1.ak", RefreshToken := "r1.rk", AccessExp := 1900 * second,
      RefreshExp := 4600 * second, JTI := "a1", SID := "s1" }
    (by decide) (by decide) (by decide) (by decide)
    (by
      intro sig hsig
      cases hsig
      decide)
    (by
      intro sig hsig
      cases hsig
      decide)
    (by decide) (by decide)

/-! ## Auxiliary facts on the parser -/

/-- A decodable token that names an HMAC method and carries the signature made
with `secret` gets as far as the validation of its claims. -/
theorem parse_of_signed {P : Primitives} {secret tok : String} {u : Unverified} (now : Time)
    (hu : P.parseUnverified tok = some u) (hm : u.method.isHMAC = true)
    (hsig : jwt.Verify P u.method u.text u.signature secret = true) :
    jwt.Parse P (keyFunc secret) leeway now tok =
      match jwt.Validate leeway now u.claims with
      | Except.error e => Except.error e
      | Except.ok _ => Except.ok u.claims := by
  simp [jwt.Parse, hu, keyFunc, hm, hsig]

/-- A token whose signature is not the one made with `secret` is refused. -/
theorem parse_of_bad_signature {P : Primitives} {secret tok : String} {u : Unverified}
    (now : Time) (hu : P.parseUnverified tok = some u)
    (hsig : jwt.Verify P u.method u.text u.signature secret = false) :
    ∃ e, jwt.Parse P (keyFunc secret) leeway now tok = Except.error e := by
  by_cases hm : u.method.isHMAC = true
  · exact ⟨"token signature is invalid", by simp [jwt.Parse, hu, keyFunc, hm, hsig]⟩
  · exact ⟨"token is unverifiable: unexpected signing method",
      by simp [jwt.Parse, hu, keyFunc, hm]⟩

/-- The validator refuses a token from the instant `exp` plus the leeway on. -/
theorem validate_expired {claims : MapClaims} {now : Time} {e : Int}
    (hexp : claims.get "exp" = some (Val.float64 e)) (he0 : e ≠ 0)
    (hnbf : ∃ n, jwt.parseNumericDate claims "nbf" = Except.ok n)
    (hlate : timeUnix e + leeway ≤ now) :
    jwt.Validate leeway now claims = Except.error "token is expired" := by
  obtain ⟨n, hn⟩ := hnbf
  have hx : jwt.parseNumericDate claims "exp" = Except.ok (some (timeUnix e)) := by
    simp [jwt.parseNumericDate, hexp, he0]
  unfold jwt.Validate
  rw [hx, hn]
  have : ¬ now < timeUnix e + leeway := not_lt.mpr hlate
  simp [this]

/-- The validator accepts a token before `exp` plus the leeway, once its
not-before time minus the leeway has come. -/
theorem validate_live {claims : MapClaims} {now : Time} {e : Int} {n : Option Time}
    (hexp : claims.get "exp" = some (Val.float64 e))
    (hnbf : jwt.parseNumericDate claims "nbf" = Except.ok n)
    (hn : ∀ x, n = some x → x - leeway ≤ now)
    (hearly : now < timeUnix e + leeway) :
    jwt.Validate leeway now claims = Except.ok () := by
  unfold jwt.Validate
  rw [hnbf]
  by_cases he0 : e = 0
  · have hx : jwt.parseNumericDate claims "exp" = Except.ok none := by
      simp [jwt.parseNumericDate, hexp, he0]
    rw [hx]
    cases n with
    | none => simp
    | some x => simp [hn x rfl]
  · have hx : jwt.parseNumericDate claims "exp" = Except.ok (some (timeUnix e)) := by
      simp [jwt.parseNumericDate, hexp, he0]
    rw [hx]
    cases n with
    | none => simp [hearly]
    | some x => simp [hearly, hn x rfl]

/-! ## C11 -/

/-- C11 as stated fails: `NewTokenManager` accepts one and the same string as
access and as refresh secret, and then the refresh token of a pair it issues
verifies as an access token. -/
theorem refresh_token_verifies_as_access_under_shared_secret :
    ¬ ∀ (P : Primitives) (accessSecret refreshSecret : String) (accessTTL refreshTTL : Duration)
        (t : TokenManager) (now nowV : Time) (ids : UUIDs) (userID email username : String)
        (roles : List String) (pair : TokenPair),
        NewTokenManager accessSecret refreshSecret accessTTL refreshTTL = Except.ok t →
        GenerateTokenPair P t now ids userID email username roles = Except.ok pair →
        ∃ e, ParseAccessToken P t nowV pair.RefreshToken = Except.error e := by
  intro hall
  obtain ⟨e, he⟩ := hall sample.primitives "rk" "rk" (900 * second) (3600 * second)
    sample.sharedManager (1000 * second) (1000 * second) sample.ids0 "u1" "alice@example.com"
    "alice" ["user"]
    { AccessToken := "a1.rk", RefreshToken := "r1.rk", AccessExp := 1900 * second,
      RefreshExp := 4600 * second, JTI := "a1", SID := "s1" }
    (by decide) (by decide)
  have hok : ParseAccessToken sample.primitives sample.sharedManager (1000 * second) "r1.rk"
      = Except.ok { UserID := "u1", Email := "", Username := "", Roles := [], JTI := "r1",
                    SID := "s1", Expiry := timeUnix 4600 } := by decide
  rw [hok] at he
  exact Except.noConfusion he

/-- What the validator makes of the decoded refresh claims: they have no `nbf`,
and an `exp` of zero is read as no expiry. -/
theorem validate_refreshClaims (t : TokenManager) (now nowV : Time) (ids : UUIDs)
    (userID : String) :
    jwt.Validate leeway nowV (refreshClaims t now ids userID).decoded = Except.ok () ↔
      (unixSeconds (now + t.refreshTTL) = 0 ∨
        nowV < timeUnix (unixSeconds (now + t.refreshTTL)) + leeway) := by
  by_cases h0 : unixSeconds (now + t.refreshTTL) = 0
  · simp [jwt.Validate, jwt.parseNumericDate, refreshClaims, MapClaims.decoded, MapClaims.get,
      jsonRoundTrip, h0]
  · by_cases h1 : nowV < timeUnix (unixSeconds (now + t.refreshTTL)) + leeway
    · simp [jwt.Validate, jwt.parseNumericDate, refreshClaims, MapClaims.decoded, MapClaims.get,
        jsonRoundTrip, h0, h1]
    · simp [jwt.Validate, jwt.parseNumericDate, refreshClaims, MapClaims.decoded, MapClaims.get,
        jsonRoundTrip, h0, h1]

/-- What the validator makes of the decoded access claims; an `exp` or `nbf` of
zero is read as absent. -/
theorem validate_accessClaims (t : TokenManager) (now nowV : Time) (ids : UUIDs)
    (userID email username : String) (roles : List String) :
    jwt.Validate leeway nowV (accessClaims t now ids userID email username roles).decoded =
        Except.ok () ↔
      ((unixSeconds (now + t.accessTTL) = 0 ∨
          nowV < timeUnix (unixSeconds (now + t.accessTTL)) + leeway) ∧
        (unixSeconds now = 0 ∨ timeUnix (unixSeconds now) - leeway ≤ nowV)) := by
  by_cases h0 : unixSeconds (now + t.accessTTL) = 0 <;>
    by_cases h1 : nowV < timeUnix (unixSeconds (now + t.accessTTL)) + leeway <;>
    by_cases h2 : unixSeconds now = 0 <;>
    by_cases h3 : timeUnix (unixSeconds now) - leeway ≤ nowV <;>
    simp [jwt.Validate, jwt.parseNumericDate, accessClaims, MapClaims.decoded, MapClaims.get,
      jsonRoundTrip, h0, h1, h2, h3]

/-- A token that decodes, names HS256 and was signed with `key` is refused by the
parser that holds `secret` exactly when the HMAC under `secret` is not the
signature or the validator refuses the claims. -/
theorem parse_fails_iff {P : Primitives} (secret : String) {key tok text sig : String}
    {claims : MapClaims} (nowV : Time)
    (hu : P.parseUnverified tok =
      some { method := SigningMethod.HS256, claims := claims, text := text, signature := sig })
    (hsig : P.hmacSign SigningMethod.HS256 key text = Except.ok sig) :
    ((∃ e, jwt.Parse P (keyFunc secret) leeway nowV tok = Except.error e) ↔
        (P.hmacSign SigningMethod.HS256 secret text ≠ P.hmacSign SigningMethod.HS256 key text ∨
          jwt.Validate leeway nowV claims ≠ Except.ok ())) ∧
      (P.hmacSign SigningMethod.HS256 secret text = P.hmacSign SigningMethod.HS256 key text →
        jwt.Validate leeway nowV claims = Except.ok () →
        jwt.Parse P (keyFunc secret) leeway nowV tok = Except.ok claims) := by
  have hgood : P.hmacSign SigningMethod.HS256 secret text =
      P.hmacSign SigningMethod.HS256 key text →
      jwt.Validate leeway nowV claims = Except.ok () →
      jwt.Parse P (keyFunc secret) leeway nowV tok = Except.ok claims := by
    intro hm hv
    rw [hsig] at hm
    simp [jwt.Parse, hu, keyFunc, SigningMethod.isHMAC, jwt.Verify, hm, hv]
  refine ⟨⟨?_, ?_⟩, hgood⟩
  · rintro ⟨e, he⟩
    by_contra hcon
    rw [not_or, not_not, not_not] at hcon
    rw [hgood hcon.1 hcon.2] at he
    exact Except.noConfusion he
  · rintro (hm | hv)
    · rw [hsig] at hm
      have hver : jwt.Verify P SigningMethod.HS256 text sig secret = false := by
        unfold jwt.Verify
        cases hx : P.hmacSign SigningMethod.HS256 secret text with
        | error e => simp
        | ok s =>
          have hne : s ≠ sig := fun hs => hm (by rw [hx, hs])
          simp [hne]
      exact parse_of_bad_signature nowV hu hver
    · cases hval : jwt.Validate leeway nowV claims with
      | ok u => exact absurd hval hv
      | error e =>
        by_cases hver : jwt.Verify P SigningMethod.HS256 text sig secret = false
        · exact parse_of_bad_signature nowV hu hver
        · exact ⟨e, by simp [jwt.Parse, hu, keyFunc, SigningMethod.isHMAC, hver, hval]⟩

/-- C11, amended: nothing but the secret tells the two classes of token apart.
For every manager and every pair it issues (the two tokens decoding to what was
encoded), `ParseAccessToken` fails on the refresh token exactly when the HMAC of
that token's signing text under the access secret is not its signature, the HMAC
under the refresh secret, or the validator refuses its claims, which it does
from `exp` plus the leeway on; and `ParseRefreshToken` fails on the access token
exactly when the HMAC of that token's signing text under the refresh secret is
not its signature or the validator refuses its claims, which it does from `exp`
plus the leeway on and before `nbf` minus the leeway. With equal secrets each
token is accepted as one of the other class whenever the validator accepts its
claims. -/
theorem token_classes_cross_iff (P : Primitives) (t : TokenManager) (now nowV : Time)
    (ids : UUIDs) (userID email username : String) (roles : List String) (pair : TokenPair)
    (hgen : GenerateTokenPair P t now ids userID email username roles = Except.ok pair)
    (hdecA : P.Decodes SigningMethod.HS256
      (accessClaims t now ids userID email username roles) t.accessSecret)
    (hdecR : P.Decodes SigningMethod.HS256 (refreshClaims t now ids userID) t.refreshSecret) :
    ((∃ e, ParseAccessToken P t nowV pair.RefreshToken = Except.error e) ↔
        (P.hmacSign SigningMethod.HS256 t.accessSecret
            (P.signingString SigningMethod.HS256 (refreshClaims t now ids userID)) ≠
          P.hmacSign SigningMethod.HS256 t.refreshSecret
            (P.signingString SigningMethod.HS256 (refreshClaims t now ids userID)) ∨
          ¬ (unixSeconds (now + t.refreshTTL) = 0 ∨
            nowV < timeUnix (unixSeconds (now + t.refreshTTL)) + leeway))) ∧
      ((∃ e, ParseRefreshToken P t nowV pair.AccessToken = Except.error e) ↔
        (P.hmacSign SigningMethod.HS256 t.refreshSecret
            (P.signingString SigningMethod.HS256
              (accessClaims t now ids userID email username roles)) ≠
          P.hmacSign SigningMethod.HS256 t.accessSecret
            (P.signingString SigningMethod.HS256
              (accessClaims t now ids userID email username roles)) ∨
          ¬ ((unixSeconds (now + t.accessTTL) = 0 ∨
              nowV < timeUnix (unixSeconds (now + t.accessTTL)) + leeway) ∧
            (unixSeconds now = 0 ∨ timeUnix (unixSeconds now) - leeway ≤ nowV)))) ∧
      (t.accessSecret = t.refreshSecret →
        ((unixSeconds (now + t.refreshTTL) = 0 ∨
            nowV < timeUnix (unixSeconds (now + t.refreshTTL)) + leeway) →
          ParseAccessToken P t nowV pair.RefreshToken =
            Except.ok (claimsToPayload (refreshClaims t now ids userID).decoded)) ∧
        (((unixSeconds (now + t.accessTTL) = 0 ∨
              nowV < timeUnix (unixSeconds (now + t.accessTTL)) + leeway) ∧
            (unixSeconds now = 0 ∨ timeUnix (unixSeconds now) - leeway ≤ nowV)) →
          ParseRefreshToken P t nowV pair.AccessToken =
            Except.ok (claimsToPayload
              (accessClaims t now ids userID email username roles).decoded))) := by
  obtain ⟨sa, sr, hsa, hsr, hpair⟩ := generateTokenPair_ok hgen
  subst hpair
  have hpA := hdecA sa hsa
  have hpR := hdecR sr hsr
  have hR := parse_fails_iff t.accessSecret nowV hpR hsr
  have hA := parse_fails_iff t.refreshSecret nowV hpA hsa
  have hpaR : ∀ r, ParseAccessToken P t nowV
      (P.signingString SigningMethod.HS256 (refreshClaims t now ids userID) ++ "." ++ sr) = r ↔
      (match jwt.Parse P (keyFunc t.accessSecret) leeway nowV
          (P.signingString SigningMethod.HS256 (refreshClaims t now ids userID) ++ "." ++ sr) with
        | Except.error e => Except.error e
        | Except.ok claims => Except.ok (claimsToPayload claims)) = r := by
    intro r
    simp [ParseAccessToken, append_dot_ne_empty]
  have hprA : ∀ r, ParseRefreshToken P t nowV
      (P.signingString SigningMethod.HS256
        (accessClaims t now ids userID email username roles) ++ "." ++ sa) = r ↔
      (match jwt.Parse P (keyFunc t.refreshSecret) leeway nowV
          (P.signingString SigningMethod.HS256
            (accessClaims t now ids userID email username roles) ++ "." ++ sa) with
        | Except.error e => Except.error e
        | Except.ok claims => Except.ok (claimsToPayload claims)) = r := by
    intro r
    simp [ParseRefreshToken, append_dot_ne_empty]
  refine ⟨?_, ?_, ?_⟩
  · rw [← validate_refreshClaims t now nowV ids userID, ← hR.1]
    constructor
    · rintro ⟨e, he⟩
      rw [hpaR] at he
      cases hp : jwt.Parse P (keyFunc t.accessSecret) leeway nowV
          (P.signingString SigningMethod.HS256 (refreshClaims t now ids userID) ++ "." ++ sr) with
      | error e2 => exact ⟨e2, rfl⟩
      | ok c => rw [hp] at he; exact Except.noConfusion he
    · rintro ⟨e, he⟩
      exact ⟨e, (hpaR _).mpr (by rw [he])⟩
  · rw [← validate_accessClaims t now nowV ids userID email username roles, ← hA.1]
    constructor
    · rintro ⟨e, he⟩
      rw [hprA] at he
      cases hp : jwt.Parse P (keyFunc t.refreshSecret) leeway nowV
          (P.signingString SigningMethod.HS256
            (accessClaims t now ids userID email username roles) ++ "." ++ sa) with
      | error e2 => exact ⟨e2, rfl⟩
      | ok c => rw [hp] at he; exact Except.noConfusion he
    · rintro ⟨e, he⟩
      exact ⟨e, (hprA _).mpr (by rw [he])⟩
  · intro heq
    constructor
    · intro hv
      rw [hpaR, hR.2 (by rw [heq]) ((validate_refreshClaims t now nowV ids userID).mpr hv)]
    · intro hv
      rw [hprA, hA.2 (by rw [heq])
        ((validate_accessClaims t now nowV ids userID email username roles).mpr hv)]

/-- C11 amended, at a concrete input: the pair issued to alice at second 1000 by
the manager with secrets `ak` and `rk`, whose signatures differ, is refused
crosswise one second later. -/
theorem token_classes_cross_iff_witness :
    (∃ e, ParseAccessToken sample.primitives sample.manager (1001 * second) "r1.rk"
        = Except.error e) ∧
      (∃ e, ParseRefreshToken sample.primitives sample.manager (1001 * second) "a1.ak"
        = Except.error e) :=
  have w := token_classes_cross_iff sample.primitives sample.manager (1000 * second)
    (1001 * second) sample.ids0 "u1" "alice@example.com" "alice" ["user"]
    { AccessToken := "a1.ak", RefreshToken := "r1.rk", AccessExp := 1900 * second,
      RefreshExp := 4600 * second, JTI := "a1", SID := "s1" }
    (by decide)
    (by
      intro sig hsig
      cases hsig
      decide)
    (by
      intro sig hsig
      cases hsig
      decide)
  ⟨w.1.mpr (Or.inl (by decide)), w.2.1.mpr (Or.inl (by decide))⟩

/-! ## C12 -/

/-- C12 as stated fails at the edge of the leeway: the refresh token `r1.rk` is
correctly signed and expires at second 4600; verified at second 4605, when its
expiry is exactly five seconds in the past, it is refused. -/
theorem token_five_seconds_past_exp_rejected :
    ¬ ∀ (P : Primitives) (t : TokenManager) (now : Time) (tok : String) (u : Unverified)
        (e : Int),
        P.parseUnverified tok = some u → u.method.isHMAC = true →
        jwt.Verify P u.method u.text u.signature t.refreshSecret = true →
        u.claims.get "exp" = some (Val.float64 e) →
        now ≤ timeUnix e + 5 * second →
        ∃ p, ParseRefreshToken P t now tok = Except.ok p := by
  intro hall
  obtain ⟨p, hp⟩ := hall sample.primitives sample.manager (4605 * second) "r1.rk"
    { method := SigningMethod.HS256,
      claims := (refreshClaims sample.manager (1000 * second) sample.ids0 "u1").decoded,
      text := "r1", signature := "rk" }
    4600 (by decide) (by decide) (by decide) (by decide) (by decide)
  have herr : ParseRefreshToken sample.primitives sample.manager (4605 * second) "r1.rk"
      = Except.error "token is expired" := by decide
  rw [herr] at hp
  exact Except.noConfusion hp

/-- C12, amended: take a non-empty token that decodes, names an HMAC method and
carries a numeric `exp` other than 0 (which the parser reads as no expiry) and a
`nbf` that is absent or numeric. If it is signed with the access secret,
`ParseAccessToken` fails with "token is expired" from the instant `exp + 5 s` on,
and before that instant (the not-before time minus 5 s having come) it returns
the payload of the claims; likewise `ParseRefreshToken` for a token signed with
the refresh secret. -/
theorem expiry_with_leeway (P : Primitives) (t : TokenManager) (now : Time) (tok : String)
    (u : Unverified) (e : Int) (n : Option Time)
    (hne : tok ≠ "")
    (hu : P.parseUnverified tok = some u) (hm : u.method.isHMAC = true)
    (hexp : u.claims.get "exp" = some (Val.float64 e)) (he0 : e ≠ 0)
    (hnbf : jwt.parseNumericDate u.claims "nbf" = Except.ok n) :
    (jwt.Verify P u.method u.text u.signature t.accessSecret = true →
        timeUnix e + 5 * second ≤ now →
        ParseAccessToken P t now tok = Except.error "token is expired") ∧
      (jwt.Verify P u.method u.text u.signature t.refreshSecret = true →
        timeUnix e + 5 * second ≤ now →
        ParseRefreshToken P t now tok = Except.error "token is expired") ∧
      (jwt.Verify P u.method u.text u.signature t.accessSecret = true →
        now < timeUnix e + 5 * second → (∀ x, n = some x → x - 5 * second ≤ now) →
        ParseAccessToken P t now tok = Except.ok (claimsToPayload u.claims)) ∧
      (jwt.Verify P u.method u.text u.signature t.refreshSecret = true →
        now < timeUnix e + 5 * second → (∀ x, n = some x → x - 5 * second ≤ now) →
        ParseRefreshToken P t now tok = Except.ok (claimsToPayload u.claims)) := by
  refine ⟨?_, ?_, ?_, ?_⟩
  · intro hsig hlate
    have hv := validate_expired hexp he0 ⟨n, hnbf⟩ hlate
    simp [ParseAccessToken, hne, parse_of_signed now hu hm hsig, hv]
  · intro hsig hlate
    have hv := validate_expired hexp he0 ⟨n, hnbf⟩ hlate
    simp [ParseRefreshToken, hne, parse_of_signed now hu hm hsig, hv]
  · intro hsig hearly hn
    have hv := validate_live hexp hnbf hn hearly
    simp [ParseAccessToken, hne, parse_of_signed now hu hm hsig, hv]
  · intro hsig hearly hn
    have hv := validate_live hexp hnbf hn hearly
    simp [ParseRefreshToken, hne, parse_of_signed now hu hm hsig, hv]

/-- C12 amended, at a concrete input: the refresh token `r1.rk`, expiring at
second 4600, is refused at second 4605 and accepted one nanosecond earlier. -/
theorem expiry_with_leeway_witness :
    ParseRefreshToken sample.primitives sample.manager (4605 * second) "r1.rk"
        = Except.error "token is expired" ∧
      ParseRefreshToken sample.primitives sample.manager (4605 * second - 1) "r1.rk"
        = Except.ok (claimsToPayload
            (refreshClaims sample.manager (1000 * second) sample.ids0 "u1").decoded) :=
  have w := fun now => expiry_with_leeway sample.primitives sample.manager now "r1.rk"
    { method := SigningMethod.HS256,
      claims := (refreshClaims sample.manager (1000 * second) sample.ids0 "u1").decoded,
      text := "r1", signature := "rk" }
    4600 none (by decide) (by decide) (by decide) (by decide) (by decide) (by decide)
  ⟨(w (4605 * second)).2.1 (by decide) (by decide),
    (w (4605 * second - 1)).2.2.2 (by decide) (by decide) (fun _ hx => Option.noConfusion hx)⟩

/-! ## C13 -/

/-- C13: a token string that does not decode to a token naming an HMAC method
(its header names `none`, `RS256`, `ES256`, or any other method outside the HMAC
family) is refused by `ParseAccessToken` and by `ParseRefreshToken` alike, at any
time and whatever its signature and claims; and the key function of both parsers
returns a key only for an HMAC method, the key then being the secret. -/
theorem non_hmac_token_rejected (P : Primitives) (t : TokenManager) (now : Time) (tok : String)
    (hm : ∀ u, P.parseUnverified tok = some u → u.method.isHMAC = false) :
    (∃ e, ParseAccessToken P t now tok = Except.error e) ∧
      (∃ e, ParseRefreshToken P t now tok = Except.error e) ∧
      (∀ secret m key, keyFunc secret m = Except.ok key → m.isHMAC = true ∧ key = secret) := by
  have hparse : ∀ secret, ∃ e, jwt.Parse P (keyFunc secret) leeway now tok = Except.error e := by
    intro secret
    cases hu : P.parseUnverified tok with
    | none => exact ⟨"token is malformed", by simp [jwt.Parse, hu]⟩
    | some u =>
      have := hm u hu
      exact ⟨"token is unverifiable: unexpected signing method",
        by simp [jwt.Parse, hu, keyFunc, this]⟩
  refine ⟨?_, ?_, ?_⟩
  · by_cases h0 : tok = ""
    · exact ⟨"token empty", by simp [ParseAccessToken, h0]⟩
    · obtain ⟨e, he⟩ := hparse t.accessSecret
      exact ⟨e, by simp [ParseAccessToken, h0, he]⟩
  · by_cases h0 : tok = ""
    · exact ⟨"token empty", by simp [ParseRefreshToken, h0]⟩
    · obtain ⟨e, he⟩ := hparse t.refreshSecret
      exact ⟨e, by simp [ParseRefreshToken, h0, he]⟩
  · intro secret m key hk
    unfold keyFunc at hk
    by_cases hh : m.isHMAC = true
    · simp [hh] at hk
      exact ⟨hh, hk.symm⟩
    · simp [hh] at hk

/-- C13 at a concrete input: the unsigned token `n1.`, whose header names the
method `none` and whose claims ask for the role `admin`. -/
theorem non_hmac_token_rejected_witness :
    (∃ e, ParseAccessToken sample.primitives sample.manager (1000 * second) "n1."
        = Except.error e) ∧
      (∃ e, ParseRefreshToken sample.primitives sample.manager (1000 * second) "n1."
        = Except.error e) :=
  have w := non_hmac_token_rejected sample.primitives sample.manager (1000 * second) "n1."
    (by
      intro u hu
      have hdec : sample.primitives.parseUnverified "n1." =
          some { method := SigningMethod.none,
                 claims := (accessClaims sample.manager (1000 * second) sample.ids0 "u1"
                   "alice@example.com" "alice" ["admin"]).decoded,
                 text := "n1", signature := "" } := by decide
      rw [hdec] at hu
      cases hu
      rfl)
  ⟨w.1, w.2.1⟩

/-! ## C14 -/

/-- C14: `NewTokenManager` returns an error exactly when the access secret or the
refresh secret is the empty string; otherwise it returns a manager, and a manager
it returns holds the two secrets given, and its `AccessTTL()` and `RefreshTTL()`
are the two durations given. -/
theorem newTokenManager_fails_iff_secret_empty (accessSecret refreshSecret : String)
    (accessTTL refreshTTL : Duration) :
    ((∃ e, NewTokenManager accessSecret refreshSecret accessTTL refreshTTL = Except.error e) ↔
        (accessSecret = "" ∨ refreshSecret = "")) ∧
      ((∃ t, NewTokenManager accessSecret refreshSecret accessTTL refreshTTL = Except.ok t) ↔
        ¬ (accessSecret = "" ∨ refreshSecret = "")) ∧
      (∀ t, NewTokenManager accessSecret refreshSecret accessTTL refreshTTL = Except.ok t →
        t.accessSecret = accessSecret ∧ t.refreshSecret = refreshSecret ∧
          t.AccessTTL = accessTTL ∧ t.RefreshTTL = refreshTTL) := by
  unfold NewTokenManager
  by_cases h : accessSecret = "" ∨ refreshSecret = ""
  · simp [h]
  · simp only [h, if_false]
    refine ⟨by simp, by simp, ?_⟩
    intro t ht
    simp at ht
    rw [← ht]
    exact ⟨rfl, rfl, rfl, rfl⟩

/-- C14 at a concrete input: the secrets `ak` and `rk`, fifteen minutes and one
hour; and an empty access secret. -/
theorem newTokenManager_fails_iff_secret_empty_witness :
    (sample.manager.accessSecret = "ak" ∧ sample.manager.refreshSecret = "rk" ∧
        sample.manager.AccessTTL = 900 * second ∧ sample.manager.RefreshTTL = 3600 * second) ∧
      ∃ e, NewTokenManager "" "rk" (900 * second) (3600 * second) = Except.error e :=
  ⟨(newTokenManager_fails_iff_secret_empty "ak" "rk" (900 * second) (3600 * second)).2.2
      sample.manager (by decide),
    (newTokenManager_fails_iff_secret_empty "" "rk" (900 * second) (3600 * second)).1.mpr
      (Or.inl rfl)⟩

/-! ## C15 -/

/-- C15 as stated fails: the refresh token of an issued pair carries no `nbf`
claim. The token `r1.rk` issued to alice decodes to claims without it. -/
theorem refresh_token_has_no_nbf :
    ¬ ∀ (P : Primitives) (t : TokenManager) (now : Time) (ids : UUIDs)
        (userID email username : String) (roles : List String) (pair : TokenPair)
        (u : Unverified),
        GenerateTokenPair P t now ids userID email username roles = Except.ok pair →
        P.parseUnverified pair.RefreshToken = some u →
        (u.claims.get "nbf").isSome = true := by
  intro hall
  have h := hall sample.primitives sample.manager (1000 * second) sample.ids0 "u1"
    "alice@example.com" "alice" ["user"]
    { AccessToken := "a1.ak", RefreshToken := "r1.rk", AccessExp := 1900 * second,
      RefreshExp := 4600 * second, JTI := "a1", SID := "s1" }
    { method := SigningMethod.HS256,
      claims := (refreshClaims sample.manager (1000 * second) sample.ids0 "u1").decoded,
      text := "r1", signature := "rk" }
    (by decide) (by decide)
  exact absurd h (by decide)

/-- C15, amended: for every pair issued by `GenerateTokenPair`, the claims signed
into the access token are exactly `sub` (the user id), `email`, `username`,
`roles`, `jti` (the JTI of the pair), `session_id` (the SID of the pair), `iat`,
`exp` and `nbf`, and the claims signed into the refresh token are exactly `sub`
(the user id), `session_id` (the SID of the pair), a `jti`, `iat` and `exp`: both
contain sub, exp, iat and session_id, and the refresh token contains no `nbf`. -/
theorem issued_claims (P : Primitives) (t : TokenManager) (now : Time) (ids : UUIDs)
    (userID email username : String) (roles : List String) (pair : TokenPair)
    (hgen : GenerateTokenPair P t now ids userID email username roles = Except.ok pair) :
    ∃ (ac rc : MapClaims) (sa sr : String),
      pair.AccessToken = P.signingString SigningMethod.HS256 ac ++ "." ++ sa ∧
      pair.RefreshToken = P.signingString SigningMethod.HS256 rc ++ "." ++ sr ∧
      ac.map (fun kv => kv.1) =
        ["sub", "email", "username", "roles", "jti", "session_id", "iat", "exp", "nbf"] ∧
      ac.get "sub" = some (Val.str userID) ∧
      ac.get "email" = some (Val.str email) ∧
      ac.get "username" = some (Val.str username) ∧
      ac.get "roles" = some (Val.strs roles) ∧
      ac.get "jti" = some (Val.str pair.JTI) ∧
      ac.get "session_id" = some (Val.str pair.SID) ∧
      ac.get "iat" = some (Val.int64 (unixSeconds now)) ∧
      ac.get "exp" = some (Val.int64 (unixSeconds pair.AccessExp)) ∧
      ac.get "nbf" = some (Val.int64 (unixSeconds now)) ∧
      rc.map (fun kv => kv.1) = ["sub", "session_id", "jti", "iat", "exp"] ∧
      rc.get "sub" = some (Val.str userID) ∧
      rc.get "session_id" = some (Val.str pair.SID) ∧
      rc.get "iat" = some (Val.int64 (unixSeconds now)) ∧
      rc.get "exp" = some (Val.int64 (unixSeconds pair.RefreshExp)) ∧
      rc.get "nbf" = none := by
  obtain ⟨sa, sr, -, -, hpair⟩ := generateTokenPair_ok hgen
  subst hpair
  exact ⟨accessClaims t now ids userID email username roles, refreshClaims t now ids userID,
    sa, sr, rfl, rfl, rfl, rfl, rfl, rfl, rfl, rfl, rfl, rfl, rfl, rfl, rfl, rfl, rfl, rfl, rfl,
    rfl⟩

/-- C15 amended, at a concrete input: the pair issued to alice at second 1000. -/
theorem issued_claims_witness :
    ∃ (ac rc : MapClaims) (sa sr : String),
      "a1.ak" = sample.primitives.signingString SigningMethod.HS256 ac ++ "." ++ sa ∧
      "r1.rk" = sample.primitives.signingString SigningMethod.HS256 rc ++ "." ++ sr ∧
      ac.map (fun kv => kv.1) =
        ["sub", "email", "username", "roles", "jti", "session_id", "iat", "exp", "nbf"] ∧
      ac.get "sub" = some (Val.str "u1") ∧
      ac.get "email" = some (Val.str "alice@example.com") ∧
      ac.get "username" = some (Val.str "alice") ∧
      ac.get "roles" = some (Val.strs ["user"]) ∧
      ac.get "jti" = some (Val.str "a1") ∧
      ac.get "session_id" = some (Val.str "s1") ∧
      ac.get "iat" = some (Val.int64 (unixSeconds (1000 * second))) ∧
      ac.get "exp" = some (Val.int64 (unixSeconds (1900 * second))) ∧
      ac.get "nbf" = some (Val.int64 (unixSeconds (1000 * second))) ∧
      rc.map (fun kv => kv.1) = ["sub", "session_id", "jti", "iat", "exp"] ∧
      rc.get "sub" = some (Val.str "u1") ∧
      rc.get "session_id" = some (Val.str "s1") ∧
      rc.get "iat" = some (Val.int64 (unixSeconds (1000 * second))) ∧
      rc.get "exp" = some (Val.int64 (unixSeconds (4600 * second))) ∧
      rc.get "nbf" = none :=
  issued_claims sample.primitives sample.manager (1000 * second) sample.ids0 "u1"
    "alice@example.com" "alice" ["user"]
    { AccessToken := "a1.ak", RefreshToken := "r1.rk", AccessExp := 1900 * second,
      RefreshExp := 4600 * second, JTI := "a1", SID := "s1" }
    (by decide)

/-! ## C16 -/

/-- The login handler answers 401 "invalid credentials" whenever `LoginUser`, fed
the email and password of the body, finds no user or a password that does not
match. -/
theorem login_invalid_credentials {P : Primitives} {h : authHandler} {env : Env} {db : Store}
    {c : Request} {req : auth.LoginRequest} (hb : c.loginBody = some req)
    (hf : env.faults.userByEmail = false)
    (hbad : db.users.find? (fun x => x.Email == req.Email) = none ∨
      ∃ u, db.users.find? (fun x => x.Email == req.Email) = some u ∧
        ComparePassword P u.PasswordHash req.Password = false) :
    Login P h env db c =
      (SendError [] 401 "invalid credentials",
        db.record (StoreCall.userGetByEmail req.Email)) := by
  unfold Login
  simp only [hb]
  rcases hbad with hn | ⟨u, hu, hpw⟩
  · by_cases h1 : req.IPAddress = "" <;> by_cases h2 : req.UserAgent = "" <;>
      simp [h1, h2, hn, hf, auth.LoginUser, repository.userRepository.GetByEmail,
        StatusUnauthorized, Error.text]
  · by_cases h1 : req.IPAddress = "" <;> by_cases h2 : req.UserAgent = "" <;>
      simp [h1, h2, hu, hpw, hf, auth.LoginUser, repository.userRepository.GetByEmail,
        StatusUnauthorized, Error.text]

/-- C16: take one login request whose email no user has and another whose email
a user has but whose password fails the check (the lookups reaching the
database). `LoginUser` fails with the same `ErrInvalidCredentials` in both, and
the `Login` handler gives both the same response, 401 with the error message
"invalid credentials" and no cookie; neither run touches a session. -/
theorem login_failures_indistinguishable (P : Primitives) (h : authHandler) (envA envB : Env)
    (dbA dbB : Store) (cA cB : Request) (reqA reqB : auth.LoginRequest) (u : user.User)
    (hbA : cA.loginBody = some reqA) (hbB : cB.loginBody = some reqB)
    (hfA : envA.faults.userByEmail = false) (hfB : envB.faults.userByEmail = false)
    (hA : dbA.users.find? (fun x => x.Email == reqA.Email) = none)
    (hB : dbB.users.find? (fun x => x.Email == reqB.Email) = some u)
    (hpw : ComparePassword P u.PasswordHash reqB.Password = false) :
    (auth.LoginUser P false dbA reqA).1 = Except.error Error.ErrInvalidCredentials ∧
      (auth.LoginUser P false dbB reqB).1 = Except.error Error.ErrInvalidCredentials ∧
      (Login P h envA dbA cA).1 = (Login P h envB dbB cB).1 ∧
      (Login P h envA dbA cA).1 =
        { status := 401, body := Body.error 401 "invalid credentials", cookies := [] } ∧
      (Login P h envA dbA cA).2.sessions = dbA.sessions ∧
      (Login P h envB dbB cB).2.sessions = dbB.sessions := by
  have hrunA := login_invalid_credentials (P := P) (h := h) hbA hfA (Or.inl hA)
  have hrunB := login_invalid_credentials (P := P) (h := h) hbB hfB (Or.inr ⟨u, hB, hpw⟩)
  rw [hrunA, hrunB]
  refine ⟨?_, ?_, rfl, rfl, rfl, rfl⟩
  · simp [auth.LoginUser, repository.userRepository.GetByEmail, hA]
  · simp [auth.LoginUser, repository.userRepository.GetByEmail, hB, hpw]

/-- C16 at a concrete input: a login for an email nobody has, and a login for
alice with a wrong password. -/
theorem login_failures_indistinguishable_witness :
    (Login sample.primitives sample.handler (sample.envAt (1000 * second) sample.ids0)
        sample.db0 (sample.loginAs "bob@example.com" "pw")).1 =
      (Login sample.primitives sample.handler (sample.envAt (1000 * second) sample.ids0)
        sample.db0 (sample.loginAs "alice@example.com" "wrong")).1 :=
  (login_failures_indistinguishable sample.primitives sample.handler
    (sample.envAt (1000 * second) sample.ids0) (sample.envAt (1000 * second) sample.ids0)
    sample.db0 sample.db0 (sample.loginAs "bob@example.com" "pw")
    (sample.loginAs "alice@example.com" "wrong")
    { Email := "bob@example.com", Password := "pw", IPAddress := "", UserAgent := "" }
    { Email := "alice@example.com", Password := "wrong", IPAddress := "", UserAgent := "" }
    sample.alice rfl rfl rfl rfl (by decide) (by decide) (by decide)).2.2.1

/-! ## C17 -/

/-- C17 as stated fails for `updatedAt`: session `s1` was last written at second
1000; an update at second 1500 with a patch that names only an IP address, and so
leaves `updatedAt` unset, stores the time of the update in `updatedAt`. -/
theorem update_always_stamps_updatedAt :
    ¬ ∀ (now : Time) (db : Store) (id : String) (p row row' : session.Session),
        db.session? id = some row →
        (session.UpdateSession false now db id p).2.session? id = some row' →
        p.UpdatedAt = zeroTime → row'.UpdatedAt = row.UpdatedAt := by
  intro hall
  have h := hall (1500 * second) sample.db1 "s1"
    { ID := "", UserID := "", IPAddress := "10.9.9.9", UserAgent := "", Valid := false,
      ExpiresAt := zeroTime, RefreshTokenHash := "", CreatedAt := zeroTime,
      UpdatedAt := zeroTime }
    { ID := "s1", UserID := "u1", IPAddress := "10.0.0.1", UserAgent := "ua0", Valid := true,
      ExpiresAt := 4600 * second, RefreshTokenHash := HashToken sample.primitives "r1.rk",
      CreatedAt := 1000 * second, UpdatedAt := 1000 * second }
    { ID := "s1", UserID := "u1", IPAddress := "10.9.9.9", UserAgent := "ua0", Valid := true,
      ExpiresAt := 4600 * second, RefreshTokenHash := HashToken sample.primitives "r1.rk",
      CreatedAt := 1000 * second, UpdatedAt := 1500 * second }
    (by decide) (by decide) rfl
  exact absurd h (by decide)

/-- C17, amended: an `UpdateSession(i, p)` that the database carries out replaces
every stored record with id `i` by its merge with `p` and leaves every record
with another id, and every user, as it was. In the merged record each of id,
userId, ipAddress, userAgent, expiresAt, refreshTokenHash and createdAt equals
the value of `p` where `p` supplies a non-zero one and the previous value where
it does not; `valid` becomes true where `p` says true and is kept otherwise;
`updatedAt` is the time of the update whatever `p` holds. A rotation patch leaves
id, userId, valid flag and createdAt of the record untouched. -/
theorem update_is_merge (now : Time) (db : Store) (id : String) (p : session.Session)
    (hdone : (session.UpdateSession false now db id p).1 = Except.ok p) :
    (session.UpdateSession false now db id p).2.sessions =
        db.sessions.map (fun r => if r.ID = id then repository.merge now r p else r) ∧
      (session.UpdateSession false now db id p).2.users = db.users ∧
      (∀ r ∈ db.sessions, r.ID ≠ id →
        r ∈ (session.UpdateSession false now db id p).2.sessions) ∧
      (∀ row : session.Session,
        ((repository.merge now row p).ID = if p.ID = "" then row.ID else p.ID) ∧
        ((repository.merge now row p).UserID = if p.UserID = "" then row.UserID else p.UserID) ∧
        ((repository.merge now row p).IPAddress =
          if p.IPAddress = "" then row.IPAddress else p.IPAddress) ∧
        ((repository.merge now row p).UserAgent =
          if p.UserAgent = "" then row.UserAgent else p.UserAgent) ∧
        ((repository.merge now row p).ExpiresAt =
          if p.ExpiresAt = zeroTime then row.ExpiresAt else p.ExpiresAt) ∧
        ((repository.merge now row p).RefreshTokenHash =
          if p.RefreshTokenHash = "" then row.RefreshTokenHash else p.RefreshTokenHash) ∧
        ((repository.merge now row p).CreatedAt =
          if p.CreatedAt = zeroTime then row.CreatedAt else p.CreatedAt) ∧
        ((repository.merge now row p).Valid = (row.Valid || p.Valid)) ∧
        (repository.merge now row p).UpdatedAt = now) ∧
      (∀ (P : Primitives) (env : Env) (tok : String) (exp : Time) (ip ua : String)
          (row : session.Session),
        (repository.merge now row (rotationPatch P env tok exp ip ua)).ID = row.ID ∧
        (repository.merge now row (rotationPatch P env tok exp ip ua)).UserID = row.UserID ∧
        (repository.merge now row (rotationPatch P env tok exp ip ua)).Valid = row.Valid ∧
        (repository.merge now row (rotationPatch P env tok exp ip ua)).CreatedAt
          = row.CreatedAt) := by
  have hnoclash : ¬ (p.ID ≠ "" ∧ p.ID ≠ id ∧ (db.session? id).isSome = true ∧
      (db.session? p.ID).isSome = true) := by
    intro hc
    simp [session.UpdateSession, repository.sessionRepository.Update, hc] at hdone
  have hrun : (session.UpdateSession false now db id p).2 =
      { sessions := db.sessions.map (fun r => if r.ID = id then repository.merge now r p else r),
        users := db.users, calls := db.calls ++ [StoreCall.sessionUpdate id] } := by
    simp only [session.UpdateSession, repository.sessionRepository.Update, Store.record]
    rw [if_neg]
    simpa using hnoclash
  rw [hrun]
  refine ⟨rfl, rfl, ?_, ?_, ?_⟩
  · intro r hr hne
    simp only [List.mem_map]
    exact ⟨r, hr, by simp [hne]⟩
  · intro row
    refine ⟨rfl, rfl, rfl, rfl, rfl, rfl, rfl, ?_, rfl⟩
    cases hv : p.Valid <;> simp [repository.merge, hv]
  · intro P env tok exp ip ua row
    simp [repository.merge, rotationPatch]

/-- C17 amended, at a concrete input: session `s1` is given a new IP address at
second 1500. -/
theorem update_is_merge_witness :
    (session.UpdateSession false (1500 * second) sample.db1 "s1"
        { ID := "", UserID := "", IPAddress := "10.9.9.9", UserAgent := "", Valid := false,
          ExpiresAt := zeroTime, RefreshTokenHash := "", CreatedAt := zeroTime,
          UpdatedAt := zeroTime }).2.sessions =
      sample.db1.sessions.map (fun r =>
        if r.ID = "s1" then
          repository.merge (1500 * second) r
            { ID := "", UserID := "", IPAddress := "10.9.9.9", UserAgent := "", Valid := false,
              ExpiresAt := zeroTime, RefreshTokenHash := "", CreatedAt := zeroTime,
              UpdatedAt := zeroTime }
        else r) :=
  (update_is_merge (1500 * second) sample.db1 "s1"
    { ID := "", UserID := "", IPAddress := "10.9.9.9", UserAgent := "", Valid := false,
      ExpiresAt := zeroTime, RefreshTokenHash := "", CreatedAt := zeroTime,
      UpdatedAt := zeroTime }
    (by decide)).1

/-! ## C18 -/

/-- C18, the code at the failing input: session `s1` has been rotated once, so
that its current access token is `a2.ak`, which carries the session id `s2` drawn
at the rotation. A logout that presents this token, as a bearer token or as the
access cookie, passes the gate, is answered 200 with both cookies cleared, and
asks the store to delete `s2`: session `s1` is still retrievable afterwards.
(A logout with the token `a1.ak` of the unrotated session does remove `s1`.) -/
theorem logout_after_rotation_keeps_session :
    (sample.db2.session? "s1").isSome = true ∧
      (ParseAccessToken sample.primitives sample.manager (2100 * second) "a2.ak").toOption.map
        (fun p => p.SID) = some "s2" ∧
      (routes.logout sample.primitives sample.gate sample.handler (2100 * second)
          (sample.envAt (2100 * second) sample.ids1) sample.db2
          (sample.headerRequest "a2.ak")).1 =
        SendSuccess (clearAuthCookies sample.handler) 200 "logged out successfully" Data.nil ∧
      (routes.logout sample.primitives sample.gate sample.handler (2100 * second)
          (sample.envAt (2100 * second) sample.ids1) sample.db2
          (sample.headerRequest "a2.ak")).2.calls.getLast? =
        some (StoreCall.sessionDelete "s2") ∧
      ((routes.logout sample.primitives sample.gate sample.handler (2100 * second)
          (sample.envAt (2100 * second) sample.ids1) sample.db2
          (sample.headerRequest "a2.ak")).2.session? "s1").isSome = true ∧
      (session.GetSessionByID false
          (routes.logout sample.primitives sample.gate sample.handler (2100 * second)
            (sample.envAt (2100 * second) sample.ids1) sample.db2
            (sample.cookieRequest "a2.ak")).2 "s1").1 =
        Except.ok (sample.db2.session? "s1") ∧
      (routes.logout sample.primitives sample.gate sample.handler (1100 * second)
          (sample.envAt (1100 * second) sample.ids1) sample.db1
          (sample.headerRequest "a1.ak")).2.session? "s1" = none := by
  decide

/-! ## C19 -/

/-- C19, the code at the failing input: session `s1` exists and so does its
owner alice (`GetMe` on the id `s1` returns her). A `me` request that presents
her valid access token `a1.ak` as a bearer token passes the gate and is answered
401 "session not found": the handler hands the token string itself to `GetMe`,
which looks it up as a session id. The same token presented only as the access
cookie passes the gate and is answered 401 "missing authorization token": the
handler reads the header and the query parameter, never the cookie. -/
theorem me_does_not_resolve_access_token :
    (auth.GetMe false false sample.db1 "s1").1 = Except.ok sample.alice ∧
      Require sample.primitives sample.gate { } (1100 * second) (sample.headerRequest "a1.ak") =
        Outcome.next
          [("auth.claims",
            { UserID := "u1", Email := "alice@example.com", Username := "alice",
              Roles := ["user"], JTI := "a1", SID := "s1", Expiry := timeUnix 1900 })] ∧
      (routes.me sample.primitives sample.gate sample.handler (1100 * second)
          (sample.envAt (1100 * second) sample.ids1) sample.db1
          (sample.headerRequest "a1.ak")).1 = SendError [] 401 "session not found" ∧
      (routes.me sample.primitives sample.gate sample.handler (1100 * second)
          (sample.envAt (1100 * second) sample.ids1) sample.db1
          (sample.headerRequest "a1.ak")).2.calls.getLast? =
        some (StoreCall.sessionGet "a1.ak") ∧
      Require sample.primitives sample.gate { } (1100 * second) (sample.cookieRequest "a1.ak") =
        Outcome.next
          [("auth.claims",
            { UserID := "u1", Email := "alice@example.com", Username := "alice",
              Roles := ["user"], JTI := "a1", SID := "s1", Expiry := timeUnix 1900 })] ∧
      (routes.me sample.primitives sample.gate sample.handler (1100 * second)
          (sample.envAt (1100 * second) sample.ids1) sample.db1
          (sample.cookieRequest "a1.ak")).1 =
        SendError [] 401 "missing authorization token" := by
  decide

/-- A login that succeeds when the insert of the session goes through is
answered 500 when the insert fails. -/
theorem login_create_fault {P : Primitives} {h : authHandler} {env : Env} {db : Store}
    {c : Request}
    (hok : (Login P h { env with faults := { env.faults with sessionCreate := false } } db
      c).1.status = 200)
    (hfault : env.faults.sessionCreate = true) :
    (Login P h env db c).1.status = 500 := by
  unfold Login at hok ⊢
  cases hb : c.loginBody with
  | none => simp [hb, SendError, StatusBadRequest] at hok
  | some req0 =>
  simp only [hb] at hok ⊢
  generalize hreq : (if (if req0.IPAddress = "" then { req0 with IPAddress := c.IP } else req0).UserAgent = ""
      then { (if req0.IPAddress = "" then { req0 with IPAddress := c.IP } else req0) with
        UserAgent := c.Get "User-Agent" }
      else (if req0.IPAddress = "" then { req0 with IPAddress := c.IP } else req0)) = req at hok ⊢
  unfold auth.LoginUser repository.userRepository.GetByEmail at hok ⊢
  by_cases hf : env.faults.userByEmail = true
  · simp [hf, SendError, StatusInternalServerError, StatusUnauthorized, StatusNotFound] at hok
  cases hu : db.users.find? (fun u => u.Email == req.Email) with
  | none =>
    simp [hf, hu, SendError, StatusInternalServerError, StatusUnauthorized, StatusNotFound] at hok
  | some u =>
  by_cases hpw : ComparePassword P u.PasswordHash req.Password = false
  · simp [hf, hu, hpw, SendError, StatusInternalServerError, StatusUnauthorized, StatusNotFound]
      at hok
  cases hgen : GenerateTokenPair P h.tokenManager env.tIssue env.ids u.ID u.Email u.Username
      [u.Role] with
  | error e => simp [hf, hu, hpw, hgen, SendError, StatusInternalServerError] at hok
  | ok pair =>
    simp [hf, hu, hpw, hgen, hfault, persistSession, session.CreateSession,
      repository.sessionRepository.Create, SendError, StatusInternalServerError]

/-- The flags a refresh that answers 200 has met. -/
theorem refresh_ok_faults {P : Primitives} {h : authHandler} {env : Env} {db : Store}
    {c : Request} (hok : (Refresh P h env db c).1.status = StatusOK) :
    env.faults.sessionGet = false ∧ env.faults.meSessionGet = false ∧
      env.faults.meUserGet = false ∧ env.faults.sessionUpdate = false := by
  obtain ⟨payload, sess, u, pair, hp, hs, hval, hexp, hc, hu, hgen, -⟩ := refresh_ok_inv hok
  have hT := parse_refresh_ne_empty hp
  have hid := (session?_some hs).2
  have hs1 : List.find? (fun s => s.ID == payload.SID) db.sessions = some sess := hs
  have hs' : List.find? (fun s => s.ID == sess.ID) db.sessions = some sess := by
    rw [hid]; exact hs
  have hv : ¬ (sess.Valid = false ∨ sess.ExpiresAt < env.tCheck) := by
    simp [hval, hexp]
  refine ⟨?_, ?_, ?_, ?_⟩
  · cases hg : env.faults.sessionGet with
    | false => rfl
    | true =>
      simp [Refresh, hT, hp, hg, session.GetSessionByID, repository.sessionRepository.GetByID,
        SendError, StatusOK, StatusInternalServerError] at hok
  · cases hg : env.faults.sessionGet with
    | true =>
      simp [Refresh, hT, hp, hg, session.GetSessionByID, repository.sessionRepository.GetByID,
        SendError, StatusOK, StatusInternalServerError] at hok
    | false =>
    cases hmg : env.faults.meSessionGet with
    | false => rfl
    | true =>
      simp [Refresh, hT, hp, hg, hs, hv, hc, hmg, auth.GetMe, session.GetSessionByID,
        repository.sessionRepository.GetByID, SendError, StatusOK, StatusUnauthorized] at hok
  · cases hg : env.faults.sessionGet with
    | true =>
      simp [Refresh, hT, hp, hg, session.GetSessionByID, repository.sessionRepository.GetByID,
        SendError, StatusOK, StatusInternalServerError] at hok
    | false =>
    cases hmg : env.faults.meSessionGet with
    | true =>
      simp [Refresh, hT, hp, hg, hs, hv, hc, hmg, auth.GetMe, session.GetSessionByID,
        repository.sessionRepository.GetByID, SendError, StatusOK, StatusUnauthorized] at hok
    | false =>
    cases hmu : env.faults.meUserGet with
    | false => rfl
    | true =>
      simp [Refresh, hT, hp, hg, hs, hs', hv, hc, hmg, hmu, auth.GetMe, session.GetSessionByID,
        repository.sessionRepository.GetByID, repository.userRepository.Get, Store.record,
        Store.session?, hs1, SendError, StatusOK, StatusUnauthorized] at hok
  · cases hg : env.faults.sessionGet with
    | true =>
      simp [Refresh, hT, hp, hg, session.GetSessionByID, repository.sessionRepository.GetByID,
        SendError, StatusOK, StatusInternalServerError] at hok
    | false =>
    cases hmg : env.faults.meSessionGet with
    | true =>
      simp [Refresh, hT, hp, hg, hs, hv, hc, hmg, auth.GetMe, session.GetSessionByID,
        repository.sessionRepository.GetByID, SendError, StatusOK, StatusUnauthorized] at hok
    | false =>
    cases hmu : env.faults.meUserGet with
    | true =>
      simp [Refresh, hT, hp, hg, hs, hs', hv, hc, hmg, hmu, auth.GetMe, session.GetSessionByID,
        repository.sessionRepository.GetByID, repository.userRepository.Get, Store.record,
        Store.session?, hs1, SendError, StatusOK, StatusUnauthorized] at hok
    | false =>
    cases hup : env.faults.sessionUpdate with
    | false => rfl
    | true =>
      simp [Refresh, hT, hp, hg, hs, hs', hv, hc, hmg, hmu, hu, hgen, hup, auth.GetMe,
        session.GetSessionByID, repository.sessionRepository.GetByID,
        repository.userRepository.Get, Store.record, Store.session?, hs1, rotateSession,
        session.UpdateSession, repository.sessionRepository.Update,
        SendError, StatusOK, StatusInternalServerError] at hok

/-- A refresh that succeeds when the update of the session goes through is
answered 500 when the update fails. -/
theorem refresh_update_fault {P : Primitives} {h : authHandler} {env : Env} {db : Store}
    {c : Request}
    (hok : (Refresh P h { env with faults := { env.faults with sessionUpdate := false } } db
      c).1.status = 200)
    (hfault : env.faults.sessionUpdate = true) :
    (Refresh P h env db c).1.status = 500 := by
  obtain ⟨payload, sess, u, pair, hp, hs, hval, hexp, hc, hu, hgen, -⟩ := refresh_ok_inv hok
  obtain ⟨hg, hmg, hmu, -⟩ := refresh_ok_faults hok
  simp only at hp hexp hgen hg hmg hmu
  have hT := parse_refresh_ne_empty hp
  have hid := (session?_some hs).2
  have hs1 : List.find? (fun s => s.ID == payload.SID) db.sessions = some sess := hs
  have hs' : List.find? (fun s => s.ID == sess.ID) db.sessions = some sess := by
    rw [hid]; exact hs
  have hv : ¬ (sess.Valid = false ∨ sess.ExpiresAt < env.tCheck) := by
    simp [hval, hexp]
  simp [Refresh, hT, hp, hg, hs, hs', hv, hc, hmg, hmu, hu, hgen, hfault, auth.GetMe,
    session.GetSessionByID, repository.sessionRepository.GetByID,
    repository.userRepository.Get, Store.record, Store.session?, hs1, rotateSession,
    session.UpdateSession, repository.sessionRepository.Update,
    SendError, StatusInternalServerError]

/-! ## C20 -/

/-- C20 as stated fails: when the stale token `r1.rk` is presented and the delete
that `Refresh` issues on reuse detection fails with a store error, the error is
dropped: the answer is 401, not 500, and session `s1` stays in the store. -/
theorem refresh_discards_delete_error :
    ¬ ∀ (P : Primitives) (h : authHandler) (env : Env) (db : Store) (c : Request) (id : String),
        (Refresh P h env db c).2.calls.getLast? = some (StoreCall.sessionDelete id) →
        env.faults.sessionDelete = true →
        (Refresh P h env db c).1.status = 500 := by
  intro hall
  have h := hall sample.primitives sample.handler
    (sample.envWith (2500 * second) sample.ids1 { Faults.none with sessionDelete := true })
    sample.db2 (sample.refreshRequest "r1.rk") "s1" (by decide) rfl
  exact absurd h (by decide)

/-- C20, amended: a store error of the user lookup or of the session insert of
`Login`, of the session lookup or of the session update of `Refresh`, or of the
session delete of `Logout` is surfaced as status 500. The store error of the
delete that `Refresh` issues on reuse detection is discarded: the answer stays
401 "refresh token reuse detected" with both cookies cleared, and the sessions
stay as they were. -/
theorem store_errors_surface (P : Primitives) (h : authHandler) (env : Env) (db : Store)
    (c : Request) :
    (∀ req, c.loginBody = some req → env.faults.userByEmail = true →
        (Login P h env db c).1.status = 500) ∧
      ((Login P h { env with faults := { env.faults with sessionCreate := false } } db
          c).1.status = 200 →
        env.faults.sessionCreate = true → (Login P h env db c).1.status = 500) ∧
      (∀ payload,
        ParseRefreshToken P h.tokenManager env.tVerify (c.Cookies refreshTokenCookieName)
          = Except.ok payload →
        env.faults.sessionGet = true → (Refresh P h env db c).1.status = 500) ∧
      ((Refresh P h { env with faults := { env.faults with sessionUpdate := false } } db
          c).1.status = 200 →
        env.faults.sessionUpdate = true → (Refresh P h env db c).1.status = 500) ∧
      (sessionIDFromRequest P h env c ≠ "" → env.faults.sessionDelete = true →
        (Logout P h env db c).1.status = 500 ∧ (Logout P h env db c).2.sessions = db.sessions) ∧
      (∀ payload sess,
        ParseRefreshToken P h.tokenManager env.tVerify (c.Cookies refreshTokenCookieName)
          = Except.ok payload →
        db.session? payload.SID = some sess → sess.Valid = true →
        ¬ sess.ExpiresAt < env.tCheck →
        CompareTokenHash P sess.RefreshTokenHash (c.Cookies refreshTokenCookieName) = false →
        env.faults.sessionGet = false → env.faults.sessionDelete = true →
        (Refresh P h env db c).1 =
            SendError (clearAuthCookies h) 401 "refresh token reuse detected" ∧
          (Refresh P h env db c).2.sessions = db.sessions) := by
  refine ⟨?_, login_create_fault, ?_, refresh_update_fault, ?_, ?_⟩
  · intro req hb hf
    unfold Login
    simp only [hb]
    by_cases h1 : req.IPAddress = "" <;> by_cases h2 : req.UserAgent = "" <;>
      simp [h1, h2, hf, auth.LoginUser, repository.userRepository.GetByEmail, SendError,
        StatusInternalServerError]
  · intro payload hp hg
    have hT := parse_refresh_ne_empty hp
    simp [Refresh, hT, hp, hg, session.GetSessionByID, repository.sessionRepository.GetByID,
      SendError, StatusInternalServerError]
  · intro hid hd
    simp [Logout, hid, hd, session.DeleteSession, repository.sessionRepository.Delete,
      SendError, StatusInternalServerError, Store.record]
  · intro payload sess hp hs hval hlive hmis hg hd
    have hT := parse_refresh_ne_empty hp
    simp [Refresh, hT, hp, hg, hs, hval, hlive, hmis, hd, session.GetSessionByID,
      repository.sessionRepository.GetByID, session.DeleteSession,
      repository.sessionRepository.Delete, Store.record, StatusUnauthorized]

/-- C20 amended, at a concrete input: a logout of session `s1` whose delete
fails, and a refresh with a matching token whose lookup fails. -/
theorem store_errors_surface_witness :
    (Logout sample.primitives sample.handler
        (sample.envWith (1100 * second) sample.ids1 { Faults.none with sessionDelete := true })
        sample.db1 (sample.headerRequest "a1.ak")).1.status = 500 ∧
      (Refresh sample.primitives sample.handler
        (sample.envWith (2000 * second) sample.ids1 { Faults.none with sessionGet := true })
        sample.db1 (sample.refreshRequest "r1.rk")).1.status = 500 :=
  ⟨((store_errors_surface sample.primitives sample.handler
        (sample.envWith (1100 * second) sample.ids1 { Faults.none with sessionDelete := true })
        sample.db1 (sample.headerRequest "a1.ak")).2.2.2.2.1 (by decide) rfl).1,
    (store_errors_surface sample.primitives sample.handler
        (sample.envWith (2000 * second) sample.ids1 { Faults.none with sessionGet := true })
        sample.db1 (sample.refreshRequest "r1.rk")).2.2.1
      { UserID := "u1", Email := "", Username := "", Roles := [], JTI := "r1", SID := "s1",
        Expiry := timeUnix 4600 }
      (by decide) rfl⟩

/-! ## C21 -/

/-! ## float64 rounding -/

theorem log2Fuel_bounds : ∀ (fuel n : Nat), n ≤ fuel → 0 < n →
    2 ^ Float64.log2Fuel fuel n ≤ n ∧ n < 2 ^ (Float64.log2Fuel fuel n + 1) := by
  intro fuel
  induction fuel with
  | zero => intro n h1 h2; omega
  | succ f ih =>
    intro n hle hpos
    unfold Float64.log2Fuel
    by_cases h2 : n < 2
    · rw [if_pos h2]
      constructor <;> simp <;> omega
    · rw [if_neg h2]
      have hhalf := ih (n / 2) (by omega) (by omega)
      have hdm := Nat.div_add_mod n 2
      have hm := Nat.mod_lt n (by decide : 0 < 2)
      rw [pow_succ, pow_succ]
      constructor
      · omega
      · have := hhalf.2
        rw [pow_succ] at this
        omega

theorem log2_bounds (n : Nat) (h : 0 < n) :
    2 ^ Float64.log2 n ≤ n ∧ n < 2 ^ (Float64.log2 n + 1) :=
  log2Fuel_bounds n n (le_refl n) h

theorem scaled_pos (n d : Nat) (e : Int) (hd : 0 < d) : 0 < (Float64.scaled n d e).2 := by
  unfold Float64.scaled
  split
  · exact Nat.mul_pos hd (pow_pos (by decide) _)
  · exact hd

theorem scaled_quotient (n d : Nat) (e : Int) (hd : 0 < d) :
    ((Float64.scaled n d e).1 : ℚ) / ((Float64.scaled n d e).2 : ℚ) =
      ((n : ℚ) / d) / (2 : ℚ) ^ e := by
  have hdq : (d : ℚ) ≠ 0 := by exact_mod_cast hd.ne'
  unfold Float64.scaled
  by_cases he : 0 ≤ e
  · rw [if_pos he]
    obtain ⟨k, rfl⟩ := Int.eq_ofNat_of_zero_le he
    simp only [Int.toNat_ofNat, zpow_natCast]
    push_cast
    field_simp
  · rw [if_neg he]
    obtain ⟨k, hk⟩ := Int.eq_ofNat_of_zero_le (show 0 ≤ -e by omega)
    have he2 : e = -(k : Int) := by omega
    subst he2
    simp only [neg_neg, Int.toNat_ofNat, zpow_neg, zpow_natCast]
    push_cast
    field_simp

/-- Rounding of a quotient with remainder at a given exponent. -/
theorem rounds_at (n d : Nat) (e : Int) (hd : 0 < d)
    (h52 : 2 ^ 52 ≤ (Float64.scaled n d e).1 / (Float64.scaled n d e).2) :
    Float64.Rounds ((n : ℚ) / d)
      (if 2 * ((Float64.scaled n d e).1 % (Float64.scaled n d e).2) < (Float64.scaled n d e).2 ∨
          (2 * ((Float64.scaled n d e).1 % (Float64.scaled n d e).2) = (Float64.scaled n d e).2 ∧
            (Float64.scaled n d e).1 / (Float64.scaled n d e).2 % 2 = 0) then
        (Float64.scaled n d e).1 / (Float64.scaled n d e).2
      else (Float64.scaled n d e).1 / (Float64.scaled n d e).2 + 1) e := by
  have hD := scaled_pos n d e hd
  have hquot := scaled_quotient n d e hd
  generalize (Float64.scaled n d e).1 = N at *
  generalize (Float64.scaled n d e).2 = D at *
  have hpow : (0 : ℚ) < (2 : ℚ) ^ e := zpow_pos (by norm_num) e
  have hDq : (0 : ℚ) < (D : ℚ) := by exact_mod_cast hD
  -- the fraction in units of the spacing
  have hx : (n : ℚ) / d = ((N : ℚ) / D) * (2 : ℚ) ^ e := by
    rw [hquot]; field_simp; ring
  have hdm : D * (N / D) + N % D = N := Nat.div_add_mod N D
  have hr : N % D < D := Nat.mod_lt N hD
  have hND : (N : ℚ) / D = (N / D : Nat) + ((N % D : Nat) : ℚ) / D := by
    have : (N : ℚ) = (D : ℚ) * ((N / D : Nat) : ℚ) + ((N % D : Nat) : ℚ) := by
      exact_mod_cast hdm.symm
    field_simp
    linarith
  have hrq : ((N % D : Nat) : ℚ) < D := by exact_mod_cast hr
  have hr0 : (0 : ℚ) ≤ ((N % D : Nat) : ℚ) := by positivity
  refine ⟨?_, ?_, ?_, ?_⟩
  · -- within half a spacing
    rw [hx, ← sub_mul, abs_mul, abs_of_pos hpow]
    have hgoal : |((if 2 * (N % D) < D ∨ (2 * (N % D) = D ∧ N / D % 2 = 0) then N / D
        else N / D + 1 : Nat) : ℚ) - (N : ℚ) / D| ≤ 1 / 2 := by
      split
      · rename_i hc
        have h2 : 2 * (N % D) ≤ D := by rcases hc with h | h <;> omega
        have h2q : 2 * ((N % D : Nat) : ℚ) ≤ D := by exact_mod_cast h2
        rw [hND, abs_le]
        constructor
        · have : ((N % D : Nat) : ℚ) / D ≤ 1 / 2 := by
            rw [div_le_iff₀ hDq]; linarith
          linarith
        · have : (0 : ℚ) ≤ ((N % D : Nat) : ℚ) / D := by positivity
          linarith
      · rename_i hc
        have h2 : D ≤ 2 * (N % D) := by
          by_contra hlt
          exact hc (Or.inl (by omega))
        have h2q : (D : ℚ) ≤ 2 * ((N % D : Nat) : ℚ) := by exact_mod_cast h2
        rw [hND, abs_le]
        push_cast
        constructor
        · have : ((N % D : Nat) : ℚ) / D ≤ 1 := by
            rw [div_le_iff₀ hDq]; linarith
          linarith
        · have : (1 : ℚ) / 2 ≤ ((N % D : Nat) : ℚ) / D := by
            rw [le_div_iff₀ hDq]; linarith
          linarith
    calc |((if 2 * (N % D) < D ∨ (2 * (N % D) = D ∧ N / D % 2 = 0) then N / D
          else N / D + 1 : Nat) : ℚ) - (N : ℚ) / D| * (2 : ℚ) ^ e
        ≤ 1 / 2 * (2 : ℚ) ^ e := mul_le_mul_of_nonneg_right hgoal hpow.le
      _ = (2 : ℚ) ^ e / 2 := by ring
  · -- at least 2 ^ 52 spacings
    rw [hx]
    apply mul_le_mul_of_nonneg_right _ hpow.le
    have : ((2 ^ 52 : Nat) : ℚ) ≤ ((N / D : Nat) : ℚ) := by exact_mod_cast h52
    have h0 : (0 : ℚ) ≤ ((N % D : Nat) : ℚ) / D := by positivity
    rw [hND]
    push_cast at this
    linarith
  · -- multiples of the spacing below
    intro a ha
    rw [hx] at ha
    have ha2 : (a : ℚ) ≤ (N : ℚ) / D := le_of_mul_le_mul_right ha hpow
    have ha3 : (a : ℚ) * D ≤ N := by rwa [le_div_iff₀ hDq] at ha2
    have ha4 : a * D ≤ N := by exact_mod_cast ha3
    have ha5 : a ≤ N / D := (Nat.le_div_iff_mul_le hD).mpr ha4
    split <;> omega
  · -- multiples of the spacing above
    intro b hb
    rw [hx] at hb
    have hb2 : (N : ℚ) / D ≤ (b : ℚ) := le_of_mul_le_mul_right hb hpow
    have hb3 : (N : ℚ) ≤ b * D := by rwa [div_le_iff₀ hDq] at hb2
    have hb4 : N ≤ b * D := by exact_mod_cast hb3
    have hq : N / D ≤ b := by
      calc N / D ≤ b * D / D := Nat.div_le_div_right hb4
        _ = b := Nat.mul_div_cancel b hD
    split
    · exact hq
    · rename_i hc
      have hrpos : 0 < N % D := by
        by_contra h0
        exact hc (Or.inl (by omega))
      by_contra hlt
      have hbq : b = N / D := by omega
      rw [hbq] at hb4
      have : N / D * D = D * (N / D) := Nat.mul_comm _ _
      omega

/-- The exponent that `roundMag` chooses puts the leading bit of the quotient at
position 52 or above. -/
theorem roundMag_eq (n d : Nat) (hn : 0 < n) (hd : 0 < d) :
    ∃ e : Int, 2 ^ 52 ≤ (Float64.scaled n d e).1 / (Float64.scaled n d e).2 ∧
      Float64.roundMag n d =
        (if 2 * ((Float64.scaled n d e).1 % (Float64.scaled n d e).2) < (Float64.scaled n d e).2 ∨
            (2 * ((Float64.scaled n d e).1 % (Float64.scaled n d e).2) =
                (Float64.scaled n d e).2 ∧
              (Float64.scaled n d e).1 / (Float64.scaled n d e).2 % 2 = 0) then
          (Float64.scaled n d e).1 / (Float64.scaled n d e).2
        else (Float64.scaled n d e).1 / (Float64.scaled n d e).2 + 1, e) := by
  have hnd : ¬ (n = 0 ∨ d = 0) := by omega
  by_cases hc : (Float64.scaled n d ((Float64.log2 n : Int) - (Float64.log2 d : Int) - 52)).1 /
      (Float64.scaled n d ((Float64.log2 n : Int) - (Float64.log2 d : Int) - 52)).2 < 2 ^ 52
  · refine ⟨(Float64.log2 n : Int) - (Float64.log2 d : Int) - 52 - 1, ?_, ?_⟩
    · have hD := scaled_pos n d ((Float64.log2 n : Int) - (Float64.log2 d : Int) - 52 - 1) hd
      have hquot := scaled_quotient n d ((Float64.log2 n : Int) - (Float64.log2 d : Int) - 52 - 1) hd
      rw [Nat.le_div_iff_mul_le hD]
      have hDq : (0 : ℚ) < ((Float64.scaled n d
          ((Float64.log2 n : Int) - (Float64.log2 d : Int) - 52 - 1)).2 : ℚ) := by
        exact_mod_cast hD
      have hgoal : ((2 ^ 52 : Nat) : ℚ) ≤
          ((Float64.scaled n d ((Float64.log2 n : Int) - (Float64.log2 d : Int) - 52 - 1)).1 : ℚ) /
            ((Float64.scaled n d
              ((Float64.log2 n : Int) - (Float64.log2 d : Int) - 52 - 1)).2 : ℚ) := by
        rw [hquot]
        have hln := (log2_bounds n hn).1
        have hld := (log2_bounds d hd).2
        have hnq : ((2 : ℚ) ^ (Float64.log2 n : Int)) ≤ (n : ℚ) := by
          rw [zpow_natCast]; exact_mod_cast hln
        have hdq : (d : ℚ) ≤ (2 : ℚ) ^ ((Float64.log2 d : Int) + 1) := by
          have : (2 : ℚ) ^ ((Float64.log2 d : Int) + 1) = ((2 ^ (Float64.log2 d + 1) : Nat) : ℚ) := by
            push_cast
            rw [← zpow_natCast]
            push_cast
            rfl
          rw [this]
          exact_mod_cast hld.le
        have hd0 : (0 : ℚ) < (d : ℚ) := by exact_mod_cast hd
        have hp : (0 : ℚ) < (2 : ℚ) ^ ((Float64.log2 n : Int) - (Float64.log2 d : Int) - 52 - 1) :=
          zpow_pos (by norm_num) _
        rw [le_div_iff₀ hp, le_div_iff₀ hd0]
        have hsplit : ((2 ^ 52 : Nat) : ℚ) *
            (2 : ℚ) ^ ((Float64.log2 n : Int) - (Float64.log2 d : Int) - 52 - 1) *
            (2 : ℚ) ^ ((Float64.log2 d : Int) + 1) = (2 : ℚ) ^ (Float64.log2 n : Int) := by
          have h52 : ((2 ^ 52 : Nat) : ℚ) = (2 : ℚ) ^ (52 : Int) := by norm_num
          rw [h52, ← zpow_add₀ (by norm_num : (2 : ℚ) ≠ 0), ← zpow_add₀ (by norm_num : (2 : ℚ) ≠ 0)]
          congr 1
          ring
        calc ((2 ^ 52 : Nat) : ℚ) *
              (2 : ℚ) ^ ((Float64.log2 n : Int) - (Float64.log2 d : Int) - 52 - 1) * (d : ℚ)
            ≤ ((2 ^ 52 : Nat) : ℚ) *
              (2 : ℚ) ^ ((Float64.log2 n : Int) - (Float64.log2 d : Int) - 52 - 1) *
              (2 : ℚ) ^ ((Float64.log2 d : Int) + 1) :=
              mul_le_mul_of_nonneg_left hdq (by positivity)
          _ = (2 : ℚ) ^ (Float64.log2 n : Int) := hsplit
          _ ≤ (n : ℚ) := hnq
      have h3 := (le_div_iff₀ hDq).mp hgoal
      exact_mod_cast h3
    · unfold Float64.roundMag
      rw [if_neg hnd]
      simp only [hc, if_true]
      split <;> rfl
  · refine ⟨(Float64.log2 n : Int) - (Float64.log2 d : Int) - 52, Nat.le_of_not_lt hc, ?_⟩
    unfold Float64.roundMag
    rw [if_neg hnd]
    simp only [hc, if_false]
    split <;> rfl

/-- The fraction `n / d` is rounded by `roundMag`. -/
theorem roundMag_rounds (n d : Nat) (hn : 0 < n) (hd : 0 < d) :
    Float64.Rounds ((n : ℚ) / d) (Float64.roundMag n d).1 (Float64.roundMag n d).2 := by
  obtain ⟨e, h52, heq⟩ := roundMag_eq n d hn hd
  rw [heq]
  exact rounds_at n d e hd h52

theorem roundMag_zero (d : Nat) : Float64.roundMag 0 d = (0, 0) := by
  simp [Float64.roundMag]

theorem round_natCast (n d : Nat) :
    Float64.round (n : Int) d =
      { mant := ((Float64.roundMag n d).1 : Int), exp := (Float64.roundMag n d).2 } := by
  unfold Float64.round
  have h : ¬ ((n : Int) < 0) := by omega
  simp [h]

/-- A rounded number below `2 ^ j` has an exponent of at most `j - 53`. -/
theorem rounds_exp_le {x : ℚ} {m : Nat} {e : Int} (h : Float64.Rounds x m e) (j : Int)
    (hx : x < (2 : ℚ) ^ j) : e ≤ j - 53 := by
  have h1 : (2 : ℚ) ^ (52 : Nat) * (2 : ℚ) ^ e < (2 : ℚ) ^ j := lt_of_le_of_lt h.2.1 hx
  have h2 : (2 : ℚ) ^ ((52 : Int) + e) < (2 : ℚ) ^ j := by
    rw [zpow_add₀ (by norm_num : (2 : ℚ) ≠ 0)]
    exact_mod_cast h1
  have := (zpow_lt_zpow_iff_right₀ (by norm_num : (1 : ℚ) < 2)).mp h2
  omega

/-- Rounding commutes with scaling by a power of two. -/
theorem rounds_scale {x : ℚ} {m : Nat} {e : Int} (h : Float64.Rounds x m e) (j : Int) :
    Float64.Rounds (x * (2 : ℚ) ^ j) m (e + j) := by
  have hj : (0 : ℚ) < (2 : ℚ) ^ j := zpow_pos (by norm_num) j
  have hsplit : (2 : ℚ) ^ (e + j) = (2 : ℚ) ^ e * (2 : ℚ) ^ j :=
    zpow_add₀ (by norm_num : (2 : ℚ) ≠ 0) e j
  obtain ⟨h1, h2, h3, h4⟩ := h
  refine ⟨?_, ?_, ?_, ?_⟩
  · rw [hsplit]
    have : (m : ℚ) * ((2 : ℚ) ^ e * (2 : ℚ) ^ j) - x * (2 : ℚ) ^ j =
        ((m : ℚ) * (2 : ℚ) ^ e - x) * (2 : ℚ) ^ j := by ring
    rw [this, abs_mul, abs_of_pos hj]
    calc |(m : ℚ) * (2 : ℚ) ^ e - x| * (2 : ℚ) ^ j ≤ (2 : ℚ) ^ e / 2 * (2 : ℚ) ^ j :=
          mul_le_mul_of_nonneg_right h1 hj.le
      _ = (2 : ℚ) ^ e * (2 : ℚ) ^ j / 2 := by ring
  · rw [hsplit]
    calc (2 : ℚ) ^ (52 : Nat) * ((2 : ℚ) ^ e * (2 : ℚ) ^ j)
        = (2 : ℚ) ^ (52 : Nat) * (2 : ℚ) ^ e * (2 : ℚ) ^ j := by ring
      _ ≤ x * (2 : ℚ) ^ j := mul_le_mul_of_nonneg_right h2 hj.le
  · intro a ha
    apply h3 a
    rw [hsplit, ← mul_assoc] at ha
    exact le_of_mul_le_mul_right ha hj
  · intro b hb
    apply h4 b
    rw [hsplit, ← mul_assoc] at hb
    exact le_of_mul_le_mul_right hb hj

/-- With a spacing of at most one, a whole number below the rounded number is
below the result. -/
theorem rounds_ge_nat {x : ℚ} {m : Nat} {e : Int} (h : Float64.Rounds x m e) (he : e ≤ 0)
    (A : Nat) (hA : (A : ℚ) ≤ x) : (A : ℚ) ≤ (m : ℚ) * (2 : ℚ) ^ e := by
  obtain ⟨k, hk⟩ := Int.eq_ofNat_of_zero_le (show 0 ≤ -e by omega)
  have he2 : e = -(k : Int) := by omega
  subst he2
  have hp : (0 : ℚ) < (2 : ℚ) ^ k := by positivity
  have hmul : ((A * 2 ^ k : Nat) : ℚ) * (2 : ℚ) ^ (-(k : Int)) = A := by
    rw [zpow_neg, zpow_natCast]
    push_cast
    field_simp
  have := h.2.2.1 (A * 2 ^ k) (by rw [hmul]; exact hA)
  have hq : ((A * 2 ^ k : Nat) : ℚ) ≤ (m : ℚ) := by exact_mod_cast this
  rw [← hmul]
  exact mul_le_mul_of_nonneg_right hq (by positivity)

/-- With a spacing of at most one, a whole number above the rounded number is
above the result. -/
theorem rounds_le_nat {x : ℚ} {m : Nat} {e : Int} (h : Float64.Rounds x m e) (he : e ≤ 0)
    (B : Nat) (hB : x ≤ (B : ℚ)) : (m : ℚ) * (2 : ℚ) ^ e ≤ (B : ℚ) := by
  obtain ⟨k, hk⟩ := Int.eq_ofNat_of_zero_le (show 0 ≤ -e by omega)
  have he2 : e = -(k : Int) := by omega
  subst he2
  have hp : (0 : ℚ) < (2 : ℚ) ^ k := by positivity
  have hmul : ((B * 2 ^ k : Nat) : ℚ) * (2 : ℚ) ^ (-(k : Int)) = B := by
    rw [zpow_neg, zpow_natCast]
    push_cast
    field_simp
  have := h.2.2.2 (B * 2 ^ k) (by rw [hmul]; exact hB)
  have hq : (m : ℚ) ≤ ((B * 2 ^ k : Nat) : ℚ) := by exact_mod_cast this
  rw [← hmul]
  exact mul_le_mul_of_nonneg_right hq (by positivity)

theorem rounds_le_add {x : ℚ} {m : Nat} {e : Int} (h : Float64.Rounds x m e) :
    (m : ℚ) * (2 : ℚ) ^ e ≤ x + (2 : ℚ) ^ e / 2 := by
  have := (abs_le.mp h.1).2
  linarith

/-- The conversion of a whole number below `2 ^ 53` is exact. -/
theorem ofInt_exact (n : Nat) (h : n < 2 ^ 53) :
    (Float64.ofInt (n : Int)).val = n ∧ 0 ≤ (Float64.ofInt (n : Int)).mant := by
  unfold Float64.ofInt
  rw [round_natCast]
  unfold Float64.val
  simp only
  refine ⟨?_, by positivity⟩
  by_cases h0 : n = 0
  · subst h0
    rw [roundMag_zero]
    simp
  · have hR := roundMag_rounds n 1 (by omega) (by decide)
    have hx : ((n : ℚ) / ((1 : Nat) : ℚ)) = n := by simp
    rw [hx] at hR
    have hlt : (n : ℚ) < (2 : ℚ) ^ (53 : Int) := by
      rw [show (2 : ℚ) ^ (53 : Int) = ((2 ^ 53 : Nat) : ℚ) by norm_num]
      exact_mod_cast h
    have he := rounds_exp_le hR 53 hlt
    have h1 := rounds_ge_nat hR (by omega) n le_rfl
    have h2 := rounds_le_nat hR (by omega) n le_rfl
    push_cast
    exact le_antisymm h2 h1

/-- The conversion to an integer of a value that is not negative is its floor. -/
theorem toInt_floor (a : Float64) (ha : 0 ≤ a.mant) : a.toInt = ⌊a.val⌋ := by
  obtain ⟨m, hm⟩ := Int.eq_ofNat_of_zero_le ha
  unfold Float64.toInt Float64.val
  rw [hm]
  by_cases he : 0 ≤ a.exp
  · rw [if_pos he]
    obtain ⟨k, hk⟩ := Int.eq_ofNat_of_zero_le he
    rw [hk]
    simp only [Int.toNat_ofNat, zpow_natCast]
    symm
    rw [Int.floor_eq_iff]
    push_cast
    constructor
    · exact le_rfl
    · linarith
  · rw [if_neg he]
    obtain ⟨k, hk⟩ := Int.eq_ofNat_of_zero_le (show 0 ≤ -a.exp by omega)
    have he2 : a.exp = -(k : Int) := by omega
    rw [he2]
    simp only [neg_neg, Int.toNat_ofNat, zpow_neg, zpow_natCast]
    have htd : Int.tdiv (m : Int) (2 ^ k) = ((m / 2 ^ k : Nat) : Int) := by
      rw [Int.ofNat_tdiv]
      push_cast
      rfl
    rw [htd]
    symm
    rw [Int.floor_eq_iff]
    have hp : (0 : ℚ) < (2 : ℚ) ^ k := by positivity
    have hdm := Nat.div_add_mod m (2 ^ k)
    have hlt := Nat.mod_lt m (show 0 < 2 ^ k by positivity)
    generalize m / 2 ^ k = q at hdm ⊢
    generalize m % 2 ^ k = r at hdm hlt
    have hmq : (m : ℚ) = (2 : ℚ) ^ k * (q : ℚ) + (r : ℚ) := by
      exact_mod_cast hdm.symm
    have hrq : (r : ℚ) < (2 : ℚ) ^ k := by exact_mod_cast hlt
    have hr0 : (0 : ℚ) ≤ (r : ℚ) := by positivity
    simp only [Int.cast_natCast]
    constructor
    · rw [← div_eq_mul_inv, le_div_iff₀ hp]
      linarith
    · rw [← div_eq_mul_inv, div_lt_iff₀ hp]
      linarith

/-- The sum of two values that are not negative is zero, or their exact sum
rounded. -/
theorem add_spec (a b : Float64) (ha : 0 ≤ a.mant) (hb : 0 ≤ b.mant) :
    0 ≤ (Float64.add a b).mant ∧
      ((a.val + b.val = 0 ∧ (Float64.add a b).mant = 0) ∨
        (0 < a.val + b.val ∧
          Float64.Rounds (a.val + b.val) (Float64.add a b).mant.toNat (Float64.add a b).exp)) := by
  obtain ⟨ma, hma⟩ := Int.eq_ofNat_of_zero_le ha
  obtain ⟨mb, hmb⟩ := Int.eq_ofNat_of_zero_le hb
  have hea : 0 ≤ a.exp - min a.exp b.exp := by have := min_le_left a.exp b.exp; omega
  have heb : 0 ≤ b.exp - min a.exp b.exp := by have := min_le_right a.exp b.exp; omega
  obtain ⟨ja, hja⟩ := Int.eq_ofNat_of_zero_le hea
  obtain ⟨jb, hjb⟩ := Int.eq_ofNat_of_zero_le heb
  have hM : a.mant * 2 ^ (a.exp - min a.exp b.exp).toNat +
      b.mant * 2 ^ (b.exp - min a.exp b.exp).toNat = ((ma * 2 ^ ja + mb * 2 ^ jb : Nat) : Int) := by
    rw [hma, hmb, hja, hjb]
    simp only [Int.toNat_ofNat]
    push_cast
    rfl
  have hpe : (0 : ℚ) < (2 : ℚ) ^ (min a.exp b.exp) := zpow_pos (by norm_num) _
  have hval : ((ma * 2 ^ ja + mb * 2 ^ jb : Nat) : ℚ) * (2 : ℚ) ^ (min a.exp b.exp) =
      a.val + b.val := by
    unfold Float64.val
    rw [hma, hmb]
    have h1 : (2 : ℚ) ^ a.exp = (2 : ℚ) ^ ja * (2 : ℚ) ^ (min a.exp b.exp) := by
      rw [← zpow_natCast, ← zpow_add₀ (by norm_num : (2 : ℚ) ≠ 0)]
      congr 1
      omega
    have h2 : (2 : ℚ) ^ b.exp = (2 : ℚ) ^ jb * (2 : ℚ) ^ (min a.exp b.exp) := by
      rw [← zpow_natCast, ← zpow_add₀ (by norm_num : (2 : ℚ) ≠ 0)]
      congr 1
      omega
    rw [h1, h2]
    push_cast
    ring
  have hadd : Float64.add a b =
      { mant := ((Float64.roundMag (ma * 2 ^ ja + mb * 2 ^ jb) 1).1 : Int),
        exp := (Float64.roundMag (ma * 2 ^ ja + mb * 2 ^ jb) 1).2 + min a.exp b.exp } := by
    unfold Float64.add
    simp only
    rw [hM, round_natCast]
  rw [hadd]
  simp only
  refine ⟨by positivity, ?_⟩
  by_cases h0 : ma * 2 ^ ja + mb * 2 ^ jb = 0
  · left
    rw [← hval, h0, roundMag_zero]
    simp
  · right
    have hpos : 0 < ma * 2 ^ ja + mb * 2 ^ jb := Nat.pos_of_ne_zero h0
    have hR := roundMag_rounds _ 1 hpos (by decide)
    have hR2 := rounds_scale hR (min a.exp b.exp)
    have hx : ((ma * 2 ^ ja + mb * 2 ^ jb : Nat) : ℚ) / ((1 : Nat) : ℚ) =
        ((ma * 2 ^ ja + mb * 2 ^ jb : Nat) : ℚ) := by simp
    rw [hx, hval] at hR2
    refine ⟨?_, ?_⟩
    · rw [← hval]
      have : (0 : ℚ) < ((ma * 2 ^ ja + mb * 2 ^ jb : Nat) : ℚ) := by exact_mod_cast hpos
      positivity
    · simpa using hR2

/-- The quotient of a value that is not negative by a positive one is zero, or
the exact quotient rounded. -/
theorem div_spec (a b : Float64) (ha : 0 ≤ a.mant) (hb : 0 < b.mant) :
    0 ≤ (Float64.div a b).mant ∧
      ((a.mant = 0 ∧ (Float64.div a b).mant = 0) ∨
        (0 < a.mant ∧
          Float64.Rounds (a.val / b.val) (Float64.div a b).mant.toNat (Float64.div a b).exp)) := by
  obtain ⟨ma, hma⟩ := Int.eq_ofNat_of_zero_le ha
  obtain ⟨mb, hmb⟩ := Int.eq_ofNat_of_zero_le hb.le
  have hmbpos : 0 < mb := by omega
  have hsign : b.mant.sign = 1 := Int.sign_eq_one_of_pos hb
  have hnat : b.mant.natAbs = mb := by rw [hmb]; rfl
  have hdiv : Float64.div a b =
      { mant := ((Float64.roundMag ma mb).1 : Int),
        exp := (Float64.roundMag ma mb).2 + a.exp - b.exp } := by
    unfold Float64.div
    simp only
    rw [hsign, hnat, mul_one, hma, round_natCast]
  rw [hdiv]
  simp only
  refine ⟨by positivity, ?_⟩
  by_cases h0 : ma = 0
  · left
    subst h0
    rw [roundMag_zero]
    exact ⟨by simpa using hma, by simp⟩
  · right
    have hpos : 0 < ma := Nat.pos_of_ne_zero h0
    have hR := roundMag_rounds ma mb hpos hmbpos
    have hR2 := rounds_scale hR (a.exp - b.exp)
    have hx : (ma : ℚ) / (mb : ℚ) * (2 : ℚ) ^ (a.exp - b.exp) = a.val / b.val := by
      unfold Float64.val
      rw [hma, hmb, zpow_sub₀ (by norm_num : (2 : ℚ) ≠ 0)]
      have hmbq : (mb : ℚ) ≠ 0 := by exact_mod_cast hmbpos.ne'
      have hpb : (2 : ℚ) ^ b.exp ≠ 0 := (zpow_pos (by norm_num) _).ne'
      push_cast
      field_simp
    rw [hx] at hR2
    refine ⟨by omega, ?_⟩
    have hexp : (Float64.roundMag ma mb).2 + a.exp - b.exp =
        (Float64.roundMag ma mb).2 + (a.exp - b.exp) := by ring
    rw [hexp]
    simpa using hR2

/-- The value of a `float64` whose mantissa is not negative, through the
mantissa as a natural number. -/
theorem val_toNat (a : Float64) (ha : 0 ≤ a.mant) :
    a.val = (a.mant.toNat : ℚ) * (2 : ℚ) ^ a.exp := by
  unfold Float64.val
  congr 1
  exact_mod_cast (Int.toNat_of_nonneg ha).symm

theorem val_of_mant_zero (a : Float64) (ha : a.mant = 0) : a.val = 0 := by
  unfold Float64.val
  rw [ha]
  simp

/-- What `Duration.Seconds` returns for a duration of `D` nanoseconds that is not
negative and fits `int64`: a value between the whole seconds and the next whole
second, and below the next whole second when the whole seconds are fewer than
`2 ^ 24`. -/
theorem seconds_natCast (D : Nat) (hD : D < 2 ^ 63) :
    0 ≤ (Duration.Seconds (D : Int)).mant ∧
      ((D / 1000000000 : Nat) : ℚ) ≤ (Duration.Seconds (D : Int)).val ∧
      (Duration.Seconds (D : Int)).val ≤ ((D / 1000000000 : Nat) : ℚ) + 1 ∧
      (D / 1000000000 < 2 ^ 24 →
        (Duration.Seconds (D : Int)).val < ((D / 1000000000 : Nat) : ℚ) + 1) := by
  have hsec : Int.tdiv (D : Int) second = ((D / 1000000000 : Nat) : Int) := by
    rw [Int.ofNat_tdiv]; rfl
  have hnsec : Int.tmod (D : Int) second = ((D % 1000000000 : Nat) : Int) := by
    rw [Int.ofNat_tmod]; rfl
  have hbillion : (1000000000 : Int) = ((1000000000 : Nat) : Int) := rfl
  unfold Duration.Seconds
  rw [hsec, hnsec, hbillion]
  have hsecLt : D / 1000000000 < 2 ^ 34 := by omega
  have hnsLt : D % 1000000000 < 1000000000 := Nat.mod_lt _ (by decide)
  generalize D / 1000000000 = sec at *
  generalize D % 1000000000 = nsec at *
  -- the three conversions are exact
  obtain ⟨hAv, hAm⟩ := ofInt_exact sec (by omega)
  obtain ⟨hBv, hBm⟩ := ofInt_exact nsec (by omega)
  obtain ⟨hCv, hCm⟩ := ofInt_exact 1000000000 (by decide)
  have hCpos : 0 < (Float64.ofInt ((1000000000 : Nat) : Int)).mant := by
    rcases lt_or_eq_of_le hCm with h | h
    · exact h
    · have := val_of_mant_zero _ h.symm
      rw [hCv] at this
      norm_num at this
  -- the quotient
  obtain ⟨hQm, hQ⟩ := div_spec _ _ hBm hCpos
  have hnsq : (nsec : ℚ) ≤ 999999999 := by
    have : nsec ≤ 999999999 := by omega
    exact_mod_cast this
  have hns0 : (0 : ℚ) ≤ (nsec : ℚ) := by positivity
  rw [hBv, hCv] at hQ
  generalize Float64.div (Float64.ofInt (nsec : Int))
    (Float64.ofInt ((1000000000 : Nat) : Int)) = Q at *
  have e54 : (2 : ℚ) ^ (-54 : Int) = 1 / 18014398509481984 := by norm_num
  have e53 : (2 : ℚ) ^ (-53 : Int) = 1 / 9007199254740992 := by norm_num
  have e30 : (2 : ℚ) ^ (-30 : Int) = 1 / 1073741824 := by norm_num
  have e29 : (2 : ℚ) ^ (-29 : Int) = 1 / 536870912 := by norm_num
  have hQv : 0 ≤ Q.val ∧ Q.val ≤ (nsec : ℚ) / 1000000000 + 1 / 18014398509481984 := by
    rcases hQ with ⟨-, h0⟩ | ⟨-, hR⟩
    · rw [val_of_mant_zero _ h0]
      constructor
      · exact le_rfl
      · positivity
    · have hcast : ((1000000000 : Nat) : ℚ) = 1000000000 := by norm_num
      rw [hcast] at hR
      have hx1 : (nsec : ℚ) / 1000000000 < (2 : ℚ) ^ (0 : Int) := by
        rw [zpow_zero, div_lt_one (by norm_num)]
        linarith
      have he := rounds_exp_le hR 0 hx1
      have hle := rounds_le_add hR
      have hpow : (2 : ℚ) ^ Q.exp ≤ (2 : ℚ) ^ (-53 : Int) :=
        zpow_le_zpow_right₀ (by norm_num) (by omega)
      rw [e53] at hpow
      rw [val_toNat _ hQm]
      constructor
      · positivity
      · linarith
  -- the sum
  obtain ⟨hSm, hS⟩ := add_spec _ Q hAm hQm
  have hsec0 : (0 : ℚ) ≤ (sec : ℚ) := by positivity
  have hQle : Q.val ≤ 1 - 1 / 1000000000 + 1 / 18014398509481984 := by
    have : (nsec : ℚ) / 1000000000 ≤ 1 - 1 / 1000000000 := by
      rw [div_le_iff₀ (by norm_num)]
      linarith
    linarith [hQv.2]
  refine ⟨hSm, ?_⟩
  rcases hS with ⟨hz, h0⟩ | ⟨-, hR⟩
  · rw [val_of_mant_zero _ h0]
    rw [hAv] at hz
    have hs : (sec : ℚ) = 0 := by linarith [hQv.1]
    rw [hs]
    norm_num
  · rw [hAv] at hR
    have hxlt : (sec : ℚ) + Q.val < (sec : ℚ) + 1 := by linarith
    have hsecq : (sec : ℚ) + 1 ≤ (2 : ℚ) ^ (53 : Int) := by
      have : sec + 1 ≤ 2 ^ 53 := by omega
      rw [show (2 : ℚ) ^ (53 : Int) = ((2 ^ 53 : Nat) : ℚ) by norm_num]
      exact_mod_cast this
    have he := rounds_exp_le hR 53 (lt_of_lt_of_le hxlt hsecq)
    have hge := rounds_ge_nat hR (by omega) sec (by linarith [hQv.1])
    have hle := rounds_le_nat hR (by omega) (sec + 1) (by push_cast; linarith)
    rw [val_toNat _ hSm]
    refine ⟨hge, by push_cast at hle; exact hle, ?_⟩
    intro hsmall
    have hsecq2 : (sec : ℚ) + 1 ≤ (2 : ℚ) ^ (24 : Int) := by
      have : sec + 1 ≤ 2 ^ 24 := by omega
      rw [show (2 : ℚ) ^ (24 : Int) = ((2 ^ 24 : Nat) : ℚ) by norm_num]
      exact_mod_cast this
    have he2 := rounds_exp_le hR 24 (lt_of_lt_of_le hxlt hsecq2)
    have hadd := rounds_le_add hR
    have hpow : (2 : ℚ) ^ (Float64.add (Float64.ofInt (sec : Int)) Q).exp ≤
        (2 : ℚ) ^ (-29 : Int) := zpow_le_zpow_right₀ (by norm_num) (by omega)
    rw [e29] at hpow
    linarith

/-- For a duration that is not negative and fits `int64`, `int(d.Seconds())` is
the whole seconds of the duration or one more; it is the whole seconds when the
duration is shorter than `2 ^ 24` seconds. -/
theorem wholeSeconds_of_nonneg (d : Int) (h0 : 0 ≤ d) (hmax : d ≤ maxDuration) :
    Int.tdiv d second ≤ wholeSeconds d ∧ wholeSeconds d ≤ Int.tdiv d second + 1 ∧
      (d < 2 ^ 24 * second → wholeSeconds d = Int.tdiv d second) := by
  obtain ⟨D, rfl⟩ := Int.eq_ofNat_of_zero_le h0
  have hD : D < 2 ^ 63 := by
    unfold maxDuration at hmax
    omega
  obtain ⟨hm, hlo, hhi, hsmall⟩ := seconds_natCast D hD
  have hsec : Int.tdiv (D : Int) second = ((D / 1000000000 : Nat) : Int) := by
    rw [Int.ofNat_tdiv]; rfl
  unfold wholeSeconds
  rw [toInt_floor _ hm, hsec]
  refine ⟨?_, ?_, ?_⟩
  · rw [Int.le_floor]
    exact_mod_cast hlo
  · have := Int.floor_mono hhi
    have hc : (((D / 1000000000 : Nat) : ℚ) + 1) = (((D / 1000000000 : Nat) : Int) + 1 : Int) := by
      push_cast; rfl
    rw [hc, Int.floor_intCast] at this
    exact this
  · intro hlt
    have hs : D / 1000000000 < 2 ^ 24 := by
      unfold second at hlt
      omega
    rw [Int.floor_eq_iff]
    constructor
    · exact_mod_cast hlo
    · exact_mod_cast hsmall hs

theorem round_mant_nonpos (n : Int) (d : Nat) (h : n ≤ 0) : (Float64.round n d).mant ≤ 0 := by
  unfold Float64.round
  simp only
  by_cases hn : n < 0
  · rw [if_pos hn]
    have : (0 : Int) ≤ ((Float64.roundMag n.natAbs d).1 : Int) := by positivity
    omega
  · have h0 : n = 0 := by omega
    subst h0
    simp [roundMag_zero]

theorem ofInt_billion_pos : 0 < (Float64.ofInt 1000000000).mant := by
  obtain ⟨hCv, hCm⟩ := ofInt_exact 1000000000 (by decide)
  rcases lt_or_eq_of_le hCm with h | h
  · exact h
  · have := val_of_mant_zero _ h.symm
    rw [hCv] at this
    norm_num at this

theorem toInt_nonpos (a : Float64) (h : a.mant ≤ 0) : a.toInt ≤ 0 := by
  unfold Float64.toInt
  split
  · exact Int.mul_nonpos_of_nonpos_of_nonneg h (by positivity)
  · have h1 : (0 : Int) ≤ -a.mant := by omega
    have h2 := Int.tdiv_nonneg h1 (show (0 : Int) ≤ 2 ^ (-a.exp).toNat by positivity)
    rw [Int.neg_tdiv] at h2
    omega

/-- For a negative duration `int(d.Seconds())` is not positive. -/
theorem wholeSeconds_of_neg (d : Int) (h : d < 0) : wholeSeconds d ≤ 0 := by
  have ha : (0 : Int) ≤ -d := by omega
  have hq : Int.tdiv d second ≤ 0 := by
    have h2 := Int.tdiv_nonneg ha (show (0 : Int) ≤ second by decide)
    rw [Int.neg_tdiv] at h2
    omega
  have hr : Int.tmod d second ≤ 0 := by
    have h2 := Int.tmod_nonneg second ha
    have h3 := Int.tmod_def (-d) second
    have h4 := Int.tmod_def d second
    rw [Int.neg_tdiv] at h3
    unfold second at h2 h3 h4 ⊢
    omega
  apply toInt_nonpos
  unfold Duration.Seconds Float64.add
  simp only
  apply round_mant_nonpos
  have h1 : (Float64.ofInt (Int.tdiv d second)).mant ≤ 0 := round_mant_nonpos _ 1 hq
  have h2 : (Float64.div (Float64.ofInt (Int.tmod d second)) (Float64.ofInt 1000000000)).mant ≤ 0 := by
    unfold Float64.div
    simp only
    apply round_mant_nonpos
    rw [Int.sign_eq_one_of_pos ofInt_billion_pos, mul_one]
    exact round_mant_nonpos _ 1 hr
  have t1 := Int.mul_nonpos_of_nonpos_of_nonneg h1
    (show (0 : Int) ≤ 2 ^ ((Float64.ofInt (Int.tdiv d second)).exp -
      min (Float64.ofInt (Int.tdiv d second)).exp
        (Float64.div (Float64.ofInt (Int.tmod d second)) (Float64.ofInt 1000000000)).exp).toNat
      by positivity)
  have t2 := Int.mul_nonpos_of_nonpos_of_nonneg h2
    (show (0 : Int) ≤ 2 ^ ((Float64.div (Float64.ofInt (Int.tmod d second))
        (Float64.ofInt 1000000000)).exp -
      min (Float64.ofInt (Int.tdiv d second)).exp
        (Float64.div (Float64.ofInt (Int.tmod d second)) (Float64.ofInt 1000000000)).exp).toNat
      by positivity)
  omega

/-- The remaining time that `time.Until` reports fits `int64`, and it is the
difference of the two instants when that fits. -/
theorem timeUntil_range (t now : Int) :
    (-(2 ^ 63) : Int) ≤ timeUntil t now ∧ timeUntil t now ≤ (2 ^ 63 - 1 : Int) ∧
      ((-(2 ^ 63) : Int) ≤ t - now → t - now ≤ (2 ^ 63 - 1 : Int) → timeUntil t now = t - now) := by
  by_cases h1 : (2 ^ 63 - 1 : Int) < t - now
  · have h : timeUntil t now = (2 ^ 63 - 1 : Int) := if_pos h1
    rw [h]
    refine ⟨by norm_num, le_rfl, ?_⟩
    intro _ h3
    omega
  · by_cases h2 : t - now < (-(2 ^ 63) : Int)
    · have h : timeUntil t now = (-(2 ^ 63) : Int) := (if_neg h1).trans (if_pos h2)
      rw [h]
      refine ⟨le_rfl, by norm_num, ?_⟩
      intro h3 _
      omega
    · have h : timeUntil t now = t - now := (if_neg h1).trans (if_neg h2)
      rw [h]
      refine ⟨by omega, not_lt.mp h1, fun _ _ => rfl⟩

/-- C21 as stated fails: with 16777216.999999999 seconds left to the expiry of
the refresh token, the whole seconds remaining are 16777216, and the max-age of
the refresh cookie is 16777217: the sum `16777216 + 0.999999999` is not a
`float64`, and the nearest one is 16777217. -/
theorem maxAge_exceeds_whole_seconds :
    (setAuthCookies sample.handler 0 0
        { AccessToken := "a1.ak", RefreshToken := "r1.rk", AccessExp := 900 * second,
          RefreshExp := 16777216999999999, JTI := "a1", SID := "s1" }).map (fun k => k.MaxAge)
      = [900, 16777217] ∧
      Int.tdiv (16777216999999999 - 0) second = 16777216 := by
  constructor <;> decide

/-- C21, amended: `setAuthCookies` sets exactly two cookies, the access and the
refresh cookie, each with the token as value, the configured domain, path `/`,
`HttpOnly`, `Secure` and SameSite `none`. The max-age of each is
`int(time.Until(exp).Seconds())` when that is positive and `int(TTL.Seconds())`
of the class otherwise. The remaining time is the difference of the expiry and
the clock reading whenever that fits `int64`. `int(d.Seconds())` goes through
`float64`: it is not positive for a negative duration, and for a duration that
is not negative it is the whole seconds of the duration or one more, and exactly
the whole seconds when the duration is shorter than `2 ^ 24` seconds. -/
theorem setAuthCookies_contract (h : authHandler) (tAccess tRefresh : Time) (pair : TokenPair) :
    (setAuthCookies h tAccess tRefresh pair).map
        (fun k => (k.Name, k.Value, k.Domain, k.Path, k.HTTPOnly, k.Secure, k.SameSite)) =
      [("access_token", pair.AccessToken, h.cookieDomain, "/", true, true, "none"),
       ("refresh_token", pair.RefreshToken, h.cookieDomain, "/", true, true, "none")] ∧
      (setAuthCookies h tAccess tRefresh pair).map (fun k => k.MaxAge) =
        [if 0 < wholeSeconds (timeUntil pair.AccessExp tAccess) then
            wholeSeconds (timeUntil pair.AccessExp tAccess)
          else wholeSeconds h.tokenManager.AccessTTL,
         if 0 < wholeSeconds (timeUntil pair.RefreshExp tRefresh) then
            wholeSeconds (timeUntil pair.RefreshExp tRefresh)
          else wholeSeconds h.tokenManager.RefreshTTL] ∧
      (∀ t now : Time, minDuration ≤ timeUntil t now ∧ timeUntil t now ≤ maxDuration ∧
        (minDuration ≤ t - now → t - now ≤ maxDuration → timeUntil t now = t - now)) ∧
      (∀ d : Duration, d < 0 → wholeSeconds d ≤ 0) ∧
      (∀ d : Duration, 0 ≤ d → d ≤ maxDuration →
        Int.tdiv d second ≤ wholeSeconds d ∧ wholeSeconds d ≤ Int.tdiv d second + 1 ∧
          (d < 2 ^ 24 * second → wholeSeconds d = Int.tdiv d second)) := by
  refine ⟨rfl, ?_, timeUntil_range, wholeSeconds_of_neg, wholeSeconds_of_nonneg⟩
  simp only [setAuthCookies, List.map_cons, List.map_nil, TokenManager.AccessTTL,
    TokenManager.RefreshTTL]
  by_cases h1 : wholeSeconds (timeUntil pair.AccessExp tAccess) ≤ 0 <;>
    by_cases h2 : wholeSeconds (timeUntil pair.RefreshExp tRefresh) ≤ 0 <;>
    simp [h1, h2, not_lt.mpr, lt_of_not_ge]

/-- C21 amended, at a concrete input: the pair issued to alice at second 1000,
its cookies set a second and a half later: 898 and 3598 seconds, the whole
seconds of the 898.5 and 3598.5 seconds that remain. -/
theorem setAuthCookies_contract_witness :
    (setAuthCookies sample.handler (1001 * second + 500000000) (1001 * second + 500000000)
        { AccessToken := "a1.ak", RefreshToken := "r1.rk", AccessExp := 1900 * second,
          RefreshExp := 4600 * second, JTI := "a1", SID := "s1" }).map (fun k => k.MaxAge)
      = [898, 3598] ∧
      wholeSeconds (1900 * second - (1001 * second + 500000000)) =
        Int.tdiv (1900 * second - (1001 * second + 500000000)) second :=
  have w := setAuthCookies_contract sample.handler (1001 * second + 500000000)
    (1001 * second + 500000000)
    { AccessToken := "a1.ak", RefreshToken := "r1.rk", AccessExp := 1900 * second,
      RefreshExp := 4600 * second, JTI := "a1", SID := "s1" }
  ⟨w.2.1.trans (by decide),
    (w.2.2.2.2 (1900 * second - (1001 * second + 500000000)) (by decide) (by decide)).2.2
      (by decide)⟩

/-! ## C22 -/

/-- C22: when the lookup reaches the database, `ValidateToken(id)` returns the
stored session with that id as it is stored, whatever its valid flag and its
expiry, and fails with `ErrSessionNotFound` exactly when no session has that id;
when the lookup fails, the store error is what it returns. The sessions and the
users of the store are left as they were: the store has seen one lookup. -/
theorem validateToken_resolves_by_id (fault : Bool) (db : Store) (id : String) :
    (fault = false → ∀ s, db.session? id = some s →
        (auth.ValidateToken fault db id).1 = Except.ok s) ∧
      (fault = false →
        ((auth.ValidateToken fault db id).1 = Except.error Error.ErrSessionNotFound ↔
          db.session? id = none)) ∧
      (fault = true → (auth.ValidateToken fault db id).1 = Except.error Error.store) ∧
      (auth.ValidateToken fault db id).2.sessions = db.sessions ∧
      (auth.ValidateToken fault db id).2.users = db.users ∧
      (auth.ValidateToken fault db id).2.calls = db.calls ++ [StoreCall.sessionGet id] := by
  unfold auth.ValidateToken session.GetSessionByID repository.sessionRepository.GetByID
  cases fault with
  | true => simp [Store.record]
  | false =>
    cases hs : db.session? id with
    | none => simp [Store.record]
    | some s => simp [Store.record]

/-- C22 at a concrete input: the id `s1` of alice's session, and an id no session
has. -/
theorem validateToken_resolves_by_id_witness :
    (auth.ValidateToken false sample.db1 "s1").1 = Except.ok
        { ID := "s1", UserID := "u1", IPAddress := "10.0.0.1", UserAgent := "ua0", Valid := true,
          ExpiresAt := 4600 * second, RefreshTokenHash := HashToken sample.primitives "r1.rk",
          CreatedAt := 1000 * second, UpdatedAt := 1000 * second } ∧
      (auth.ValidateToken false sample.db1 "s9").1 = Except.error Error.ErrSessionNotFound :=
  ⟨(validateToken_resolves_by_id false sample.db1 "s1").1 rfl _ (by decide),
    ((validateToken_resolves_by_id false sample.db1 "s9").2.1 rfl).mpr (by decide)⟩

/-! ## C26 -/

theorem toOption_error {ε α : Type} {x : Except ε α} (h : ∀ a, x ≠ Except.ok a) :
    x.toOption = none := by
  cases x with
  | error e => rfl
  | ok a => exact absurd rfl (h a)

theorem not_ok_of_isNone {ε α : Type} {x : Except ε α} (h : x.toOption.isNone = true) :
    ∀ a, x ≠ Except.ok a := by
  intro a ha
  rw [ha] at h
  exact absurd h (by simp [Except.toOption])

/-- C26: `sessionIDFromRequest` returns the SID of the bearer token of the
`Authorization` header when that verifies as an access token; failing that, the
SID of the access cookie when that verifies as an access token; failing that,
the SID of the refresh cookie when that verifies as a refresh token; and when
none of the three verifies, the raw `token` query parameter. In this last case,
the parameter being non-empty and the delete reaching the database, `Logout`
answers 200, clears the cookies and removes the session whose id is the
parameter, the store having seen nothing but that delete; the parameter being
empty, `Logout` answers 401 and leaves the store as it was. -/
theorem sessionIDFromRequest_order (P : Primitives) (h : authHandler) (env : Env) (db : Store)
    (c : Request) :
    (∀ p, ParseAccessToken P h.tokenManager env.tVerify
          (handlers.extractBearerToken P (c.Get "Authorization")) = Except.ok p →
        sessionIDFromRequest P h env c = p.SID) ∧
      ((∀ p, ParseAccessToken P h.tokenManager env.tVerify
          (handlers.extractBearerToken P (c.Get "Authorization")) ≠ Except.ok p) →
        ∀ p, ParseAccessToken P h.tokenManager env.tVerifyCookie
          (c.Cookies accessTokenCookieName) = Except.ok p →
        sessionIDFromRequest P h env c = p.SID) ∧
      ((∀ p, ParseAccessToken P h.tokenManager env.tVerify
          (handlers.extractBearerToken P (c.Get "Authorization")) ≠ Except.ok p) →
        (∀ p, ParseAccessToken P h.tokenManager env.tVerifyCookie
          (c.Cookies accessTokenCookieName) ≠ Except.ok p) →
        ∀ p, ParseRefreshToken P h.tokenManager env.tVerifyRefresh
          (c.Cookies refreshTokenCookieName) = Except.ok p →
        sessionIDFromRequest P h env c = p.SID) ∧
      ((∀ p, ParseAccessToken P h.tokenManager env.tVerify
          (handlers.extractBearerToken P (c.Get "Authorization")) ≠ Except.ok p) →
        (∀ p, ParseAccessToken P h.tokenManager env.tVerifyCookie
          (c.Cookies accessTokenCookieName) ≠ Except.ok p) →
        (∀ p, ParseRefreshToken P h.tokenManager env.tVerifyRefresh
          (c.Cookies refreshTokenCookieName) ≠ Except.ok p) →
        sessionIDFromRequest P h env c = c.Query "token" ∧
          (c.Query "token" = "" →
            Logout P h env db c =
              (SendError [] 401 "unable to determine session", db)) ∧
          (c.Query "token" ≠ "" → env.faults.sessionDelete = false →
            Logout P h env db c =
              (SendSuccess (clearAuthCookies h) 200 "logged out successfully" Data.nil,
                { sessions := db.sessions.filter (fun r => r.ID != c.Query "token"),
                  users := db.users,
                  calls := db.calls ++ [StoreCall.sessionDelete (c.Query "token")] }))) := by
  have hH : ∀ p, ParseAccessToken P h.tokenManager env.tVerify
      (handlers.extractBearerToken P (c.Get "Authorization")) = Except.ok p →
      sessionIDFromRequest P h env c = p.SID := by
    intro p hp
    have hne := parse_access_ne_empty hp
    simp [sessionIDFromRequest, hne, hp, Except.toOption]
  have hHfail : (∀ p, ParseAccessToken P h.tokenManager env.tVerify
      (handlers.extractBearerToken P (c.Get "Authorization")) ≠ Except.ok p) →
      (if handlers.extractBearerToken P (c.Get "Authorization") ≠ "" then
        (ParseAccessToken P h.tokenManager env.tVerify
          (handlers.extractBearerToken P (c.Get "Authorization"))).toOption
       else none) = none := by
    intro hf
    by_cases h0 : handlers.extractBearerToken P (c.Get "Authorization") = ""
    · simp [h0]
    · simp [h0, toOption_error hf]
  have hCfail : (∀ p, ParseAccessToken P h.tokenManager env.tVerifyCookie
      (c.Cookies accessTokenCookieName) ≠ Except.ok p) →
      (if c.Cookies accessTokenCookieName ≠ "" then
        (ParseAccessToken P h.tokenManager env.tVerifyCookie
          (c.Cookies accessTokenCookieName)).toOption
       else none) = none := by
    intro hf
    by_cases h0 : c.Cookies accessTokenCookieName = ""
    · simp [h0]
    · simp [h0, toOption_error hf]
  have hRfail : (∀ p, ParseRefreshToken P h.tokenManager env.tVerifyRefresh
      (c.Cookies refreshTokenCookieName) ≠ Except.ok p) →
      (if c.Cookies refreshTokenCookieName ≠ "" then
        (ParseRefreshToken P h.tokenManager env.tVerifyRefresh
          (c.Cookies refreshTokenCookieName)).toOption
       else none) = none := by
    intro hf
    by_cases h0 : c.Cookies refreshTokenCookieName = ""
    · simp [h0]
    · simp [h0, toOption_error hf]
  refine ⟨hH, ?_, ?_, ?_⟩
  · intro hf p hp
    have hne := parse_access_ne_empty hp
    simp only [sessionIDFromRequest, hHfail hf]
    simp [hne, hp, Except.toOption]
  · intro hf hfc p hp
    have hne := parse_refresh_ne_empty hp
    simp only [sessionIDFromRequest, hHfail hf, hCfail hfc]
    simp [hne, hp, Except.toOption]
  · intro hf hfc hfr
    have hsid : sessionIDFromRequest P h env c = c.Query "token" := by
      simp only [sessionIDFromRequest, hHfail hf, hCfail hfc, hRfail hfr]
    refine ⟨hsid, ?_, ?_⟩
    · intro hq
      simp [Logout, hsid, hq, StatusUnauthorized]
    intro hq hd
    simp [Logout, hsid, hq, hd, session.DeleteSession, repository.sessionRepository.Delete,
      Store.record, StatusOK]

/-- C26 at a concrete input: a request without header and cookies that names
alice's session `s1` in the query is answered 200, and `s1` is gone. -/
theorem sessionIDFromRequest_order_witness :
    sessionIDFromRequest sample.primitives sample.handler
        (sample.envAt (1100 * second) sample.ids1) (sample.queryLogoutRequest "s1") = "s1" ∧
      (Logout sample.primitives sample.handler (sample.envAt (1100 * second) sample.ids1)
        sample.db1 (sample.queryLogoutRequest "s1")).1.status = 200 ∧
      (Logout sample.primitives sample.handler (sample.envAt (1100 * second) sample.ids1)
        sample.db1 (sample.queryLogoutRequest "s1")).2.sessions = [] :=
  have w := (sessionIDFromRequest_order sample.primitives sample.handler
    (sample.envAt (1100 * second) sample.ids1) sample.db1
    (sample.queryLogoutRequest "s1")).2.2.2
    (not_ok_of_isNone (by decide)) (not_ok_of_isNone (by decide))
    (not_ok_of_isNone (by decide))
  have hrun := w.2.2 (by decide) rfl
  ⟨w.1.trans (by decide), by rw [hrun]; rfl, by rw [hrun]; decide⟩

/-! ## C25 -/

/-- What `service.Create` of package `user` does once the email is free, the
password is hashed, and the insert succeeds. -/
theorem user_create_ok (P : Primitives) (env : CreateEnv) (db : Store)
    (u : user.CreateUserRequest) (hash : String)
    (hget : env.faultGet = false)
    (hfree : db.users.find? (fun x => x.Email == u.Email) = none)
    (hhash : HashPassword P u.Password = Except.ok hash)
    (hcreate : env.faultCreate = false)
    (hid : db.users.find? (fun x => x.ID == env.newID) = none) :
    ∃ created : user.User,
      user.Create P env db u =
        (Except.ok created,
          { sessions := db.sessions, users := db.users ++ [created],
            calls := db.calls ++ [StoreCall.userGetByEmail u.Email,
              StoreCall.userCreate env.newID] }) ∧
      created.Role = u.Role ∧ created.Email = u.Email ∧ created.ID = env.newID ∧
      created.PasswordHash = hash := by
  refine ⟨
    { ID := env.newID, Email := u.Email, PasswordHash := hash, Fullname := u.Fullname,
      Username := u.Username, Role := u.Role, Avatar := none,
      CreatedAt := if env.tCreated = zeroTime then env.tStore else env.tCreated,
      UpdatedAt := if env.tUpdated = zeroTime then env.tStore else env.tUpdated }, ?_, ?_⟩
  · simp [user.Create, repository.userRepository.GetByEmail, hget, hfree, hhash,
      repository.userRepository.Create, hcreate, Store.record, hid]
  · exact ⟨rfl, rfl, rfl, rfl⟩

/-- Whatever `service.Create` returns as the created user carries the role of the
request. -/
theorem user_create_role (P : Primitives) (env : CreateEnv) (db : Store)
    (u : user.CreateUserRequest) (created : user.User)
    (hok : (user.Create P env db u).1 = Except.ok created) :
    created.Role = u.Role ∧ (user.Create P env db u).2.users = db.users ++ [created] := by
  unfold user.Create repository.userRepository.GetByEmail at hok ⊢
  cases hg : env.faultGet with
  | true => simp [hg] at hok
  | false =>
    cases hf : db.users.find? (fun x => x.Email == u.Email) with
    | some x => simp [hg, hf] at hok
    | none =>
      cases hh : HashPassword P u.Password with
      | error e => simp [hg, hf, hh] at hok
      | ok hash =>
        by_cases hc : env.faultCreate = true ∨ ∃ x ∈ db.users, x.ID = env.newID
        · simp [hg, hf, hh, repository.userRepository.Create, Store.record, hc] at hok
        · simp [hg, hf, hh, repository.userRepository.Create, Store.record, hc] at hok ⊢
          subst hok
          exact ⟨rfl, rfl⟩

/-- C25: `RegisterUser` hands the role of the request to `service.Create` as it
is. When the email is free (and the lookup, the hasher and the insert succeed,
the drawn id being new) it returns a created user whose `Role` is the role of the
request, and the store holds that user appended; any user it returns has the role
of the request. With an empty role the stored role is the empty string, where
`createUserUseCase.Execute` on the same fields stores `user`. When the lookup
finds the email, it fails with `ErrEmailTaken` and the users are unchanged. -/
theorem registerUser_role_verbatim (P : Primitives) (env : CreateEnv) (db : Store)
    (r : auth.RegisterRequest) :
    (∀ hash, env.faultGet = false →
        db.users.find? (fun x => x.Email == r.Email) = none →
        HashPassword P r.Password = Except.ok hash →
        env.faultCreate = false →
        db.users.find? (fun x => x.ID == env.newID) = none →
        ∃ created : user.User,
          (auth.RegisterUser P env db r).1 = Except.ok created ∧
          created.Role = r.Role ∧ created.Email = r.Email ∧
          (auth.RegisterUser P env db r).2.users = db.users ++ [created] ∧
          (r.Role = "" →
            ∃ viaUseCase : user.User,
              (usecase.createUserUseCase.Execute P env db
                { Email := r.Email, Password := r.Password, Fullname := r.Fullname,
                  Username := r.Username, Role := r.Role }).1 = Except.ok viaUseCase ∧
              viaUseCase.Role = "user" ∧ created.Role = "")) ∧
      (∀ created, (auth.RegisterUser P env db r).1 = Except.ok created →
        created.Role = r.Role ∧
          (auth.RegisterUser P env db r).2.users = db.users ++ [created]) ∧
      (∀ x, env.faultGet = false →
        db.users.find? (fun x => x.Email == r.Email) = some x →
        (auth.RegisterUser P env db r).1 = Except.error Error.ErrEmailTaken ∧
          (auth.RegisterUser P env db r).2.users = db.users) := by
  refine ⟨?_, ?_, ?_⟩
  · intro hash hget hfree hhash hcreate hid
    obtain ⟨created, hrun, hrole, hemail, _, _⟩ :=
      user_create_ok P env db
        { Email := r.Email, Password := r.Password, Fullname := r.Fullname,
          Username := r.Username, Role := r.Role } hash hget hfree hhash hcreate hid
    refine ⟨created, ?_, hrole, hemail, ?_, ?_⟩
    · simp only [auth.RegisterUser, hrun]
    · simp only [auth.RegisterUser, hrun]
    · intro hempty
      obtain ⟨v, hv, hvrole, _⟩ :=
        user_create_ok P env db
          { Email := r.Email, Password := r.Password, Fullname := r.Fullname,
            Username := r.Username, Role := user.RoleUser } hash hget hfree hhash hcreate hid
      refine ⟨v, ?_, hvrole, hrole.trans hempty⟩
      simp only [usecase.createUserUseCase.Execute, hempty, if_true, hv]
  · intro created hok
    exact user_create_role P env db _ created hok
  · intro x hget hx
    simp [auth.RegisterUser, user.Create, repository.userRepository.GetByEmail, hget, hx,
      Store.record]

/-- C25 at a concrete input: bob registers with role `admin` in the store that
holds alice, and is stored as `admin`; alice's email is refused. -/
theorem registerUser_role_verbatim_witness :
    (∃ created : user.User,
      (auth.RegisterUser sample.primitives sample.createEnv sample.db0
          (sample.registerBob "pw" "admin")).1 = Except.ok created ∧
        created.Role = "admin") ∧
      (auth.RegisterUser sample.primitives sample.createEnv sample.db0
        { Username := "al", Password := "pw", Fullname := "Al", Email := sample.alice.Email,
          Role := "user" }).1 = Except.error Error.ErrEmailTaken :=
  ⟨(((registerUser_role_verbatim sample.primitives sample.createEnv sample.db0
        (sample.registerBob "pw" "admin")).1 "pw" rfl (by decide) (by decide) rfl
        (by decide)).imp fun _ hc => ⟨hc.1, hc.2.1⟩),
    ((registerUser_role_verbatim sample.primitives sample.createEnv sample.db0
        { Username := "al", Password := "pw", Fullname := "Al", Email := sample.alice.Email,
          Role := "user" }).2.2 sample.alice rfl (by decide)).1⟩

/-! ## C23 -/

/-- The method `Refresh` is its two halves run one after the other. -/
theorem refresh_eq_commit_prepare (P : Primitives) (h : authHandler) (env : Env) (db : Store)
    (c : Request) :
    Refresh P h env db c =
      refreshCommit P h env (refreshPrepare P h env db c).2 c (refreshPrepare P h env db c).1 := by
  unfold Refresh refreshPrepare
  simp only []
  repeat' split
  all_goals first | rfl | simp_all [refreshCommit]

/-- What the second half of `Refresh` does with a rotation when the update reaches
the database. -/
theorem refreshCommit_rotate (P : Primitives) (h : authHandler) (env : Env) (db : Store)
    (c : Request) (sess : session.Session) (u : user.User) (pair : TokenPair)
    (hfault : env.faults.sessionUpdate = false) :
    refreshCommit P h env db c (RefreshStep.rotate sess u pair) =
      (SendSuccess (setAuthCookies h env.tAccessCookie env.tRefreshCookie pair) 200
          "tokens refreshed"
          (Data.tokens (sanitizeUser u) pair.SID pair.AccessExp pair.RefreshExp),
        { sessions := db.sessions.map (fun r =>
            if r.ID = sess.ID then
              repository.merge env.tStore r
                (rotationPatch P env pair.RefreshToken pair.RefreshExp c.IP (c.Get "User-Agent"))
            else r),
          users := db.users,
          calls := db.calls ++ [StoreCall.sessionUpdate sess.ID] }) := by
  simp [refreshCommit, rotateSession, session.UpdateSession,
    repository.sessionRepository.Update, hfault, rotationPatch, Store.record, StatusOK]

/-- C23, as stated, fails: alice's session `s1` holds the hash of `r1.rk`, and two
refreshes present `r1.rk`; both read and compare the hash before either writes.
The first then writes the hash of `r2.rk` and answers 200; the second, which read
the hash of `r1.rk`, writes the hash of `r3.rk` over it and answers 200 as well. -/
theorem concurrent_refreshes_both_rotate :
    (∃ u pair, sample.prepareA.1 = RefreshStep.rotate
        { ID := "s1", UserID := "u1", IPAddress := "10.0.0.1", UserAgent := "ua0", Valid := true,
          ExpiresAt := 4600 * second, RefreshTokenHash := HashToken sample.primitives "r1.rk",
          CreatedAt := 1000 * second, UpdatedAt := 1000 * second } u pair ∧
        pair.RefreshToken = "r2.rk") ∧
      (∃ u pair, sample.prepareB.1 = RefreshStep.rotate
        { ID := "s1", UserID := "u1", IPAddress := "10.0.0.1", UserAgent := "ua0", Valid := true,
          ExpiresAt := 4600 * second, RefreshTokenHash := HashToken sample.primitives "r1.rk",
          CreatedAt := 1000 * second, UpdatedAt := 1000 * second } u pair ∧
        pair.RefreshToken = "r3.rk") ∧
      sample.commitA.1.status = 200 ∧
      (sample.commitA.2.session? "s1").map (fun s => s.RefreshTokenHash) =
        some (HashToken sample.primitives "r2.rk") ∧
      HashToken sample.primitives "r2.rk" ≠ HashToken sample.primitives "r1.rk" ∧
      sample.commitB.1.status = 200 ∧
      (sample.commitB.2.session? "s1").map (fun s => s.RefreshTokenHash) =
        some (HashToken sample.primitives "r3.rk") := by
  refine ⟨⟨_, _, rfl, ?_⟩, ⟨_, _, rfl, ?_⟩, ?_, ?_, ?_, ?_, ?_⟩ <;> decide

/-- C23, amended: the update of a rotation is keyed by the session id alone. The
update reaching the database, the second half of `Refresh` answers 200 and
merges the new hash and expiry into every record with the id of the session that
was read, whatever `refreshTokenHash` that record holds by then. So when two
refreshes of one session have both passed their checks before either writes,
both answer 200, and the record ends with the hash of the refresh token of the
one that wrote last. `Refresh` itself is these two halves run one after the
other. -/
theorem rotation_update_unconditional (P : Primitives) (h : authHandler) (envA envB : Env)
    (db : Store) (c : Request) (sessA sessB : session.Session) (uA uB : user.User)
    (pairA pairB : TokenPair)
    (hA : envA.faults.sessionUpdate = false) (hB : envB.faults.sessionUpdate = false)
    (hid : sessB.ID = sessA.ID) :
    (refreshCommit P h envA db c (RefreshStep.rotate sessA uA pairA)).1.status = 200 ∧
      (refreshCommit P h envA db c (RefreshStep.rotate sessA uA pairA)).2.sessions =
        db.sessions.map (fun r =>
          if r.ID = sessA.ID then
            repository.merge envA.tStore r
              (rotationPatch P envA pairA.RefreshToken pairA.RefreshExp c.IP (c.Get "User-Agent"))
          else r) ∧
      (refreshCommit P h envB
        (refreshCommit P h envA db c (RefreshStep.rotate sessA uA pairA)).2 c
        (RefreshStep.rotate sessB uB pairB)).1.status = 200 ∧
      (refreshCommit P h envB
        (refreshCommit P h envA db c (RefreshStep.rotate sessA uA pairA)).2 c
        (RefreshStep.rotate sessB uB pairB)).2.sessions =
        db.sessions.map (fun r =>
          if r.ID = sessA.ID then
            repository.merge envB.tStore
              (repository.merge envA.tStore r
                (rotationPatch P envA pairA.RefreshToken pairA.RefreshExp c.IP
                  (c.Get "User-Agent")))
              (rotationPatch P envB pairB.RefreshToken pairB.RefreshExp c.IP (c.Get "User-Agent"))
          else r) ∧
      (∀ r : session.Session,
        (repository.merge envB.tStore
          (repository.merge envA.tStore r
            (rotationPatch P envA pairA.RefreshToken pairA.RefreshExp c.IP (c.Get "User-Agent")))
          (rotationPatch P envB pairB.RefreshToken pairB.RefreshExp c.IP
            (c.Get "User-Agent"))).RefreshTokenHash = HashToken P pairB.RefreshToken) ∧
      (∀ (env : Env) (db0 : Store),
        Refresh P h env db0 c =
          refreshCommit P h env (refreshPrepare P h env db0 c).2 c
            (refreshPrepare P h env db0 c).1) := by
  rw [refreshCommit_rotate P h envB _ c sessB uB pairB hB,
    refreshCommit_rotate P h envA db c sessA uA pairA hA]
  refine ⟨rfl, rfl, rfl, ?_, ?_, fun env db0 => refresh_eq_commit_prepare P h env db0 c⟩
  · simp only [List.map_map, hid]
    apply List.map_congr_left
    intro r _
    by_cases hr : r.ID = sessA.ID
    · simp [hr, repository.merge, rotationPatch]
    · simp [hr]
  · intro r
    simp [repository.merge, rotationPatch, HashToken_ne_empty]

/-- C23 amended, at a concrete input: the two refreshes of `s1` that present
`r1.rk`, written one after the other onto the store that holds the hash of
`r1.rk`. -/
theorem rotation_update_unconditional_witness :
    (refreshCommit sample.primitives sample.handler (sample.envAt (2000 * second) sample.ids2)
        (refreshCommit sample.primitives sample.handler
          (sample.envAt (2000 * second) sample.ids1) sample.db1 (sample.refreshRequest "r1.rk")
          (RefreshStep.rotate
            { ID := "s1", UserID := "u1", IPAddress := "10.0.0.1", UserAgent := "ua0",
              Valid := true, ExpiresAt := 4600 * second,
              RefreshTokenHash := HashToken sample.primitives "r1.rk",
              CreatedAt := 1000 * second, UpdatedAt := 1000 * second }
            sample.alice
            { AccessToken := "a2.ak", RefreshToken := "r2.rk", AccessExp := 2900 * second,
              RefreshExp := 5600 * second, JTI := "a2", SID := "s2" })).2
        (sample.refreshRequest "r1.rk")
        (RefreshStep.rotate
          { ID := "s1", UserID := "u1", IPAddress := "10.0.0.1", UserAgent := "ua0",
            Valid := true, ExpiresAt := 4600 * second,
            RefreshTokenHash := HashToken sample.primitives "r1.rk",
            CreatedAt := 1000 * second, UpdatedAt := 1000 * second }
          sample.alice
          { AccessToken := "a3.ak", RefreshToken := "r3.rk", AccessExp := 2900 * second,
            RefreshExp := 5600 * second, JTI := "a3", SID := "s3" })).1.status = 200 :=
  (rotation_update_unconditional sample.primitives sample.handler
    (sample.envAt (2000 * second) sample.ids1) (sample.envAt (2000 * second) sample.ids2)
    sample.db1 (sample.refreshRequest "r1.rk")
    { ID := "s1", UserID := "u1", IPAddress := "10.0.0.1", UserAgent := "ua0",
      Valid := true, ExpiresAt := 4600 * second,
      RefreshTokenHash := HashToken sample.primitives "r1.rk",
      CreatedAt := 1000 * second, UpdatedAt := 1000 * second }
    { ID := "s1", UserID := "u1", IPAddress := "10.0.0.1", UserAgent := "ua0",
      Valid := true, ExpiresAt := 4600 * second,
      RefreshTokenHash := HashToken sample.primitives "r1.rk",
      CreatedAt := 1000 * second, UpdatedAt := 1000 * second }
    sample.alice sample.alice
    { AccessToken := "a2.ak", RefreshToken := "r2.rk", AccessExp := 2900 * second,
      RefreshExp := 5600 * second, JTI := "a2", SID := "s2" }
    { AccessToken := "a3.ak", RefreshToken := "r3.rk", AccessExp := 2900 * second,
      RefreshExp := 5600 * second, JTI := "a3", SID := "s3" }
    rfl rfl rfl).2.2.1

/-! ## C24 -/

theorem char_val_lt_iff (c : Char) : c.val < 128 ↔ c.toNat < 128 := by
  rw [UInt32.lt_def, BitVec.lt_def]
  rfl

theorem char_capital_iff (c : Char) : (65 ≤ c.val ∧ c.val ≤ 90) ↔ (c.toNat ≥ 65 ∧ c.toNat ≤ 90) := by
  rw [UInt32.le_def, BitVec.le_def, UInt32.le_def, BitVec.le_def]
  rfl

/-- On an ASCII character `unicode.ToLower` is the ASCII lower-casing. -/
theorem lowerRune_ascii (P : Primitives) (c : Char) (h : c.toNat < 128) :
    strings.lowerRune P c = c.toLower := by
  unfold strings.lowerRune Char.toLower
  rw [if_pos ((char_val_lt_iff c).mpr h)]
  exact if_congr (char_capital_iff c) rfl rfl

theorem ascii_char_facts : ∀ n : Fin 128,
    (Char.ofNat n).utf8Size = 1 ∧ ((Char.ofNat n).toLower = ' ' → Char.ofNat n = ' ') := by
  decide

theorem toLower_of_not_ascii (c : Char) (h : ¬ c.toNat < 128) : c.toLower = c := by
  unfold Char.toLower
  simp only
  rw [if_neg]
  omega

theorem target_ascii {d : Char} (hd : d ∈ ['b', 'e', 'a', 'r', ' ']) : d.toNat < 128 := by
  simp only [List.mem_cons, List.mem_singleton, List.not_mem_nil, or_false] at hd
  rcases hd with h | h | h | h | h <;> subst h <;> decide

/-- A character that lower-cases to one of `b e a r` or the blank is ASCII: it
takes one byte, and it is the blank when it lower-cases to the blank. -/
theorem toLower_target (c d : Char) (hd : d ∈ ['b', 'e', 'a', 'r', ' '])
    (h : c.toLower = d) : c.utf8Size = 1 ∧ (d = ' ' → c = ' ') := by
  by_cases hc : c.toNat < 128
  · have key := ascii_char_facts ⟨c.toNat, hc⟩
    simp only [Char.ofNat_toNat] at key
    exact ⟨key.1, fun hd2 => key.2 (h.trans hd2)⟩
  · rw [toLower_of_not_ascii c hc] at h
    subst h
    exact absurd (target_ascii hd) hc

/-- Lower-casing by `unicode.ToLower` hits one of `b e a r` or the blank exactly
when the ASCII lower-casing does, provided the table of the library sends no
character beyond ASCII to one of them. -/
theorem lowerRune_eq_target (P : Primitives)
    (hlow : ∀ c : Char, 128 ≤ c.toNat → P.unicodeToLower c ∉ ['b', 'e', 'a', 'r', ' '])
    (c d : Char) (hd : d ∈ ['b', 'e', 'a', 'r', ' ']) :
    strings.lowerRune P c = d ↔ c.toLower = d := by
  by_cases hc : c.toNat < 128
  · rw [lowerRune_ascii P c hc]
  · have hval : ¬ c.val < 128 := fun hv => hc ((char_val_lt_iff c).mp hv)
    have hl : strings.lowerRune P c = P.unicodeToLower c := by
      unfold strings.lowerRune
      rw [if_neg hval]
    rw [hl, toLower_of_not_ascii c hc]
    constructor
    · intro h
      exact absurd (h ▸ hd) (hlow c (by omega))
    · intro h
      subst h
      exact absurd (target_ascii hd) hc

theorem isPrefixOf_lower_iff (P : Primitives)
    (hlow : ∀ c : Char, 128 ≤ c.toNat → P.unicodeToLower c ∉ ['b', 'e', 'a', 'r', ' ']) :
    ∀ (ds xs : List Char), (∀ d ∈ ds, d ∈ ['b', 'e', 'a', 'r', ' ']) →
      (ds.isPrefixOf (xs.map (strings.lowerRune P)) = true ↔
        (xs.take ds.length).map Char.toLower = ds) := by
  intro ds
  induction ds with
  | nil => intro xs _; simp
  | cons d ds ih =>
    intro xs hds
    cases xs with
    | nil => simp [List.isPrefixOf]
    | cons x xs =>
      have hd := hds d (List.mem_cons_self _ _)
      have ih2 := ih xs (fun e he => hds e (List.mem_cons_of_mem _ he))
      simp only [List.map_cons, List.isPrefixOf, Bool.and_eq_true, beq_iff_eq, List.length_cons,
        List.take_succ_cons, List.cons.injEq]
      rw [ih2, eq_comm, lowerRune_eq_target P hlow x d hd]

theorem dropBytes_of_single : ∀ (n : Nat) (xs : List Char),
    (∀ c ∈ xs.take n, c.utf8Size = 1) → strings.dropBytes n xs = xs.drop n := by
  intro n xs
  induction xs generalizing n with
  | nil => intro _; cases n <;> simp [strings.dropBytes]
  | cons x xs ih =>
    intro h
    cases n with
    | zero => simp [strings.dropBytes]
    | succ n =>
      have hx : x.utf8Size = 1 := h x (by simp)
      simp only [strings.dropBytes, hx, Nat.add_sub_cancel, List.drop_succ_cons]
      exact ih n (fun c hc => h c (by simp [hc]))

theorem utf8ByteSize_go_ge (cs : List Char) : cs.length ≤ String.utf8ByteSize.go cs := by
  induction cs with
  | nil => simp [String.utf8ByteSize.go]
  | cons c cs ih =>
    have := Char.utf8Size_pos c
    simp only [String.utf8ByteSize.go, List.length_cons]
    omega

theorem trimSpace_mk_eq_empty_iff (cs : List Char) :
    strings.TrimSpace (String.mk cs) = "" ↔ cs.all strings.isSpace = true := by
  unfold strings.TrimSpace
  rw [String.ext_iff]
  simp only [List.reverse_eq_nil_iff, List.dropWhile_eq_nil_iff, List.mem_reverse,
    List.all_eq_true]
  constructor
  · intro h
    have hnil : cs.dropWhile strings.isSpace = [] := by
      by_contra hne
      have h1 := List.head_dropWhile_not strings.isSpace cs hne
      have h2 := h _ (List.head_mem hne)
      rw [h1] at h2
      exact absurd h2 (by decide)
    exact List.dropWhile_eq_nil_iff.mp hnil
  · intro h x hx
    rw [List.dropWhile_eq_nil_iff.mpr h] at hx
    simp at hx

theorem trimSpace_last (s : String) (c : Char)
    (h : (strings.TrimSpace s).data.getLast? = some c) : strings.isSpace c = false := by
  unfold strings.TrimSpace at h
  simp only [List.getLast?_reverse] at h
  have := List.head?_dropWhile_not strings.isSpace (s.data.dropWhile strings.isSpace).reverse
  rw [h] at this
  exact this

theorem toLower_bearer (P : Primitives) : strings.ToLower P "Bearer " = "bearer " := by
  have hmap : "Bearer ".data.map (strings.lowerRune P) = "Bearer ".data.map Char.toLower := by
    apply List.map_congr_left
    intro c hc
    apply lowerRune_ascii
    revert c
    decide
  unfold strings.ToLower
  rw [hmap]
  decide

/-- The test of `extractBearerToken`, read on the trimmed header itself: its
first seven characters are `bearer ` up to the case of the ASCII letters. -/
theorem hasPrefix_bearer_iff (P : Primitives)
    (hlow : ∀ c : Char, 128 ≤ c.toNat → P.unicodeToLower c ∉ ['b', 'e', 'a', 'r', ' '])
    (t : String) :
    strings.HasPrefix (strings.ToLower P t) (strings.ToLower P "Bearer ") = true ↔
      (t.data.take 7).map Char.toLower = "bearer ".data := by
  rw [toLower_bearer]
  have key := isPrefixOf_lower_iff P hlow "bearer ".data t.data (by decide)
  have h7 : "bearer ".data.length = 7 := by decide
  rw [h7] at key
  exact key

/-- A list that lower-cases to `bearer ` ends in a blank. -/
theorem last_of_bearer (l : List Char) (hl : l.map Char.toLower = "bearer ".data) :
    l.getLast? = some ' ' := by
  have h7 : l.getLast?.map Char.toLower = some ' ' := by
    rw [← List.getLast?_map, hl]
    decide
  cases hg : l.getLast? with
  | none => rw [hg] at h7; simp at h7
  | some c =>
    rw [hg] at h7
    simp only [Option.map_some', Option.some.injEq] at h7
    rw [(toLower_target c ' ' (by decide) h7).2 rfl]

/-- What follows `bearer ` in a trimmed header is not blank throughout. -/
theorem rest_not_blank (h : String)
    (hpre : ((strings.TrimSpace h).data.take 7).map Char.toLower = "bearer ".data) :
    ((strings.TrimSpace h).data.drop 7).all strings.isSpace = false := by
  have hsplit := List.take_append_drop 7 (strings.TrimSpace h).data
  have hlast := last_of_bearer _ hpre
  have hg : (strings.TrimSpace h).data.getLast? =
      ((strings.TrimSpace h).data.drop 7).getLast?.or
        ((strings.TrimSpace h).data.take 7).getLast? := by
    conv_lhs => rw [← hsplit]
    exact List.getLast?_append
  rw [hlast] at hg
  cases hr : ((strings.TrimSpace h).data.drop 7).getLast? with
  | none =>
    rw [hr] at hg
    have := trimSpace_last h ' ' hg
    exact absurd this (by decide)
  | some c =>
    rw [hr] at hg
    have hc := trimSpace_last h c hg
    have hmem := List.mem_of_getLast?_eq_some hr
    rw [Bool.eq_false_iff]
    intro hall
    rw [List.all_eq_true] at hall
    rw [hall c hmem] at hc
    exact absurd hc (by decide)

/-- What `extractBearerToken` returns on a header that passes its test. -/
theorem extractBearerToken_bearer (P : Primitives)
    (hlow : ∀ c : Char, 128 ≤ c.toNat → P.unicodeToLower c ∉ ['b', 'e', 'a', 'r', ' '])
    (h : String)
    (hpre : ((strings.TrimSpace h).data.take 7).map Char.toLower = "bearer ".data) :
    7 ≤ (strings.TrimSpace h).utf8ByteSize ∧
      strings.sliceFrom (strings.TrimSpace h) "Bearer ".utf8ByteSize =
        String.mk ((strings.TrimSpace h).data.drop 7) ∧
      middleware.extractBearerToken P h =
        strings.TrimSpace (String.mk ((strings.TrimSpace h).data.drop 7)) := by
  have hlen : 7 ≤ (strings.TrimSpace h).data.length := by
    have h1 := congrArg List.length hpre
    rw [List.length_map, List.length_take] at h1
    have h7 : "bearer ".data.length = 7 := by decide
    rw [h7] at h1
    omega
  have hslice : strings.sliceFrom (strings.TrimSpace h) "Bearer ".utf8ByteSize =
      String.mk ((strings.TrimSpace h).data.drop 7) := by
    have h7 : "Bearer ".utf8ByteSize = 7 := by decide
    unfold strings.sliceFrom
    rw [h7, dropBytes_of_single]
    intro c hc
    have hm : c.toLower ∈ "bearer ".data := by
      rw [← hpre]
      exact List.mem_map_of_mem _ hc
    have ht : c.toLower ∈ ['b', 'e', 'a', 'r', ' '] := by
      revert hm
      generalize c.toLower = d
      revert d
      decide
    exact (toLower_target c _ ht rfl).1
  have hne : h ≠ "" := by
    intro h0
    subst h0
    revert hlen
    decide
  refine ⟨le_trans hlen (utf8ByteSize_go_ge _), hslice, ?_⟩
  unfold middleware.extractBearerToken
  rw [if_neg hne]
  simp only
  rw [if_pos ((hasPrefix_bearer_iff P hlow _).mpr hpre), hslice]

/-- C24: `extractBearerToken` (of both packages, which agree) is total, and when
its test passes the trimmed header has at least the seven bytes that are cut
off, the cut falling after the seventh character. It returns the empty string
exactly when the header is empty or all whitespace. When the trimmed header
starts with `bearer ` in any letter case the result is the trimmed remainder;
otherwise it is the whole trimmed header. So for a header that is not blank,
`extractToken` returns what `extractBearerToken` returns and reads neither the
cookie nor the query. The table of `unicode.ToLower` beyond ASCII is taken as
given; it is assumed to send no such character to `b`, `e`, `a`, `r` or the
blank. -/
theorem extractBearerToken_contract (P : Primitives)
    (hlow : ∀ c : Char, 128 ≤ c.toNat → P.unicodeToLower c ∉ ['b', 'e', 'a', 'r', ' '])
    (h : String) :
    handlers.extractBearerToken P h = middleware.extractBearerToken P h ∧
      (middleware.extractBearerToken P h = "" ↔ h.data.all strings.isSpace = true) ∧
      (((strings.TrimSpace h).data.take 7).map Char.toLower = "bearer ".data →
        7 ≤ (strings.TrimSpace h).utf8ByteSize ∧
          strings.sliceFrom (strings.TrimSpace h) "Bearer ".utf8ByteSize =
            String.mk ((strings.TrimSpace h).data.drop 7) ∧
          middleware.extractBearerToken P h =
            strings.TrimSpace (String.mk ((strings.TrimSpace h).data.drop 7))) ∧
      (((strings.TrimSpace h).data.take 7).map Char.toLower ≠ "bearer ".data →
        middleware.extractBearerToken P h = strings.TrimSpace h) ∧
      (∀ (a : AuthMiddleware) (c : Request), c.Get "Authorization" = h →
        h.data.all strings.isSpace = false →
        extractToken P a c = middleware.extractBearerToken P h) := by
  have hother : ((strings.TrimSpace h).data.take 7).map Char.toLower ≠ "bearer ".data →
      middleware.extractBearerToken P h = strings.TrimSpace h := by
    intro hn
    unfold middleware.extractBearerToken
    by_cases h0 : h = ""
    · subst h0
      rw [if_pos rfl]
      decide
    · rw [if_neg h0]
      simp only
      rw [if_neg]
      intro hp
      exact hn ((hasPrefix_bearer_iff P hlow _).mp hp)
  have hempty : middleware.extractBearerToken P h = "" ↔ h.data.all strings.isSpace = true := by
    by_cases hp : ((strings.TrimSpace h).data.take 7).map Char.toLower = "bearer ".data
    · have hres := (extractBearerToken_bearer P hlow h hp).2.2
      have hrest := rest_not_blank h hp
      have htrim : strings.TrimSpace h ≠ "" := by
        intro ht
        rw [ht] at hp
        revert hp
        decide
      have hall : ¬ h.data.all strings.isSpace = true :=
        fun ha => htrim ((trimSpace_mk_eq_empty_iff h.data).mpr ha)
      constructor
      · intro he
        rw [hres, trimSpace_mk_eq_empty_iff, hrest] at he
        exact absurd he (by decide)
      · intro ha
        exact absurd ha hall
    · rw [hother hp]
      exact trimSpace_mk_eq_empty_iff h.data
  refine ⟨rfl, hempty, extractBearerToken_bearer P hlow h, hother, ?_⟩
  intro a c hc hb
  have hne : middleware.extractBearerToken P h ≠ "" := by
    intro he
    rw [hempty.mp he] at hb
    exact absurd hb (by decide)
  unfold extractToken
  rw [hc, if_pos hne]

/-- C24 at concrete inputs: `bEaReR  a1.ak ` gives `a1.ak`; a bare `Bearer` and
`Basic abc` are returned whole; and with the header `Bearer` the gate takes
`Bearer` as the token although the request carries an access cookie. -/
theorem extractBearerToken_contract_witness :
    middleware.extractBearerToken sample.primitives " bEaReR  a1.ak " = "a1.ak" ∧
      middleware.extractBearerToken sample.primitives "Bearer   " = "Bearer" ∧
      middleware.extractBearerToken sample.primitives "Basic abc" = "Basic abc" ∧
      extractToken sample.primitives sample.gate
        { headers := [("Authorization", "Bearer")], cookies := [("access_token", "a1.ak")],
          query := [], ip := "10.0.0.1", loginBody := none } = "Bearer" :=
  ⟨((extractBearerToken_contract sample.primitives
        (fun _ hc hm => absurd (target_ascii hm) (Nat.not_lt.mpr hc))
        " bEaReR  a1.ak ").2.2.1 (by decide)).2.2.trans (by decide),
    ((extractBearerToken_contract sample.primitives
        (fun _ hc hm => absurd (target_ascii hm) (Nat.not_lt.mpr hc))
        "Bearer   ").2.2.2.1 (by decide)).trans (by decide),
    ((extractBearerToken_contract sample.primitives
        (fun _ hc hm => absurd (target_ascii hm) (Nat.not_lt.mpr hc))
        "Basic abc").2.2.2.1 (by decide)).trans (by decide),
    ((extractBearerToken_contract sample.primitives
        (fun _ hc hm => absurd (target_ascii hm) (Nat.not_lt.mpr hc))
        "Bearer").2.2.2.2 sample.gate
        { headers := [("Authorization", "Bearer")], cookies := [("access_token", "a1.ak")],
          query := [], ip := "10.0.0.1", loginBody := none } (by decide) (by decide)).trans
      (by decide)⟩

end UserAuth
